import Mathlib

/-!
# openapi-proxy: the request-forwarding engine

A shallow embedding of the Go sources `proxy/proxy.go`, `proxy/writer.go`,
`proxy/log.go`, `proxy/cursor.go`, `plugin/mock.go` and `plugin/model_map.go`.

Conventions of the embedding:

* Go byte strings (paths, header values, bodies) are Lean `String`s; `len` is
  `String.utf8ByteSize`.
* `http.Header` is a total map from the canonical header name to its list of
  values; an absent key is the empty list.  Every header name the gateway uses
  is a literal already in canonical MIME form, and net/http stores every
  header it parses under its canonical name.
* Mutation through a pointer (`*http.Request`, the response writer) is
  explicit state passing.
* What lies outside the repository (encoding/json, net/url, the clock, the
  network transport, the parts of httputil.ReverseProxy around the three
  callbacks) is collected in `Env`; the theorems hold for every `Env`.
* Calls of the logger are recorded as a list of `LogEntry`; the before-hooks
  that ran and the requests handed to the transport are recorded the same way.
-/

namespace OpenapiProxy

/-! ## Package `strings` and `path` -/

/-- Go `strings.HasPrefix`. -/
def HasPrefix (s p : String) : Bool := p.data.isPrefixOf s.data

/-- Go `strings.TrimPrefix`. -/
def TrimPrefix (s p : String) : String :=
  if HasPrefix s p then ⟨s.data.drop p.data.length⟩ else s

/-- Substring test on character lists. -/
def containsChars : List Char → List Char → Bool
  | [], sub => sub.isPrefixOf []
  | c :: cs, sub => sub.isPrefixOf (c :: cs) || containsChars cs sub

/-- Go `strings.Contains`. -/
def Contains (s sub : String) : Bool := containsChars s.data sub.data

/-- Splitting at every slash, as `strings.Split(s, "/")` does. -/
def splitSlash : List Char → List (List Char)
  | [] => [[]]
  | c :: cs =>
    match splitSlash cs with
    | [] => [[]]
    | seg :: rest => if c = '/' then [] :: seg :: rest else (c :: seg) :: rest

/-- One path element met by `path.Clean`; `stack` holds the elements kept so
far, the last one first.  Empty and `.` elements are dropped, `..` removes the
last kept element when there is one to remove, is dropped at the root and is
kept in front of a relative path. -/
def cleanStep (rooted : Bool) (stack : List (List Char)) (seg : List Char) :
    List (List Char) :=
  if seg = [] ∨ seg = ['.'] then stack
  else if seg = ['.', '.'] then
    match stack with
    | top :: rest =>
      if top = ['.', '.'] then (if rooted then stack else seg :: stack) else rest
    | [] => if rooted then [] else [seg]
  else seg :: stack

/-- Go `path.Clean`. -/
def Clean (path : String) : String :=
  if path = "" then "."
  else
    let rooted := HasPrefix path "/"
    let stack := (splitSlash path.data).foldl (cleanStep rooted) []
    let body : List Char := List.intercalate ['/'] stack.reverse
    if rooted then ⟨'/' :: body⟩
    else if body = [] then "."
    else ⟨body⟩

/-- The buffer `path.Join` fills before cleaning: an element is appended when
the buffer is non-empty or the element is, with a slash in between. -/
def joinStep (buf : String) (e : String) : String :=
  if buf ≠ "" ∨ e ≠ "" then (if buf ≠ "" then buf ++ "/" ++ e else e) else buf

/-- Go `path.Join`. -/
def Join (elem : List String) : String :=
  if (elem.map String.utf8ByteSize).sum = 0 then ""
  else Clean (elem.foldl joinStep "")

/-! ## Errors -/

/-- Go `error` values, as far as the gateway tells them apart. -/
inductive GoError where
  /-- The sentinel http.ErrAbortHandler. -/
  | ErrAbortHandler
  /-- The value context.Canceled. -/
  | Canceled
  /-- The value context.DeadlineExceeded. -/
  | DeadlineExceeded
  /-- A syscall.Errno. -/
  | Errno (n : Nat)
  /-- Any other error without an inner error, with its description. -/
  | New (text : String)
  /-- An error whose `Unwrap` yields `inner`, with its own description. -/
  | Wrap (text : String) (inner : GoError)
  deriving DecidableEq, Repr

/-- The errno syscall.EPIPE. -/
def EPIPE : GoError := GoError.Errno 32

/-- The errno syscall.ECONNRESET. -/
def ECONNRESET : GoError := GoError.Errno 104

/-- Go `err.Error()`. -/
def GoError.Error : GoError → String
  | .ErrAbortHandler => "net/http: abort Handler"
  | .Canceled => "context canceled"
  | .DeadlineExceeded => "context deadline exceeded"
  | .Errno n =>
    if n = 32 then "broken pipe"
    else if n = 104 then "connection reset by peer"
    else "errno " ++ toString n
  | .New text => text
  | .Wrap text _ => text

/-- Go `errors.Is(err, target)`: equality somewhere along the `Unwrap` chain. -/
def GoError.Is : GoError → GoError → Bool
  | .Wrap text inner, target =>
    decide (GoError.Wrap text inner = target) || inner.Is target
  | .ErrAbortHandler, target => decide (GoError.ErrAbortHandler = target)
  | .Canceled, target => decide (GoError.Canceled = target)
  | .DeadlineExceeded, target => decide (GoError.DeadlineExceeded = target)
  | .Errno n, target => decide (GoError.Errno n = target)
  | .New text, target => decide (GoError.New text = target)

/-! ## Logging -/

/-- The three levels of the `Logger` interface. -/
inductive Level where
  | debug
  | info
  | error
  deriving DecidableEq, Repr

/-- One call of the logger: its level and the text of its arguments. -/
structure LogEntry where
  level : Level
  msg : String
  deriving DecidableEq, Repr

/-- A call of `Logger.Debug`. -/
def logDebug (parts : List String) : LogEntry := ⟨Level.debug, " ".intercalate parts⟩

/-- A call of `Logger.Info`. -/
def logInfo (parts : List String) : LogEntry := ⟨Level.info, " ".intercalate parts⟩

/-- A call of `Logger.Error`. -/
def logError (parts : List String) : LogEntry := ⟨Level.error, " ".intercalate parts⟩

/-! ## HTTP data -/

/-- Go `http.Header`, keyed by canonical header name. -/
abbrev Header := String → List String

/-- The header map with no entry. -/
def Header.empty : Header := fun _ => []

/-- Go `Header.Get`: the first value of the key, or the empty string. -/
def Header.Get (h : Header) (key : String) : String := (h key).headD ""

/-- Go `Header.Set`: the key holds exactly this value afterwards. -/
def Header.Set (h : Header) (key value : String) : Header :=
  fun k => if k = key then [value] else h k

/-- Go `Header.Add`: the value is appended to those of the key. -/
def Header.Add (h : Header) (key value : String) : Header :=
  fun k => if k = key then h k ++ [value] else h k

/-- Go `Header.Del`: the key holds no value afterwards. -/
def Header.Del (h : Header) (key : String) : Header :=
  fun k => if k = key then [] else h k

/-- The `copyHeader` of httputil: every value of `src` is added to `dst`. -/
def copyHeader (dst src : Header) : Header := fun k => dst k ++ src k

/-- Go `url.URL`, the fields the gateway reads or writes. -/
structure URL where
  Scheme : String
  Host : String
  Path : String
  deriving DecidableEq, Repr

/-- Go `URL.String()` for a URL that has a scheme, a host and a path only,
whose host and path need no escaping: the scheme with its colon, two slashes
in front of a host or of the path of a URL with a scheme, the host, and the
path, with a slash put between a host and a relative path and `./` put in
front of a lone path whose first element has a colon. -/
def URL.String (u : URL) : String :=
  let buf := (if u.Scheme ≠ "" then u.Scheme ++ ":" else "") ++
    (if u.Scheme ≠ "" ∨ u.Host ≠ "" then
      (if u.Host ≠ "" ∨ u.Path ≠ "" then "//" else "") ++ u.Host
    else "")
  let buf :=
    if u.Path ≠ "" ∧ u.Path.data.head? ≠ some '/' ∧ u.Host ≠ "" then buf ++ "/" else buf
  let buf :=
    if buf = "" ∧ (u.Path.data.takeWhile (· ≠ '/')).contains ':' then "./" else buf
  buf ++ u.Path

/-- A request body: a read-once stream.  `buffer s` still has `s` to deliver,
`failing e` reports `e` when read. -/
inductive Body where
  | buffer (data : String)
  | failing (err : GoError)
  deriving DecidableEq, Repr

/-- Go `io.ReadAll(body)`: what was read, the error, and the drained stream. -/
def Body.ReadAll : Body → String × Option GoError × Body
  | .buffer data => (data, none, .buffer "")
  | .failing err => ("", some err, .failing err)

/-- Go `http.Request`, the fields the gateway and its plugins use. -/
structure Request where
  Method : String
  URL : URL
  Host : String
  Header : Header
  Body : Body
  ContentLength : Int
  RemoteAddr : String

/-- Go `http.Response`. -/
structure Response where
  Status : String
  StatusCode : Nat
  Header : Header
  Body : String
  Request : Request

/-- Decoded JSON values (`interface{}` after `encoding/json`). -/
inductive Json where
  | null
  | bool (b : Bool)
  | num (literal : String)
  | str (s : String)
  | arr (elems : List Json)
  | obj (fields : List (String × Json))

/-- A decoded `map[string]interface{}`. -/
abbrev JsonMap := List (String × Json)

/-- Go map indexing `m[key]`; a missing key yields the nil interface. -/
def JsonMap.index (m : JsonMap) (key : String) : Json := (m.lookup key).getD Json.null

/-- The type assertion `v.(bool)`. -/
def Json.asBool : Json → Option Bool
  | .bool b => some b
  | _ => none

/-- The type assertion `v.(string)`. -/
def Json.asString : Json → Option String
  | .str s => some s
  | _ => none

/-- Go map assignment `m[key] = v`. -/
def JsonMap.assign (m : JsonMap) (key : String) (v : Json) : JsonMap :=
  if m.any (fun kv => kv.1 == key) then
    m.map (fun kv => if kv.1 == key then (key, v) else kv)
  else m ++ [(key, v)]

/-! ## Repository types: `proxy/types.go`, `plugin/mock.go`, `plugin/model_map.go` -/

/-- The struct `ModelInfo`. -/
structure ModelInfo where
  ID : String
  Object : String
  Created : Int
  OwnedBy : String
  deriving DecidableEq, Repr

/-- The struct `ModelsResponse`. -/
structure ModelsResponse where
  Object : String
  Data : List ModelInfo
  deriving DecidableEq, Repr

/-- The struct `Config`; `Headers` is a Go map, kept as an association list. -/
structure Config where
  ListenAddr : String
  TargetURL : String
  PathPrefix : String
  Headers : List (String × String)
  Models : List ModelInfo
  deriving DecidableEq, Repr

/-- Go map indexing `cfg.Headers[key]`; a missing key yields the empty string. -/
def Config.header (cfg : Config) (key : String) : String := (cfg.Headers.lookup key).getD ""

/-- The struct `ChatMessage`. -/
structure ChatMessage where
  Role : String
  Content : String
  deriving DecidableEq, Repr

/-- The struct `ChatRequest`. -/
structure ChatRequest where
  Messages : List ChatMessage
  Model : String
  Stream : Bool
  deriving DecidableEq, Repr

/-- The struct `ChatChoice`. -/
structure ChatChoice where
  Index : Int
  Message : List ChatMessage
  FinishReason : String
  deriving DecidableEq, Repr

/-- The anonymous `Usage` struct of `ChatResponse`. -/
structure Usage where
  PromptTokens : Int
  CompletionTokens : Int
  TotalTokens : Int
  deriving DecidableEq, Repr

/-- The struct `ChatResponse`. -/
structure ChatResponse where
  ID : String
  Object : String
  Created : Int
  Model : String
  Choices : List ChatChoice
  Usage : Usage
  deriving DecidableEq, Repr

/-- The struct `ModelMapConfig`; the Go map is an association list. -/
structure ModelMapConfig where
  Mappings : List (String × String)
  deriving DecidableEq, Repr

/-! ## The environment: everything outside the repository -/

/-- The libraries, the clock and the network the gateway calls into. -/
structure Env where
  /-- Go `url.Parse`. -/
  urlParse : String → Except GoError URL
  /-- The call `json.NewDecoder(buf).Decode(&m)` for a `map[string]interface{}`. -/
  jsonDecode : String → Except GoError JsonMap
  /-- The call `json.Unmarshal(body, &m)` for a `map[string]interface{}`. -/
  jsonUnmarshal : String → Except GoError JsonMap
  /-- The call `json.Unmarshal(body, &chatReq)` for a `ChatRequest`. -/
  jsonUnmarshalChatRequest : String → Except GoError ChatRequest
  /-- The call `json.Unmarshal(config, &p.config)` on a `ModelMapConfig`, which
  updates the given value in place. -/
  jsonUnmarshalModelMapConfig : String → ModelMapConfig → ModelMapConfig × Option GoError
  /-- The call `json.Marshal` on a `map[string]interface{}`. -/
  jsonMarshalMap : JsonMap → Except GoError String
  /-- The call `json.Marshal` on a `ChatResponse`. -/
  jsonMarshalChatResponse : ChatResponse → Except GoError String
  /-- The call `json.Unmarshal` into a `ChatResponse`. -/
  jsonUnmarshalChatResponse : String → Except GoError ChatResponse
  /-- The JSON text of the stream chunk that `MockPlugin.AfterResponse` builds
  from the response and one of its choices, a choice with a message. -/
  jsonMarshalChunk : ChatResponse → ChatChoice → String
  /-- The call `json.Marshal` on a `ModelMapConfig`. -/
  jsonMarshalModelMapConfig : ModelMapConfig → String
  /-- The JSON text of `gin.H{"error": msg}`. -/
  jsonMarshalError : String → String
  /-- The JSON text of a `ModelsResponse`. -/
  jsonMarshalModels : ModelsResponse → String
  /-- The value `time.Now().Unix()`. -/
  now : Int
  /-- The host part `net.SplitHostPort` returns, when it returns no error. -/
  splitHostPort : String → Option String
  /-- What httputil.ReverseProxy does to the outbound request between the
  Director and the transport. -/
  libOutbound : Request → Request
  /-- The network: `http.Transport.RoundTrip`. -/
  transport : Request → Except GoError Response
  /-- What httputil.ReverseProxy does to the upstream response before it calls
  ModifyResponse (hop-by-hop headers are removed). -/
  libInbound : Response → Response

/-! ## Response writers: gin's writer and `proxy/writer.go` -/

/-- The response writer of gin over the connection to the caller.  `status` is
the pending status code, `sent` the status line and header block once they are
committed, `body` the bytes written, `flushes` the number of flushes, and
`writesLeft` how many writes the connection still accepts (`none`: the caller
stays connected). -/
structure ginResponseWriter where
  header : Header
  status : Nat
  sent : Option (Nat × Header)
  body : String
  flushes : Nat
  writesLeft : Option Nat

/-- A writer for a new request: status 200, nothing sent. -/
def ginResponseWriter.fresh : ginResponseWriter :=
  { header := Header.empty, status := 200, sent := none, body := "", flushes := 0,
    writesLeft := none }

/-- The method `Written` of gin. -/
def ginResponseWriter.Written (w : ginResponseWriter) : Bool := w.sent.isSome

/-- The method `WriteHeader` of gin: the pending status changes only while
nothing is committed. -/
def ginResponseWriter.WriteHeader (w : ginResponseWriter) (code : Nat) : ginResponseWriter :=
  if 0 < code ∧ w.status ≠ code then
    (if w.Written then w else { w with status := code })
  else w

/-- The method `WriteHeaderNow` of gin: commits status and headers once. -/
def ginResponseWriter.WriteHeaderNow (w : ginResponseWriter) : ginResponseWriter :=
  if w.Written then w else { w with sent := some (w.status, w.header) }

/-- The method `Write` of gin: commits the header, then hands the data to the
connection; a broken connection accepts nothing and reports a broken pipe. -/
def ginResponseWriter.Write (w : ginResponseWriter) (data : String) :
    ginResponseWriter × Nat × Option GoError :=
  let w1 := w.WriteHeaderNow
  match w1.writesLeft with
  | some 0 => (w1, 0, some (GoError.Wrap "write: broken pipe" EPIPE))
  | some (k + 1) =>
    ({ w1 with body := w1.body ++ data, writesLeft := some k }, data.utf8ByteSize, none)
  | none => ({ w1 with body := w1.body ++ data }, data.utf8ByteSize, none)

/-- The method `WriteString` of gin. -/
def ginResponseWriter.WriteString (w : ginResponseWriter) (s : String) :
    ginResponseWriter × Nat × Option GoError :=
  w.Write s

/-- The method `Flush` of gin. -/
def ginResponseWriter.Flush (w : ginResponseWriter) : ginResponseWriter :=
  { w.WriteHeaderNow with flushes := w.flushes + 1 }

/-- The struct `streamResponseWriter`; `Flusher` tells whether the embedded
flusher is non-nil. -/
structure streamResponseWriter where
  ResponseWriter : ginResponseWriter
  Flusher : Bool
  written : Bool
  size : Nat
  statusCode : Nat

/-- The constructor `newStreamResponseWriter`; the type assertion to
`http.Flusher` succeeds for every gin writer. -/
def newStreamResponseWriter (original : ginResponseWriter) : streamResponseWriter :=
  { ResponseWriter := original, Flusher := true, written := false, size := 0,
    statusCode := 200 }

/-- The method `streamResponseWriter.Write`. -/
def streamResponseWriter.Write (w : streamResponseWriter) (data : String) :
    streamResponseWriter × Nat × Option GoError :=
  let r := w.ResponseWriter.Write data
  let inner := if r.2.2 = none ∧ w.Flusher then r.1.Flush else r.1
  ({ w with written := true, ResponseWriter := inner, size := w.size + r.2.1 }, r.2.1, r.2.2)

/-- The method `streamResponseWriter.WriteString`. -/
def streamResponseWriter.WriteString (w : streamResponseWriter) (s : String) :
    streamResponseWriter × Nat × Option GoError :=
  let r := w.ResponseWriter.WriteString s
  let inner := if r.2.2 = none ∧ w.Flusher then r.1.Flush else r.1
  ({ w with written := true, ResponseWriter := inner, size := w.size + r.2.1 }, r.2.1, r.2.2)

/-- The method `streamResponseWriter.Written`. -/
def streamResponseWriter.Written (w : streamResponseWriter) : Bool := w.written

/-- The method `streamResponseWriter.WriteHeader`. -/
def streamResponseWriter.WriteHeader (w : streamResponseWriter) (code : Nat) :
    streamResponseWriter :=
  { w with statusCode := code, ResponseWriter := w.ResponseWriter.WriteHeader code }

/-- The method `streamResponseWriter.Status`. -/
def streamResponseWriter.Status (w : streamResponseWriter) : Nat := w.statusCode

/-- The method `streamResponseWriter.Size`. -/
def streamResponseWriter.Size (w : streamResponseWriter) : Nat := w.size

/-- The method `streamResponseWriter.Flush`. -/
def streamResponseWriter.Flush (w : streamResponseWriter) : streamResponseWriter :=
  if w.Flusher then { w with ResponseWriter := w.ResponseWriter.Flush } else w

/-- An update of the map that the promoted method `Header()` returns, the
header map of the embedded writer. -/
def streamResponseWriter.mapHeader (w : streamResponseWriter) (f : Header → Header) :
    streamResponseWriter :=
  { w with ResponseWriter := { w.ResponseWriter with header := f w.ResponseWriter.header } }

/-- The value of `c.Writer`: gin's own writer, or the wrapper that
`handleRequest` installs. -/
inductive ResponseWriter where
  | gin (w : ginResponseWriter)
  | stream (w : streamResponseWriter)

/-- The gin writer underneath `c.Writer`. -/
def ResponseWriter.base : ResponseWriter → ginResponseWriter
  | .gin w => w
  | .stream w => w.ResponseWriter

/-- An update of the map that `c.Writer.Header()` returns. -/
def ResponseWriter.mapHeader (f : Header → Header) : ResponseWriter → ResponseWriter
  | .gin w => .gin { w with header := f w.header }
  | .stream w => .stream (w.mapHeader f)

/-- The method `Status()` of `c.Writer`. -/
def ResponseWriter.Status : ResponseWriter → Nat
  | .gin w => w.status
  | .stream w => w.Status

/-! ## gin's context helpers, on the wrapped writer -/

/-- The check `bodyAllowedForStatus` of gin. -/
def bodyAllowedForStatus (status : Nat) : Bool :=
  !(decide (100 ≤ status ∧ status ≤ 199) || decide (status = 204) || decide (status = 304))

/-- The helper `writeContentType` of gin's renderers: sets Content-Type only
when none is set. -/
def writeContentType (w : streamResponseWriter) (value : List String) : streamResponseWriter :=
  if (w.ResponseWriter.header "Content-Type").length = 0 then
    w.mapHeader (fun h k => if k = "Content-Type" then value else h k)
  else w

/-- The method `c.Status`. -/
def ginStatus (w : streamResponseWriter) (code : Nat) : streamResponseWriter :=
  w.WriteHeader code

/-- The method `c.Header`. -/
def ginHeader (w : streamResponseWriter) (key value : String) : streamResponseWriter :=
  if value = "" then w.mapHeader (fun h => h.Del key) else w.mapHeader (fun h => h.Set key value)

/-- The method `c.Render` with a renderer of the given content type and bytes. -/
def ginRender (w : streamResponseWriter) (code : Nat) (contentType : String) (bytes : String) :
    streamResponseWriter :=
  let w := ginStatus w code
  if bodyAllowedForStatus code then
    (streamResponseWriter.Write (writeContentType w [contentType]) bytes).1
  else
    let w := writeContentType w [contentType]
    { w with ResponseWriter := w.ResponseWriter.WriteHeaderNow }

/-- The method `c.JSON`, given the JSON text of the object. -/
def ginJSON (w : streamResponseWriter) (code : Nat) (jsonText : String) : streamResponseWriter :=
  ginRender w code "application/json; charset=utf-8" jsonText

/-- The method `c.String` without format arguments: the text is written as is. -/
def ginString (w : streamResponseWriter) (code : Nat) (format : String) : streamResponseWriter :=
  ginRender w code "text/plain; charset=utf-8" format

/-! ## Plugins: `plugin/types.go`, `plugin/mock.go`, `plugin/model_map.go` -/

/-- The interface `Plugin`.  A hook receives a pointer and returns an error:
here it returns the value it leaves behind the pointer, and the error.
(`Configure` acts on the plugin itself and is modelled on the concrete plugin
types.) -/
structure Plugin where
  BeforeRequest : Request → Request × Option GoError
  /-- The response the hook leaves and the error it returns; nothing when the
  hook panics. -/
  AfterResponse : Response → Option (Response × Option GoError)

/-- The struct `MockRule`. -/
structure MockRule where
  Condition : ChatRequest → Bool
  Response : ChatRequest → Except GoError ChatResponse

/-- The struct `MockPlugin`. -/
structure MockPlugin where
  rules : List MockRule

/-- The method `MockPlugin.AddRule`. -/
def MockPlugin.AddRule (p : MockPlugin) (condition : ChatRequest → Bool)
    (response : ChatRequest → Except GoError ChatResponse) : MockPlugin :=
  { p with rules := p.rules ++ [{ Condition := condition, Response := response }] }

/-- The last element `req.Messages[len(req.Messages)-1]`. -/
def lastMessage (req : ChatRequest) : ChatMessage :=
  req.Messages.getLast?.getD { Role := "", Content := "" }

/-- The response both mock rules of the repository generate, given its ID and
creation time. -/
def hiResponse (id : String) (created : Int) (req : ChatRequest) : ChatResponse :=
  { ID := id, Object := "chat.completion", Created := created, Model := req.Model,
    Choices := [{ Index := 0, Message := [{ Role := "assistant", Content := "Hi" }],
                  FinishReason := "stop" }],
    Usage := { PromptTokens := req.Messages.length, CompletionTokens := 1,
               TotalTokens := req.Messages.length + 1 } }

/-- The constructor `NewMockPlugin` with its default test rule. -/
def NewMockPlugin : MockPlugin :=
  MockPlugin.AddRule { rules := [] }
    (fun req =>
      if req.Model ≠ "gpt-4o" then false
      else if req.Messages.length < 2 then false
      else
        let lastMsg := lastMessage req
        decide (lastMsg.Role = "user") &&
          decide (lastMsg.Content = "Testing. Just say hi and nothing else."))
    (fun req => .ok (hiResponse "mock-response" 1234567890 req))

/-- The rule loop of `MockPlugin.BeforeRequest`: the first rule whose condition
holds generates the response, which is stored in the request header
X-Mock-Direct-Response; the loop stops there. -/
def mockRules (env : Env) : List MockRule → ChatRequest → Request → Request × Option GoError
  | [], _, req => (req, none)
  | rule :: rest, chatReq, req =>
    if rule.Condition chatReq then
      match rule.Response chatReq with
      | .error err => (req, some err)
      | .ok resp =>
        let resp := { resp with
          ID := "mock-" ++ toString env.now, Object := "chat.completion",
          Created := env.now, Model := chatReq.Model }
        match env.jsonMarshalChatResponse resp with
        | .error err => (req, some err)
        | .ok respData =>
          ({ req with Header := req.Header.Set "X-Mock-Direct-Response" respData }, none)
    else mockRules env rest chatReq req

/-- The method `MockPlugin.BeforeRequest`. -/
def MockPlugin.BeforeRequest (env : Env) (p : MockPlugin) (req : Request) :
    Request × Option GoError :=
  if !Contains req.URL.Path "/chat/completions" then (req, none)
  else
    match req.Body.ReadAll with
    | (_, some err, drained) => ({ req with Body := drained }, some err)
    | (body, none, _) =>
      match env.jsonUnmarshalChatRequest body with
      | .error _ => ({ req with Body := Body.buffer body }, none)
      | .ok chatReq => mockRules env p.rules chatReq { req with Body := Body.buffer body }

/-- The method `MockPlugin.AfterResponse`.  In the stream branch the
expression `choice.Message[0]` panics for a choice without a message; the
result is then nothing. -/
def MockPlugin.AfterResponse (env : Env) (resp : Response) :
    Option (Response × Option GoError) :=
  let mockResp := resp.Request.Header.Get "X-Mock-Response"
  if mockResp = "" then some (resp, none)
  else if resp.Request.Header.Get "X-Mock-Stream" = "true" then
    match env.jsonUnmarshalChatResponse mockResp with
    | .error err => some (resp, some err)
    | .ok chatResp =>
      if chatResp.Choices.any (fun choice => choice.Message.isEmpty) then none
      else
        let frames := chatResp.Choices.map
          (fun choice => "data: " ++ env.jsonMarshalChunk chatResp choice ++ "\n\n")
        some ({ resp with
            Body := String.join frames ++ "data: [DONE]\n\n",
            Header := resp.Header.Set "Content-Type" "text/event-stream",
            StatusCode := 200, Status := "OK" }, none)
  else
    some ({ resp with
        Body := mockResp, Header := resp.Header.Set "Content-Type" "application/json",
        StatusCode := 200, Status := "OK" }, none)

/-- The mock plugin as a value of the interface `Plugin`. -/
def MockPlugin.toPlugin (env : Env) (p : MockPlugin) : Plugin :=
  { BeforeRequest := MockPlugin.BeforeRequest env p,
    AfterResponse := MockPlugin.AfterResponse env }

/-- The struct `ModelMapPlugin`. -/
structure ModelMapPlugin where
  config : ModelMapConfig

/-- The constructor `NewModelMapPlugin`. -/
def NewModelMapPlugin : ModelMapPlugin := { config := { Mappings := [] } }

/-- The method `ModelMapPlugin.Configure`. -/
def ModelMapPlugin.Configure (env : Env) (p : ModelMapPlugin) (config : String) :
    ModelMapPlugin × Option GoError :=
  let r := env.jsonUnmarshalModelMapConfig config p.config
  ({ p with config := r.1 }, r.2)

/-- The method `ModelMapPlugin.AddMapping`. -/
def ModelMapPlugin.AddMapping (p : ModelMapPlugin) (src dst : String) : ModelMapPlugin :=
  { p with config := { Mappings :=
      if p.config.Mappings.any (fun kv => kv.1 == src) then
        p.config.Mappings.map (fun kv => if kv.1 == src then (src, dst) else kv)
      else p.config.Mappings ++ [(src, dst)] } }

/-- The method `ModelMapPlugin.BeforeRequest`.  The body is read to its end;
it is replaced by a new buffer only when a mapping applies. -/
def ModelMapPlugin.BeforeRequest (env : Env) (p : ModelMapPlugin) (req : Request) :
    Request × Option GoError :=
  if !Contains req.URL.Path "/chat/completions" then (req, none)
  else
    match req.Body.ReadAll with
    | (_, some err, drained) => ({ req with Body := drained }, some err)
    | (body, none, drained) =>
      let req := { req with Body := drained }
      match env.jsonUnmarshal body with
      | .error err => (req, some err)
      | .ok requestBody =>
        match (requestBody.index "model").asString with
        | none => (req, none)
        | some model =>
          match p.config.Mappings.lookup model with
          | none => (req, none)
          | some mappedModel =>
            match env.jsonMarshalMap (requestBody.assign "model" (Json.str mappedModel)) with
            | .error err => (req, some err)
            | .ok newBody =>
              ({ req with Body := Body.buffer newBody,
                          ContentLength := (newBody.utf8ByteSize : Int) }, none)

/-- The method `ModelMapPlugin.AfterResponse`. -/
def ModelMapPlugin.AfterResponse (resp : Response) : Option (Response × Option GoError) :=
  some (resp, none)

/-- The model-map plugin as a value of the interface `Plugin`. -/
def ModelMapPlugin.toPlugin (env : Env) (p : ModelMapPlugin) : Plugin :=
  { BeforeRequest := ModelMapPlugin.BeforeRequest env p,
    AfterResponse := ModelMapPlugin.AfterResponse }

/-! ## The proxy: `proxy/proxy.go`, `proxy/log.go` -/

/-- The struct `Proxy` (its logger and lock have no state of their own here). -/
structure Proxy where
  config : Config
  plugins : List Plugin

/-- The constructor `NewProxy`. -/
def NewProxy (cfg : Config) : Proxy := { config := cfg, plugins := [] }

/-- The method `Proxy.RegisterPlugin`. -/
def Proxy.RegisterPlugin (p : Proxy) (plugin : Plugin) : Proxy :=
  { p with plugins := p.plugins ++ [plugin] }

/-- The plugin loop of `handleRequest` (step 9): the before-hooks run in the
order of `p.plugins`, each on the request its predecessor left; the first
error ends the loop.  Returns the request, the hooks that ran and the error. -/
def runBeforeRequest : List Plugin → Request → Request × List Plugin × Option GoError
  | [], req => (req, [], none)
  | plugin :: rest, req =>
    match plugin.BeforeRequest req with
    | (req1, some err) => (req1, [plugin], some err)
    | (req1, none) =>
      let r := runBeforeRequest rest req1
      (r.1, plugin :: r.2.1, r.2.2)

/-- The path rewriting of the Director. -/
def directorPath (targetURL : URL) (originalPath : String) : String :=
  if HasPrefix originalPath "/v1/" then
    Join [targetURL.Path, TrimPrefix originalPath "/v1"]
  else originalPath

/-- The Authorization handling of the Director: `clientAuth` is the value the
inbound request carries, `h` the header map of the outbound request. -/
def directorAuth (cfg : Config) (clientAuth : String) (h : Header) : Header :=
  if clientAuth ≠ "" ∧ clientAuth ≠ "Bearer" then h.Set "Authorization" clientAuth
  else if cfg.header "Authorization" ≠ "" then h.Set "Authorization" (cfg.header "Authorization")
  else h

/-- The list `copyHeaders` of the Director. -/
def copyHeaders : List String :=
  ["Content-Type", "Accept", "Accept-Encoding", "User-Agent", "Content-Length"]

/-- One round of the loop over `copyHeaders`. -/
def directorCopy (inbound : Header) (h : Header) (name : String) : Header :=
  if inbound.Get name ≠ "" then h.Set name (inbound.Get name) else h

/-- The X-Forwarded-For handling of the Director. -/
def directorForwardedFor (env : Env) (remoteAddr : String) (h : Header) : Header :=
  match env.splitHostPort remoteAddr with
  | some clientIP =>
    if h.Get "X-Forwarded-For" ≠ "" then
      h.Set "X-Forwarded-For" (h.Get "X-Forwarded-For" ++ ", " ++ clientIP)
    else h.Set "X-Forwarded-For" clientIP
  | none => h

/-- The callback `Director` of the reverse proxy in `handleRequest`: `c` is
the inbound request of the gin context, `req` its clone that goes out. -/
def Director (env : Env) (p : Proxy) (targetURL : URL) (c : Request) (req : Request) : Request :=
  let h := (req.Header.Del "Origin").Del "Referer"
  let h := directorAuth p.config (c.Header.Get "Authorization") h
  let h := copyHeaders.foldl (directorCopy c.Header) h
  let h := directorForwardedFor env c.RemoteAddr h
  { req with
      URL := { Scheme := targetURL.Scheme, Host := targetURL.Host,
               Path := directorPath targetURL req.URL.Path },
      Host := targetURL.Host,
      Header := h }

/-- The log entries of the Director. -/
def DirectorLogs (p : Proxy) (targetURL : URL) (c : Request) (req : Request) : List LogEntry :=
  [logInfo ["Proxying request to:", targetURL.String]] ++
  (if HasPrefix req.URL.Path "/v1/" then
    [logDebug ["Rewritten path:", directorPath targetURL req.URL.Path]] else []) ++
  [if c.Header.Get "Authorization" ≠ "" ∧ c.Header.Get "Authorization" ≠ "Bearer" then
      logDebug ["Using client Authorization token"]
    else if p.config.header "Authorization" ≠ "" then
      logDebug ["Using configured Authorization token"]
    else logError ["No valid Authorization token available"],
   logDebug ["Final request path:", directorPath targetURL req.URL.Path],
   logDebug ["Final request headers:"]]

/-- The callback `ErrorHandler` of the reverse proxy in `handleRequest`. -/
def ErrorHandler (w : streamResponseWriter) (err : GoError) :
    streamResponseWriter × List LogEntry :=
  if err = GoError.ErrAbortHandler then (w, [logInfo ["Stream completed normally"]])
  else if err.Is EPIPE || err.Is ECONNRESET then (w, [logInfo ["Client closed connection"]])
  else if err = GoError.Canceled ∨ err = GoError.DeadlineExceeded then
    (w, [logInfo ["Request context canceled:", err.Error]])
  else
    let w := w.WriteHeader 502
    ((w.Write ("Proxy Error: " ++ err.Error)).1, [logError ["Proxy error:", err.Error]])

/-- The headers `ModifyResponse` deletes. -/
def strippedCORSHeaders : List String :=
  ["Access-Control-Allow-Origin", "Access-Control-Allow-Methods",
   "Access-Control-Allow-Headers", "Access-Control-Allow-Credentials",
   "Access-Control-Max-Age", "Access-Control-Expose-Headers",
   "Access-Control-Request-Method"]

/-- The headers `ModifyResponse` sets for a stream request. -/
def sseHeaders (h : Header) : Header :=
  ((((h.Set "Content-Type" "text/event-stream").Set "Cache-Control" "no-cache").Set
    "Connection" "keep-alive").Set "Transfer-Encoding" "chunked").Set "X-Accel-Buffering" "no"

/-- The callback `ModifyResponse` of the reverse proxy in `handleRequest`; it
returns no error. -/
def ModifyResponse (isStreamRequest : Bool) (resp : Response) : Response :=
  let h := if isStreamRequest then sseHeaders resp.Header else resp.Header
  { resp with Header := strippedCORSHeaders.foldl Header.Del h }

/-- The request `LoggingTransport.RoundTrip` hands to the inner transport:
unless the request is an event stream, its body has been read and put back. -/
def transportRequest (req : Request) : Request :=
  if !Contains (req.Header.Get "Content-Type") "text/event-stream" then
    { req with Body := Body.buffer req.Body.ReadAll.1 }
  else req

/-- The method `LoggingTransport.RoundTrip`: the result of the inner
transport, and the log entries (durations and printed header maps are left
out of the texts). -/
def LoggingTransport.RoundTrip (env : Env) (req : Request) :
    Except GoError Response × List LogEntry :=
  let pre :=
    [logInfo ["[Request] " ++ req.Method ++ " " ++ req.URL.String],
     logDebug ["Request Headers:"]] ++
    (if !Contains (req.Header.Get "Content-Type") "text/event-stream" then
      [logDebug ["Request Body:", req.Body.ReadAll.1]] else [])
  match env.transport (transportRequest req) with
  | .error err => (.error err, pre ++ [logError ["Request failed:", err.Error]])
  | .ok resp =>
    if Contains (resp.Header.Get "Content-Type") "text/event-stream" then
      (.ok resp, pre ++
        [logInfo ["[Response] Streaming response started - Status: " ++ toString resp.StatusCode],
         logDebug ["Response Headers:"]])
    else
      (.ok resp, pre ++
        [logInfo ["[Response] Complete - Status: " ++ toString resp.StatusCode],
         logDebug ["Response Headers:"],
         logDebug ["Response Body:", resp.Body]])

/-- What a call of `handleRequest` leaves behind: the request and writer of
the gin context, and the record of what happened. `hooks` are the before-hooks
that were invoked, `afterHooks` the after-hooks that were invoked, `outbound`
the request as the Director left it, `upstream` the requests handed to the
transport, `panicked` the value of a panic that left the handler. -/
structure Outcome where
  Request : Request
  Writer : ResponseWriter
  hooks : List Plugin
  afterHooks : List Plugin
  outbound : Option OpenapiProxy.Request
  upstream : List OpenapiProxy.Request
  logs : List LogEntry
  panicked : Option GoError

/-- The relaying half of `httputil.ReverseProxy.ServeHTTP`, after the
transport returned a response: ModifyResponse, the copy of the headers, the
status, the body.  A failed write of the body panics with
http.ErrAbortHandler. -/
def relayResponse (env : Env) (isStreamRequest : Bool) (rw : streamResponseWriter)
    (res : Response) : streamResponseWriter × List LogEntry × Option GoError :=
  let res := env.libInbound res
  let logs := [logInfo ["Received response:", res.Status]]
  let res := ModifyResponse isStreamRequest res
  let rw := rw.mapHeader (fun h => copyHeader h res.Header)
  let rw := rw.WriteHeader res.StatusCode
  if res.Body = "" then (rw, logs, none)
  else
    let r := rw.Write res.Body
    (r.1, logs, r.2.2.map (fun _ => GoError.ErrAbortHandler))

/-- The call `proxy.ServeHTTP(c.Writer, c.Request)` of step 11: the
Director, the transport, then the ErrorHandler or the relay of the response. -/
def ServeHTTP (env : Env) (p : Proxy) (targetURL : URL) (isStreamRequest : Bool)
    (rw : streamResponseWriter) (c : Request) (hooks : List Plugin) (logs : List LogEntry) :
    Outcome :=
  let outreq := Director env p targetURL c c
  let logs := logs ++ DirectorLogs p targetURL c c
  let sentReq := env.libOutbound outreq
  let rt := LoggingTransport.RoundTrip env sentReq
  match rt.1 with
  | .error err =>
    let eh := ErrorHandler rw err
    { Request := c, Writer := .stream eh.1, hooks := hooks, afterHooks := [],
      outbound := some outreq, upstream := [sentReq], logs := logs ++ rt.2 ++ eh.2,
      panicked := none }
  | .ok res =>
    let rr := relayResponse env isStreamRequest rw res
    { Request := c, Writer := .stream rr.1, hooks := hooks, afterHooks := [],
      outbound := some outreq, upstream := [sentReq], logs := logs ++ rt.2 ++ rr.2.1,
      panicked := rr.2.2 }

/-- The method `Proxy.handleModelsRequest`. -/
def handleModelsRequest (env : Env) (p : Proxy) (w : streamResponseWriter) :
    streamResponseWriter :=
  let models :=
    if p.config.Models.length = 0 then
      [{ ID := "gpt-4o", Object := "model", Created := env.now, OwnedBy := "organization" },
       { ID := "ep-20250208163847-fv7w8", Object := "model", Created := env.now,
         OwnedBy := "organization" }]
    else p.config.Models
  ginJSON w 200 (env.jsonMarshalModels { Object := "list", Data := models })

/-- Step 6 of `handleRequest`: the body decodes to a JSON object whose member
`stream` is the boolean true. -/
def isStreamRequest (env : Env) (reqBody : String) : Bool :=
  match env.jsonDecode reqBody with
  | .ok requestBody => (requestBody.index "stream").asBool = some true
  | .error _ => false

/-- An outcome in which no hook ran and nothing was forwarded. -/
def earlyOutcome (req : Request) (w : ResponseWriter) (logs : List LogEntry) : Outcome :=
  { Request := req, Writer := w, hooks := [], afterHooks := [], outbound := none,
    upstream := [], logs := logs, panicked := none }

/-- Steps 9 to 11 of `handleRequest`: the before-hooks, the check for a
direct response in the request header X-Mock-Direct-Response, the forward. -/
def pluginsAndForward (env : Env) (p : Proxy) (targetURL : URL) (isStream : Bool)
    (w : streamResponseWriter) (req : Request) (logs : List LogEntry) : Outcome :=
  let r := runBeforeRequest p.plugins req
  match r.2.2 with
  | some err =>
    { Request := r.1, Writer := .stream (ginJSON w 500 (env.jsonMarshalError err.Error)),
      hooks := r.2.1, afterHooks := [], outbound := none, upstream := [],
      logs := logs ++ [logError ["Plugin error:", err.Error]], panicked := none }
  | none =>
    let mockResp := r.1.Header.Get "X-Mock-Direct-Response"
    if mockResp ≠ "" then
      { Request := r.1,
        Writer := .stream (ginString (ginHeader w "Content-Type" "application/json") 200 mockResp),
        hooks := r.2.1, afterHooks := [], outbound := none, upstream := [],
        logs := logs ++ [logInfo ["Using mock response directly"]], panicked := none }
    else ServeHTTP env p targetURL isStream w r.1 r.2.1 logs

/-- The prefix handling of `handleRequest` for a request that has the
prefix: a non-empty PathPrefix is removed from the path. -/
def stripPathPrefix (cfg : Config) (req : Request) : Request :=
  if cfg.PathPrefix ≠ "" then
    { req with URL := { req.URL with Path := TrimPrefix req.URL.Path cfg.PathPrefix } }
  else req

/-- The log entries of step 7 of `handleRequest`. -/
def entryLogs (req : Request) (reqBody : String) : List LogEntry :=
  [logInfo ["Incoming request: " ++ req.Method ++ " " ++ req.URL.Path],
   logDebug ["Request headers:"]] ++
  (if 0 < reqBody.utf8ByteSize then [logDebug ["Request body:", reqBody]] else [])

/-- The method `Proxy.handleRequest`, on the request and writer of the gin
context. -/
def handleRequest (env : Env) (p : Proxy) (req : Request) (w : ginResponseWriter) : Outcome :=
  if req.Method = "OPTIONS" then earlyOutcome req (.gin w) []
  else
    let wrappedWriter := newStreamResponseWriter w
    let requestPath := req.URL.Path
    if p.config.PathPrefix ≠ "" ∧ HasPrefix requestPath p.config.PathPrefix = false then
      earlyOutcome req (.stream (ginStatus wrappedWriter 404)) []
    else
      let req := stripPathPrefix p.config req
      if req.URL.Path = "/v1/models" then
        earlyOutcome req (.stream (handleModelsRequest env p wrappedWriter)) []
      else
        match env.urlParse p.config.TargetURL with
        | .error err =>
          earlyOutcome req (.stream (ginJSON wrappedWriter 500 (env.jsonMarshalError err.Error)))
            [logError ["Failed to parse target URL:", err.Error]]
        | .ok targetURL =>
          match req.Body.ReadAll with
          | (_, some err, drained) =>
            earlyOutcome { req with Body := drained }
              (.stream (ginJSON wrappedWriter 400 (env.jsonMarshalError err.Error)))
              [logError ["Failed to read request body:", err.Error]]
          | (reqBody, none, _) =>
            let req := { req with Body := Body.buffer reqBody }
            pluginsAndForward env p targetURL (isStreamRequest env reqBody) wrappedWriter req
              (entryLogs req reqBody)

/-! ## The engine of `Proxy.Start`: recovery, CORS, the handler -/

/-- The value of the header Access-Control-Allow-Headers. -/
def corsAllowHeaders : String :=
  "Content-Type, Content-Length, Accept-Encoding, Authorization, accept, origin, Cache-Control, X-Requested-With, baggage, sentry-trace"

/-- The headers `corsMiddleware` installs before the handler runs. -/
def corsHeaders (h : Header) : Header :=
  let h := (((h.Del "Access-Control-Allow-Origin").Del "Access-Control-Allow-Methods").Del
    "Access-Control-Allow-Headers").Del "Access-Control-Allow-Credentials"
  (((h.Set "Access-Control-Allow-Origin" "*").Set "Access-Control-Allow-Methods"
    "POST, GET, OPTIONS, PUT, DELETE").Set "Access-Control-Allow-Headers" corsAllowHeaders).Set
    "Access-Control-Allow-Credentials" "true"

/-- What `corsMiddleware` does to the headers after the handler returned. -/
def corsAgain (h : Header) : Header :=
  (h.Del "Access-Control-Allow-Origin").Set "Access-Control-Allow-Origin" "*"

/-- The middleware `corsMiddleware` around the rest of the chain. -/
def corsMiddleware (next : Request → ginResponseWriter → Outcome) (req : Request)
    (w : ginResponseWriter) : Outcome :=
  let w := { w with header := corsHeaders w.header }
  if req.Method = "OPTIONS" then
    earlyOutcome req (.gin ((w.WriteHeader 204).WriteHeaderNow)) []
  else
    let out := next req w
    match out.panicked with
    | some _ => out
    | none =>
      { out with Writer := ResponseWriter.mapHeader corsAgain out.Writer }

/-- The method `c.AbortWithStatus` on the writer of the context. -/
def ResponseWriter.AbortWithStatus (code : Nat) : ResponseWriter → ResponseWriter
  | .gin w => .gin ((w.WriteHeader code).WriteHeaderNow)
  | .stream w =>
    let w := w.WriteHeader code
    .stream { w with ResponseWriter := w.ResponseWriter.WriteHeaderNow }

/-- The middleware `customRecovery` around the rest of the chain. -/
def customRecovery (next : Request → ginResponseWriter → Outcome) (req : Request)
    (w : ginResponseWriter) : Outcome :=
  let out := next req w
  match out.panicked with
  | none => out
  | some err =>
    if err = GoError.ErrAbortHandler then
      { out with logs := out.logs ++ [logInfo ["Stream completed normally"]], panicked := none }
    else
      { out with
          logs := out.logs ++ [logError ["Panic recovered: " ++ err.Error]],
          Writer := out.Writer.AbortWithStatus 500, panicked := none }

/-- The handler chain that `Proxy.Start` installs, run on one request with a
new writer. -/
def Proxy.serve (env : Env) (p : Proxy) (req : Request) : Outcome :=
  customRecovery (corsMiddleware (handleRequest env p)) req ginResponseWriter.fresh

/-- The header block the caller receives, for the writer a handler leaves. -/
def committedHeader (g : ginResponseWriter) : Header :=
  (g.WriteHeaderNow.sent.getD (g.WriteHeaderNow.status, g.WriteHeaderNow.header)).2

/-- The response the caller receives once the engine has finished the
request: gin commits the header if the handler has not, so the status and
headers are those committed and the body is what was written. -/
structure Relayed where
  StatusCode : Nat
  Header : Header
  Body : String

/-- The response the caller receives for an outcome. -/
def Outcome.relayed (out : Outcome) : Relayed :=
  let w := out.Writer.base.WriteHeaderNow
  { StatusCode := (w.sent.getD (w.status, w.header)).1,
    Header := committedHeader out.Writer.base,
    Body := w.body }

/-! ## `proxy/cursor.go` -/

/-- The condition of the rule `StartCursorProxy` adds to the mock plugin. -/
def cursorCondition (req : ChatRequest) : Bool :=
  if req.Messages.length = 0 then false
  else
    let lastContent := (lastMessage req).Content
    decide (req.Model = "gpt-4o") && decide (0 < req.Messages.length) &&
      (decide (lastContent = "Testing. Just say hi and nothing else.") ||
        Contains lastContent "Test prompt using")

/-- The function `StartCursorProxy`: the proxy whose `handleRequest` it
returns.  The model-map plugin is created and configured with `mappings`;
the only call of `RegisterPlugin` is the one for the mock plugin. -/
def StartCursorProxy (env : Env) (conf : Config) (mappings : List (String × String)) : Proxy :=
  let proxy := NewProxy conf
  let modelMapPlugin := NewModelMapPlugin
  let pluginConfig : ModelMapConfig := { Mappings := mappings }
  let configBytes := env.jsonMarshalModelMapConfig pluginConfig
  let _modelMapPlugin := (modelMapPlugin.Configure env configBytes).1
  let mockPlugin := NewMockPlugin
  let mockPlugin := mockPlugin.AddRule cursorCondition
    (fun req => .ok (hiResponse ("mock-" ++ toString env.now) env.now req))
  proxy.RegisterPlugin (mockPlugin.toPlugin env)

/-! ## A reference environment

An `Env` on which the model can be run: a JSON reader and writer for the
grammar of RFC 8259, as `encoding/json` applies it to the types of the
repository, the parser of net/url for texts without percent escapes, and the
header handling of httputil.ReverseProxy.  JSON numbers are kept as their
literals: they are neither checked against the range of float64 nor written
in another form.  It is used to evaluate the model
on concrete requests; no theorem below depends on it otherwise. -/

namespace Ref

/-- JSON white space. -/
def isJsonSpace (c : Char) : Bool := c = ' ' || c = '\t' || c = '\n' || c = '\r'

/-- Drops leading white space. -/
def skipSpace : List Char → List Char
  | [] => []
  | c :: cs => if isJsonSpace c then skipSpace cs else c :: cs

/-- The value of a hexadecimal digit. -/
def hexVal (c : Char) : Option Nat :=
  if '0' ≤ c ∧ c ≤ '9' then some (c.toNat - '0'.toNat)
  else if 'a' ≤ c ∧ c ≤ 'f' then some (c.toNat - 'a'.toNat + 10)
  else if 'A' ≤ c ∧ c ≤ 'F' then some (c.toNat - 'A'.toNat + 10)
  else none

/-- The value of four hexadecimal digits. -/
def hex4 (a b c d : Char) : Option Nat :=
  match hexVal a, hexVal b, hexVal c, hexVal d with
  | some x, some y, some z, some w => some (((x * 16 + y) * 16 + z) * 16 + w)
  | _, _, _, _ => none

/-- The characters read so far once a pending high surrogate turns out to be
alone: it becomes U+FFFD. -/
def flushPending (pending : Option Nat) (acc : List Char) : List Char :=
  match pending with
  | some _ => Char.ofNat 0xFFFD :: acc
  | none => acc

/-- One `\u` escape of value `n`: a low surrogate after a pending high
surrogate is one character, a high surrogate waits for its partner, a lone low
surrogate is U+FFFD. -/
def pushUnit (pending : Option Nat) (n : Nat) (acc : List Char) : Option Nat × List Char :=
  if 0xDC00 ≤ n ∧ n < 0xE000 then
    match pending with
    | some hi => (none, Char.ofNat (0x10000 + (hi - 0xD800) * 0x400 + (n - 0xDC00)) :: acc)
    | none => (none, Char.ofNat 0xFFFD :: acc)
  else if 0xD800 ≤ n ∧ n < 0xDC00 then (some n, flushPending pending acc)
  else (none, Char.ofNat n :: flushPending pending acc)

/-- Reads a string literal after its opening quote; `acc` holds the characters
read so far, the last one first, `pending` an escaped high surrogate that
waits for its partner. -/
def parseStringBody : List Char → Option Nat → List Char → Option (String × List Char)
  | [], _, _ => none
  | '"' :: rest, pending, acc => some (⟨(flushPending pending acc).reverse⟩, rest)
  | '\\' :: 'u' :: a :: b :: c :: d :: rest, pending, acc =>
    match hex4 a b c d with
    | some n => parseStringBody rest (pushUnit pending n acc).1 (pushUnit pending n acc).2
    | none => none
  | '\\' :: e :: rest, pending, acc =>
    if e = '"' ∨ e = '\\' ∨ e = '/' then parseStringBody rest none (e :: flushPending pending acc)
    else if e = 'b' then parseStringBody rest none ('\x08' :: flushPending pending acc)
    else if e = 'f' then parseStringBody rest none ('\x0c' :: flushPending pending acc)
    else if e = 'n' then parseStringBody rest none ('\n' :: flushPending pending acc)
    else if e = 'r' then parseStringBody rest none ('\r' :: flushPending pending acc)
    else if e = 't' then parseStringBody rest none ('\t' :: flushPending pending acc)
    else none
  | c :: rest, pending, acc =>
    if c.toNat < 32 ∨ c = '\\' then none
    else parseStringBody rest none (c :: flushPending pending acc)

/-- The longest run of decimal digits at the front. -/
def spanDigits : List Char → List Char × List Char
  | [] => ([], [])
  | c :: cs =>
    if c.isDigit then ((spanDigits cs).1.cons c, (spanDigits cs).2) else ([], c :: cs)

/-- Reads a number literal: sign, integer part without a leading zero,
fraction, exponent. -/
def parseNumber (cs : List Char) : Option (String × List Char) :=
  let sign : List Char := if cs.head? = some '-' then ['-'] else []
  let cs1 := if cs.head? = some '-' then cs.tail else cs
  let int := spanDigits cs1
  if int.1 = [] ∨ (1 < int.1.length ∧ int.1.head? = some '0') then none
  else
    let frac : Option (List Char × List Char) :=
      match int.2 with
      | '.' :: r => if (spanDigits r).1 = [] then none
                    else some ('.' :: (spanDigits r).1, (spanDigits r).2)
      | r => some ([], r)
    match frac with
    | none => none
    | some (fr, cs2) =>
      match cs2 with
      | e :: r =>
        if e = 'e' ∨ e = 'E' then
          let sg : List Char := match r with
            | '+' :: _ => ['+']
            | '-' :: _ => ['-']
            | _ => []
          let r1 := r.drop sg.length
          if (spanDigits r1).1 = [] then none
          else some (⟨sign ++ int.1 ++ fr ++ [e] ++ sg ++ (spanDigits r1).1⟩, (spanDigits r1).2)
        else some (⟨sign ++ int.1 ++ fr⟩, cs2)
      | [] => some (⟨sign ++ int.1 ++ fr⟩, [])

mutual
/-- Reads one JSON value; `fuel` bounds the nesting and the number of members. -/
def parseValue : Nat → List Char → Option (Json × List Char)
  | 0, _ => none
  | fuel + 1, cs =>
    match skipSpace cs with
    | 'n' :: 'u' :: 'l' :: 'l' :: rest => some (Json.null, rest)
    | 't' :: 'r' :: 'u' :: 'e' :: rest => some (Json.bool true, rest)
    | 'f' :: 'a' :: 'l' :: 's' :: 'e' :: rest => some (Json.bool false, rest)
    | '"' :: rest =>
      match parseStringBody rest none [] with
      | some (s, rest) => some (Json.str s, rest)
      | none => none
    | '[' :: rest =>
      match skipSpace rest with
      | ']' :: rest => some (Json.arr [], rest)
      | _ => parseElems fuel rest []
    | '\x7b' :: rest =>
      match skipSpace rest with
      | '\x7d' :: rest => some (Json.obj [], rest)
      | _ => parseMembers fuel rest []
    | other =>
      match parseNumber other with
      | some (lit, rest) => some (Json.num lit, rest)
      | none => none
/-- Reads the elements of an array up to its closing bracket. -/
def parseElems : Nat → List Char → List Json → Option (Json × List Char)
  | 0, _, _ => none
  | fuel + 1, cs, acc =>
    match parseValue fuel cs with
    | none => none
    | some (v, rest) =>
      match skipSpace rest with
      | ',' :: rest => parseElems fuel rest (v :: acc)
      | ']' :: rest => some (Json.arr (v :: acc).reverse, rest)
      | _ => none
/-- Reads the members of an object up to its closing brace. -/
def parseMembers : Nat → List Char → List (String × Json) → Option (Json × List Char)
  | 0, _, _ => none
  | fuel + 1, cs, acc =>
    match skipSpace cs with
    | '"' :: rest =>
      match parseStringBody rest none [] with
      | none => none
      | some (key, rest) =>
        match skipSpace rest with
        | ':' :: rest =>
          match parseValue fuel rest with
          | none => none
          | some (v, rest) =>
            match skipSpace rest with
            | ',' :: rest => parseMembers fuel rest ((key, v) :: acc)
            | '\x7d' :: rest => some (Json.obj ((key, v) :: acc).reverse, rest)
            | _ => none
        | _ => none
    | _ => none
end

/-- The first JSON value of the text and what follows it. -/
def parseFirst (text : String) : Option (Json × List Char) :=
  parseValue (2 * text.length + 2) text.data

/-- The JSON value the whole text consists of. -/
def parseWhole (text : String) : Option Json :=
  match parseFirst text with
  | some (v, rest) => if skipSpace rest = [] then some v else none
  | none => none

/-- The error of a failed decoding. -/
def syntaxError : GoError := GoError.New "invalid character"

/-- The error of a value of the wrong JSON type. -/
def typeError : GoError := GoError.New "json: cannot unmarshal"

/-- A JSON value stored into a `map[string]interface{}`: an object fills the
map, a later member replacing an earlier one of the same name; null leaves the
nil map. -/
def intoMap : Json → Except GoError JsonMap
  | .obj fields => .ok (fields.foldl (fun m kv => m.assign kv.1 kv.2) [])
  | .null => .ok []
  | _ => .error typeError

/-- The decoder call `json.NewDecoder(buf).Decode(&m)`: the first value of the
text is decoded, what follows it is not read. -/
def jsonDecode (text : String) : Except GoError JsonMap :=
  match parseFirst text with
  | some (v, _) => intoMap v
  | none => .error syntaxError

/-- The call `json.Unmarshal(body, &m)`: the text must be one JSON value. -/
def jsonUnmarshal (text : String) : Except GoError JsonMap :=
  match parseWhole text with
  | some v => intoMap v
  | none => .error syntaxError

/-- ASCII case folding of a member name, for the match against struct tags. -/
def foldName (name : String) : String := ⟨name.data.map Char.toLower⟩

/-- A JSON value stored into a Go string: null keeps the old value. -/
def intoString (old : String) : Json → Except GoError String
  | .str v => .ok v
  | .null => .ok old
  | _ => .error typeError

/-- A JSON value stored into a Go bool: null keeps the old value. -/
def intoBool (old : Bool) : Json → Except GoError Bool
  | .bool v => .ok v
  | .null => .ok old
  | _ => .error typeError

/-- The value of a run of decimal digits. -/
def digitsValue (ds : List Char) : Nat := ds.foldl (fun n c => 10 * n + (c.toNat - '0'.toNat)) 0

/-- A JSON value stored into a Go integer: the literal must be an integer. -/
def intoInt (old : Int) : Json → Except GoError Int
  | .num lit =>
    let neg := lit.data.head? = some '-'
    let ds := if neg then lit.data.tail else lit.data
    if ds ≠ [] ∧ ds.all Char.isDigit then
      .ok (if neg then -(digitsValue ds : Int) else (digitsValue ds : Int))
    else .error typeError
  | .null => .ok old
  | _ => .error typeError

/-- A JSON value stored into a Go slice, each element decoded by `elem`. -/
def intoList {α : Type} (elem : Json → Except GoError α) (old : List α) :
    Json → Except GoError (List α)
  | .arr vs => vs.mapM elem
  | .null => .ok old
  | _ => .error typeError

/-- One member of a JSON object stored into a `ChatMessage`. -/
def chatMessageMember (m : ChatMessage) (kv : String × Json) : Except GoError ChatMessage :=
  if foldName kv.1 = "role" then (intoString m.Role kv.2).map (fun v => { m with Role := v })
  else if foldName kv.1 = "content" then
    (intoString m.Content kv.2).map (fun v => { m with Content := v })
  else .ok m

/-- A JSON value stored into a `ChatMessage`. -/
def intoChatMessage : Json → Except GoError ChatMessage
  | .obj fields => fields.foldlM chatMessageMember { Role := "", Content := "" }
  | .null => .ok { Role := "", Content := "" }
  | _ => .error typeError

/-- One member of a JSON object stored into a `ChatRequest`. -/
def chatRequestMember (r : ChatRequest) (kv : String × Json) : Except GoError ChatRequest :=
  if foldName kv.1 = "messages" then
    (intoList intoChatMessage r.Messages kv.2).map (fun v => { r with Messages := v })
  else if foldName kv.1 = "model" then
    (intoString r.Model kv.2).map (fun v => { r with Model := v })
  else if foldName kv.1 = "stream" then
    (intoBool r.Stream kv.2).map (fun v => { r with Stream := v })
  else .ok r

/-- The call `json.Unmarshal(body, &chatReq)`. -/
def jsonUnmarshalChatRequest (text : String) : Except GoError ChatRequest :=
  match parseWhole text with
  | some (.obj fields) =>
    fields.foldlM chatRequestMember { Messages := [], Model := "", Stream := false }
  | some .null => .ok { Messages := [], Model := "", Stream := false }
  | some _ => .error typeError
  | none => .error syntaxError

/-- One member of a JSON object stored into a `ChatChoice`. -/
def chatChoiceMember (c : ChatChoice) (kv : String × Json) : Except GoError ChatChoice :=
  if foldName kv.1 = "index" then (intoInt c.Index kv.2).map (fun v => { c with Index := v })
  else if foldName kv.1 = "message" then
    (intoList intoChatMessage c.Message kv.2).map (fun v => { c with Message := v })
  else if foldName kv.1 = "finish_reason" then
    (intoString c.FinishReason kv.2).map (fun v => { c with FinishReason := v })
  else .ok c

/-- A JSON value stored into a `ChatChoice`. -/
def intoChatChoice : Json → Except GoError ChatChoice
  | .obj fields => fields.foldlM chatChoiceMember { Index := 0, Message := [], FinishReason := "" }
  | .null => .ok { Index := 0, Message := [], FinishReason := "" }
  | _ => .error typeError

/-- One member of a JSON object stored into the usage struct. -/
def usageMember (u : Usage) (kv : String × Json) : Except GoError Usage :=
  if foldName kv.1 = "prompt_tokens" then
    (intoInt u.PromptTokens kv.2).map (fun v => { u with PromptTokens := v })
  else if foldName kv.1 = "completion_tokens" then
    (intoInt u.CompletionTokens kv.2).map (fun v => { u with CompletionTokens := v })
  else if foldName kv.1 = "total_tokens" then
    (intoInt u.TotalTokens kv.2).map (fun v => { u with TotalTokens := v })
  else .ok u

/-- A JSON value stored into the usage struct. -/
def intoUsage (old : Usage) : Json → Except GoError Usage
  | .obj fields => fields.foldlM usageMember old
  | .null => .ok old
  | _ => .error typeError

/-- One member of a JSON object stored into a `ChatResponse`. -/
def chatResponseMember (r : ChatResponse) (kv : String × Json) : Except GoError ChatResponse :=
  if foldName kv.1 = "id" then (intoString r.ID kv.2).map (fun v => { r with ID := v })
  else if foldName kv.1 = "object" then
    (intoString r.Object kv.2).map (fun v => { r with Object := v })
  else if foldName kv.1 = "created" then
    (intoInt r.Created kv.2).map (fun v => { r with Created := v })
  else if foldName kv.1 = "model" then
    (intoString r.Model kv.2).map (fun v => { r with Model := v })
  else if foldName kv.1 = "choices" then
    (intoList intoChatChoice r.Choices kv.2).map (fun v => { r with Choices := v })
  else if foldName kv.1 = "usage" then
    (intoUsage r.Usage kv.2).map (fun v => { r with Usage := v })
  else .ok r

/-- The zero value of `ChatResponse`. -/
def zeroChatResponse : ChatResponse :=
  { ID := "", Object := "", Created := 0, Model := "", Choices := [],
    Usage := { PromptTokens := 0, CompletionTokens := 0, TotalTokens := 0 } }

/-- The call `json.Unmarshal` into a `ChatResponse`. -/
def jsonUnmarshalChatResponse (text : String) : Except GoError ChatResponse :=
  match parseWhole text with
  | some (.obj fields) => fields.foldlM chatResponseMember zeroChatResponse
  | some .null => .ok zeroChatResponse
  | some _ => .error typeError
  | none => .error syntaxError

/-- One member of the object `mappings` stored into the Go map. -/
def mappingMember (m : List (String × String)) (kv : String × Json) :
    Except GoError (List (String × String)) :=
  (intoString "" kv.2).map (fun v =>
    if m.any (fun e => e.1 == kv.1) then m.map (fun e => if e.1 == kv.1 then (kv.1, v) else e)
    else m ++ [(kv.1, v)])

/-- One member of a JSON object stored into a `ModelMapConfig`. -/
def modelMapConfigMember (c : ModelMapConfig) (kv : String × Json) :
    Except GoError ModelMapConfig :=
  if foldName kv.1 = "mappings" then
    match kv.2 with
    | .obj fields => (fields.foldlM mappingMember c.Mappings).map (fun v => { Mappings := v })
    | .null => .ok c
    | _ => .error typeError
  else .ok c

/-- The call `json.Unmarshal(config, &p.config)`. -/
def jsonUnmarshalModelMapConfig (text : String) (old : ModelMapConfig) :
    ModelMapConfig × Option GoError :=
  match parseWhole text with
  | some (.obj fields) =>
    match fields.foldlM modelMapConfigMember old with
    | .ok c => (c, none)
    | .error err => (old, some err)
  | some .null => (old, none)
  | some _ => (old, some typeError)
  | none => (old, some syntaxError)

/-- A hexadecimal digit. -/
def hexDigit (n : Nat) : Char := "0123456789abcdef".data.getD n '0'

/-- One character of a string as `json.Marshal` writes it: quotes, backslashes
and control characters are escaped, and so are the characters `<`, `>`, `&`,
U+2028 and U+2029. -/
def escapeChar (c : Char) : List Char :=
  if c = '"' then ['\\', '"']
  else if c = '\\' then ['\\', '\\']
  else if c = '\n' then ['\\', 'n']
  else if c = '\r' then ['\\', 'r']
  else if c = '\t' then ['\\', 't']
  else if c = '\x08' then ['\\', 'b']
  else if c = '\x0c' then ['\\', 'f']
  else if c.toNat < 32 ∨ c = '<' ∨ c = '>' ∨ c = '&' then
    ['\\', 'u', '0', '0', hexDigit (c.toNat / 16), hexDigit (c.toNat % 16)]
  else if c.toNat = 0x2028 then ['\\', 'u', '2', '0', '2', '8']
  else if c.toNat = 0x2029 then ['\\', 'u', '2', '0', '2', '9']
  else [c]

/-- A Go string as a JSON string literal. -/
def quote (text : String) : String :=
  ⟨'"' :: text.data.foldr (fun c acc => escapeChar c ++ acc) ['"']⟩

/-- The texts of a list, separated by commas. -/
def commaJoin (parts : List String) : String := ",".intercalate parts

/-- A `ChatMessage` as JSON. -/
def marshalChatMessage (m : ChatMessage) : String :=
  "\x7b\"role\":" ++ quote m.Role ++ ",\"content\":" ++ quote m.Content ++ "\x7d"

/-- A `ChatChoice` as JSON. -/
def marshalChatChoice (c : ChatChoice) : String :=
  "\x7b\"index\":" ++ toString c.Index ++ ",\"message\":[" ++
    commaJoin (c.Message.map marshalChatMessage) ++ "],\"finish_reason\":" ++
    quote c.FinishReason ++ "\x7d"

/-- The call `json.Marshal` on a `ChatResponse` (lists stand for non-nil
slices). -/
def marshalChatResponse (r : ChatResponse) : String :=
  "\x7b\"id\":" ++ quote r.ID ++ ",\"object\":" ++ quote r.Object ++ ",\"created\":" ++
    toString r.Created ++ ",\"model\":" ++ quote r.Model ++ ",\"choices\":[" ++
    commaJoin (r.Choices.map marshalChatChoice) ++ "],\"usage\":\x7b\"prompt_tokens\":" ++
    toString r.Usage.PromptTokens ++ ",\"completion_tokens\":" ++
    toString r.Usage.CompletionTokens ++ ",\"total_tokens\":" ++
    toString r.Usage.TotalTokens ++ "\x7d\x7d"

/-- The stream chunk of `MockPlugin.AfterResponse` as JSON; the keys of a Go
map are written in sorted order. -/
def marshalChunk (r : ChatResponse) (c : ChatChoice) : String :=
  "\x7b\"choices\":[\x7b\"delta\":" ++
    marshalChatMessage (c.Message.headD { Role := "", Content := "" }) ++
    ",\"finish_reason\":" ++ quote c.FinishReason ++ ",\"index\":" ++ toString c.Index ++
    "\x7d],\"created\":" ++ toString r.Created ++ ",\"id\":" ++ quote r.ID ++
    ",\"model\":" ++ quote r.Model ++ ",\"object\":\"chat.completion.chunk\"\x7d"

/-- Insertion of a member into a list sorted by name. -/
def insertSorted {α : Type} (kv : String × α) : List (String × α) → List (String × α)
  | [] => [kv]
  | x :: xs => if kv.1 < x.1 then kv :: x :: xs else x :: insertSorted kv xs

/-- The members of a Go map in the order `json.Marshal` writes them. -/
def sortMembers {α : Type} (m : List (String × α)) : List (String × α) :=
  m.foldr insertSorted []

mutual
/-- A decoded value as JSON; a number keeps its literal. -/
def marshalJson : Json → String
  | .null => "null"
  | .bool b => if b then "true" else "false"
  | .num lit => lit
  | .str v => quote v
  | .arr vs => "[" ++ commaJoin (marshalElems vs) ++ "]"
  | .obj fields => "\x7b" ++ commaJoin (marshalFields fields) ++ "\x7d"
/-- The elements of an array as JSON. -/
def marshalElems : List Json → List String
  | [] => []
  | v :: vs => marshalJson v :: marshalElems vs
/-- The members of an object as JSON. -/
def marshalFields : List (String × Json) → List String
  | [] => []
  | (k, v) :: rest => (quote k ++ ":" ++ marshalJson v) :: marshalFields rest
end

/-- The call `json.Marshal` on a `map[string]interface{}`. -/
def jsonMarshalMap (m : JsonMap) : Except GoError String :=
  .ok ("\x7b" ++ commaJoin (marshalFields (sortMembers m)) ++ "\x7d")

/-- The call `json.Marshal` on a `ModelMapConfig`. -/
def jsonMarshalModelMapConfig (c : ModelMapConfig) : String :=
  "\x7b\"mappings\":\x7b" ++
    commaJoin ((sortMembers c.Mappings).map (fun kv => quote kv.1 ++ ":" ++ quote kv.2)) ++
    "\x7d\x7d"

/-- The JSON text of `gin.H{"error": msg}`. -/
def jsonMarshalError (msg : String) : String := "\x7b\"error\":" ++ quote msg ++ "\x7d"

/-- A `ModelInfo` as JSON. -/
def marshalModelInfo (m : ModelInfo) : String :=
  "\x7b\"id\":" ++ quote m.ID ++ ",\"object\":" ++ quote m.Object ++ ",\"created\":" ++
    toString m.Created ++ ",\"owned_by\":" ++ quote m.OwnedBy ++ "\x7d"

/-- The JSON text of a `ModelsResponse`. -/
def jsonMarshalModels (r : ModelsResponse) : String :=
  "\x7b\"object\":" ++ quote r.Object ++ ",\"data\":[" ++
    commaJoin (r.Data.map marshalModelInfo) ++ "]\x7d"

/-- One character of a string as `strconv.Quote` writes it, for characters
that are ASCII or printable. -/
def goQuoteChar (c : Char) : List Char :=
  if c = '"' then ['\\', '"']
  else if c = '\\' then ['\\', '\\']
  else if c = '\x07' then ['\\', 'a']
  else if c = '\x08' then ['\\', 'b']
  else if c = '\x0c' then ['\\', 'f']
  else if c = '\n' then ['\\', 'n']
  else if c = '\r' then ['\\', 'r']
  else if c = '\t' then ['\\', 't']
  else if c = '\x0b' then ['\\', 'v']
  else if c.toNat < 32 ∨ c.toNat = 127 then
    ['\\', 'x', hexDigit (c.toNat / 16), hexDigit (c.toNat % 16)]
  else [c]

/-- Go `strconv.Quote`, the verb `%q`. -/
def goQuote (text : List Char) : String :=
  ⟨'"' :: text.foldr (fun c acc => goQuoteChar c ++ acc) ['"']⟩

/-- The function `getScheme` of net/url: the scheme and what follows its
colon, or no scheme and the whole text; `acc` holds the characters passed, the
last one first. -/
def getScheme : List Char → List Char → Except String (List Char × List Char)
  | [], acc => .ok ([], acc.reverse)
  | c :: cs, acc =>
    if c.isAlpha then getScheme cs (c :: acc)
    else if c.isDigit ∨ c = '+' ∨ c = '-' ∨ c = '.' then
      if acc = [] then .ok ([], c :: cs) else getScheme cs (c :: acc)
    else if c = ':' then
      if acc = [] then .error "missing protocol scheme" else .ok (acc.reverse, cs)
    else .ok ([], acc.reverse ++ c :: cs)

/-- The text before the last occurrence of `c`, and the text from that
occurrence on. -/
def cutLast (c : Char) (s : List Char) : Option (List Char × List Char) :=
  if s.contains c then
    some ((s.reverse.dropWhile (· ≠ c)).reverse.dropLast,
          c :: (s.reverse.takeWhile (· ≠ c)).reverse)
  else none

/-- The function `validOptionalPort` of net/url. -/
def validOptionalPort : List Char → Bool
  | [] => true
  | c :: ds => c = ':' && ds.all Char.isDigit

/-- The ASCII characters a host may hold unescaped (`shouldEscape` in the mode
for hosts). -/
def hostChar (c : Char) : Bool :=
  c.isAlphanum || "!$&'()*+,;=:[]<>\"-_.~".data.contains c

/-- The function `parseHost` of net/url, for hosts without a percent sign. -/
def parseHost (host : List Char) : Except String (List Char) :=
  let port : Except String Unit :=
    if host.head? = some '[' then
      match cutLast ']' host with
      | none => .error "missing ']' in host"
      | some (_, fromBracket) =>
        if validOptionalPort (fromBracket.drop 1) then .ok ()
        else .error ("invalid port " ++ goQuote (fromBracket.drop 1) ++ " after host")
    else
      match cutLast ':' host with
      | none => .ok ()
      | some (_, colonPort) =>
        if validOptionalPort colonPort then .ok ()
        else .error ("invalid port " ++ goQuote colonPort ++ " after host")
  match port with
  | .error e => .error e
  | .ok _ =>
    match host.find? (fun c => c.toNat < 128 && !hostChar c) with
    | some c => .error ("invalid character " ++ goQuote [c] ++ " in host name")
    | none => .ok host

/-- The function `validUserinfo` of net/url. -/
def validUserinfo (s : List Char) : Bool :=
  s.all (fun c => c.isAlphanum || "-._:~!$&'()*+,;=%@".data.contains c)

/-- The function `parseAuthority` of net/url; the user information is checked
and dropped, the host is returned. -/
def parseAuthority (authority : List Char) : Except String (List Char) :=
  match cutLast '@' authority with
  | none => parseHost authority
  | some (userinfo, fromAt) =>
    match parseHost (fromAt.drop 1) with
    | .error e => .error e
    | .ok host =>
      if validUserinfo userinfo then .ok host else .error "net/url: invalid userinfo"

/-- The function `parse` of net/url for a text that is not taken from a
request line, as far as scheme, host and path go. -/
def parseURL (u : List Char) : Except String URL :=
  if u.any (fun c => c.toNat < 32 || c.toNat = 127) then
    .error "net/url: invalid control character in URL"
  else if u = ['*'] then .ok { Scheme := "", Host := "", Path := "*" }
  else
    match getScheme u [] with
    | .error e => .error e
    | .ok (scheme, afterScheme) =>
      let scheme := scheme.map Char.toLower
      let rest := afterScheme.takeWhile (· ≠ '?')
      if rest.head? ≠ some '/' ∧ scheme ≠ [] then
        .ok { Scheme := ⟨scheme⟩, Host := "", Path := "" }
      else if rest.head? ≠ some '/' ∧ (rest.takeWhile (· ≠ '/')).contains ':' then
        .error "first path segment in URL cannot contain colon"
      else if (scheme ≠ [] ∨ ¬ "///".data.isPrefixOf rest) ∧ "//".data.isPrefixOf rest then
        match parseAuthority ((rest.drop 2).takeWhile (· ≠ '/')) with
        | .error e => .error e
        | .ok host =>
          .ok { Scheme := ⟨scheme⟩, Host := ⟨host⟩, Path := ⟨(rest.drop 2).dropWhile (· ≠ '/')⟩ }
      else .ok { Scheme := ⟨scheme⟩, Host := "", Path := ⟨rest⟩ }

/-- The parser `url.Parse`, as far as scheme, host and path go: the fragment
is cut off, the rest is parsed, and an error is wrapped with the operation and
the text.  A percent sign starts an escape, which is outside this parser; it
reports such a text as an error of its own. -/
def urlParse (raw : String) : Except GoError URL :=
  if raw.data.contains '%' then
    .error (GoError.New "percent escapes are outside the reference parser")
  else
    match parseURL (raw.data.takeWhile (· ≠ '#')) with
    | .ok url => .ok url
    | .error e =>
      .error (GoError.Wrap ("parse " ++ goQuote (raw.data.takeWhile (· ≠ '#')) ++ ": " ++ e)
        (GoError.New e))

/-- The host of `net.SplitHostPort`, or nothing when it reports an error. -/
def splitHostPort (hostport : String) : Option String :=
  match cutLast ':' hostport.data with
  | none => none
  | some (before, _) =>
    if hostport.data.head? = some '[' then
      if ¬ hostport.data.contains ']' then none
      else if ((hostport.data.drop 1).takeWhile (· ≠ ']')).length + 2 ≠ before.length then none
      else if (hostport.data.drop 1).contains '[' ∨
          (hostport.data.drop before.length).contains ']' then none
      else some ⟨(hostport.data.drop 1).takeWhile (· ≠ ']')⟩
    else if before.contains ':' then none
    else if hostport.data.contains '[' ∨ hostport.data.contains ']' then none
    else some ⟨before⟩

/-- The token characters of a header name. -/
def validHeaderFieldByte (c : Char) : Bool :=
  c.isAlphanum || "!#$%&'*+-.^_`|~".data.contains c

/-- The casing of `textproto.CanonicalMIMEHeaderKey`: upper case at the start
and after a hyphen, lower case elsewhere. -/
def canonChars : Bool → List Char → List Char
  | _, [] => []
  | upper, c :: cs =>
    (if upper then c.toUpper else c.toLower) ::
      canonChars ((if upper then c.toUpper else c.toLower) = '-') cs

/-- The function `textproto.CanonicalMIMEHeaderKey`; a name with a character
that is not a token character is returned unchanged. -/
def canonicalMIMEHeaderKey (name : String) : String :=
  if name.data.all validHeaderFieldByte then ⟨canonChars true name.data⟩ else name

/-- The function `textproto.TrimString`. -/
def trimString (cs : List Char) : List Char :=
  ((cs.dropWhile isJsonSpace).reverse.dropWhile isJsonSpace).reverse

/-- Splitting at every comma. -/
def splitComma : List Char → List (List Char)
  | [] => [[]]
  | c :: cs =>
    match splitComma cs with
    | [] => [[]]
    | seg :: rest => if c = ',' then [] :: seg :: rest else (c :: seg) :: rest

/-- The list `hopHeaders` of httputil. -/
def hopHeaders : List String :=
  ["Connection", "Proxy-Connection", "Keep-Alive", "Proxy-Authenticate",
   "Proxy-Authorization", "Te", "Trailer", "Transfer-Encoding", "Upgrade"]

/-- The header names listed in the values of the Connection header. -/
def connectionTokens (h : Header) : List String :=
  (((h "Connection").map (fun f => (splitComma f.data).map trimString)).foldr (· ++ ·) []).filterMap
    (fun sf => if sf = [] then none else some (canonicalMIMEHeaderKey ⟨sf⟩))

/-- The function `removeHopByHopHeaders` of httputil. -/
def removeHopByHopHeaders (h : Header) : Header :=
  hopHeaders.foldl Header.Del ((connectionTokens h).foldl Header.Del h)

/-- What ReverseProxy.ServeHTTP does to the outbound request around the
Director, for requests that ask for neither trailers nor a protocol upgrade: a
request of content length 0 goes out without a body, hop-by-hop headers are
removed, the caller's address is appended to X-Forwarded-For, and an absent
User-Agent is set to the empty value. -/
def libOutbound (req : Request) : Request :=
  let h := removeHopByHopHeaders req.Header
  let h :=
    match splitHostPort req.RemoteAddr with
    | some clientIP =>
      if h "X-Forwarded-For" = [] then h.Set "X-Forwarded-For" clientIP
      else h.Set "X-Forwarded-For" (", ".intercalate (h "X-Forwarded-For") ++ ", " ++ clientIP)
    | none => h
  let h := if h "User-Agent" = [] then h.Set "User-Agent" "" else h
  { req with Header := h, Body := if req.ContentLength = 0 then Body.buffer "" else req.Body }

/-- What ReverseProxy.ServeHTTP does to the upstream response before
ModifyResponse, for responses other than 101 Switching Protocols. -/
def libInbound (res : Response) : Response :=
  { res with Header := removeHopByHopHeaders res.Header }

end Ref

/-- The reference environment with the given clock and upstream. -/
def refEnv (now : Int) (transport : Request → Except GoError Response) : Env :=
  { urlParse := Ref.urlParse,
    jsonDecode := Ref.jsonDecode,
    jsonUnmarshal := Ref.jsonUnmarshal,
    jsonUnmarshalChatRequest := Ref.jsonUnmarshalChatRequest,
    jsonUnmarshalModelMapConfig := Ref.jsonUnmarshalModelMapConfig,
    jsonMarshalMap := Ref.jsonMarshalMap,
    jsonMarshalChatResponse := fun r => .ok (Ref.marshalChatResponse r),
    jsonUnmarshalChatResponse := Ref.jsonUnmarshalChatResponse,
    jsonMarshalChunk := Ref.marshalChunk,
    jsonMarshalModelMapConfig := Ref.jsonMarshalModelMapConfig,
    jsonMarshalError := Ref.jsonMarshalError,
    jsonMarshalModels := Ref.jsonMarshalModels,
    now := now,
    splitHostPort := Ref.splitHostPort,
    libOutbound := Ref.libOutbound,
    transport := transport,
    libInbound := Ref.libInbound }

/-! ## Notions used in the statements -/

deriving instance DecidableEq for Except

/-- The request passes steps 1 to 8 of `handleRequest` and reaches the
plugins: it is not an OPTIONS request, its path has the configured prefix and
is not the models path once the prefix is removed, the target URL parses to
`targetURL`, and the body is read as `reqBody`. -/
def reachesPlugins (env : Env) (cfg : Config) (req : Request) (targetURL : URL)
    (reqBody : String) : Prop :=
  req.Method ≠ "OPTIONS" ∧
  (cfg.PathPrefix = "" ∨ HasPrefix req.URL.Path cfg.PathPrefix = true) ∧
  (stripPathPrefix cfg req).URL.Path ≠ "/v1/models" ∧
  env.urlParse cfg.TargetURL = .ok targetURL ∧
  req.Body = Body.buffer reqBody

instance (env : Env) (cfg : Config) (req : Request) (targetURL : URL) (reqBody : String) :
    Decidable (reachesPlugins env cfg req targetURL reqBody) := by
  unfold reachesPlugins
  infer_instance

/-- The result of the network call that `ServeHTTP` makes for the request `c`
of the gin context. -/
def upstreamCall (env : Env) (p : Proxy) (targetURL : URL) (c : Request) :
    Except GoError Response :=
  env.transport (transportRequest (env.libOutbound (Director env p targetURL c c)))

/-- The errors the three guards of `ErrorHandler` return early for, compared
as the handler compares them: http.ErrAbortHandler by identity, EPIPE and
ECONNRESET with `errors.Is`, context.Canceled and context.DeadlineExceeded by
identity. -/
def benignError (err : GoError) : Bool :=
  decide (err = GoError.ErrAbortHandler) ||
  (err.Is EPIPE || err.Is ECONNRESET) ||
  (decide (err = GoError.Canceled) || decide (err = GoError.DeadlineExceeded))

/-- A header map given by a list of name and value pairs. -/
def headerOf (kvs : List (String × String)) : Header :=
  fun k => (kvs.filter (fun kv => kv.1 == k)).map (fun kv => kv.2)

/-- A POST request from the address 10.0.0.1:5555. -/
def postRequest (path : String) (headers : List (String × String)) (body : String) : Request :=
  { Method := "POST", URL := { Scheme := "", Host := "", Path := path },
    Host := "localhost:8899", Header := headerOf headers, Body := Body.buffer body,
    ContentLength := (body.utf8ByteSize : Int), RemoteAddr := "10.0.0.1:5555" }

/-- An upstream that answers every request with status 200 and the given
headers and body. -/
def upstreamOK (headers : List (String × String)) (body : String) :
    Request → Except GoError Response :=
  fun r => .ok { Status := "200 OK", StatusCode := 200, Header := headerOf headers,
                 Body := body, Request := r }

/-- The configuration of `main.go` without a default credential. -/
def plainConfig : Config :=
  { ListenAddr := ":8899", TargetURL := "https://ark.cn-beijing.volces.com/api/v3",
    PathPrefix := "", Headers := [], Models := [] }

/-- Nothing has been committed or written to the caller yet, and the caller
stays connected; the header map is arbitrary. -/
def ginResponseWriter.untouched (w : ginResponseWriter) : Prop :=
  w.Written = false ∧ w.body = "" ∧ w.writesLeft = none

instance (w : ginResponseWriter) : Decidable w.untouched := by
  unfold ginResponseWriter.untouched
  infer_instance

/-- A proxy with the prefix `/openai` and no plugin. -/
def prefixProxy : Proxy := NewProxy { plainConfig with PathPrefix := "/openai" }

/-- The name of the request header that carries a direct response. -/
def directResponseHeader : String := "X-Mock-Direct-Response"

/-- An interceptor whose before-hook attaches the direct-response marker with
the given payload. -/
def attachMarker (payload : String) : Plugin :=
  { BeforeRequest := fun r => ({ r with Header := r.Header.Set directResponseHeader payload }, none),
    AfterResponse := fun r => some (r, none) }

/-- An interceptor whose before-hook removes the direct-response marker. -/
def dropMarker : Plugin :=
  { BeforeRequest := fun r => ({ r with Header := r.Header.Del directResponseHeader }, none),
    AfterResponse := fun r => some (r, none) }

/-- An interceptor whose before-hook appends its tag to the request header
X-Hook-Trace. -/
def tracePlugin (tag : String) : Plugin :=
  { BeforeRequest := fun r => ({ r with Header := r.Header.Add "X-Hook-Trace" tag }, none),
    AfterResponse := fun r => some (r, none) }

/-- An interceptor whose before-hook returns an error. -/
def failingPlugin (text : String) : Plugin :=
  { BeforeRequest := fun r => (r, some (GoError.New text)),
    AfterResponse := fun r => some (r, none) }

/-- The proxy of `plainConfig` with the given interceptors registered in the
order of the list. -/
def proxyWith (ps : List Plugin) : Proxy := ps.foldl Proxy.RegisterPlugin (NewProxy plainConfig)

/-- The target URL of `plainConfig`. -/
def plainTarget : URL :=
  { Scheme := "https", Host := "ark.cn-beijing.volces.com", Path := "/api/v3" }

/-- A chat request that declares the streaming flag. -/
def streamBody : String :=
  "\x7b\"model\":\"gpt-4\",\"messages\":[\x7b\"role\":\"user\",\"content\":\"hello\"\x7d],\"stream\":true\x7d"

/-- A chat request without the streaming flag. -/
def plainBody : String :=
  "\x7b\"model\":\"gpt-4\",\"messages\":[\x7b\"role\":\"user\",\"content\":\"hello\"\x7d]\x7d"

/-- The mappings `main.go` passes to `StartCursorProxy`. -/
def mainMappings : List (String × String) :=
  [("gpt-4", "ep-20250208163847-fv7w8"), ("gpt-4o", "ep-20250208163847-fv7w8"),
   ("gpt-3.5-turbo", "ep-20250208163847-fv7w8")]

/-- An upstream whose response carries CORS headers of its own. -/
def corsUpstream : Request → Except GoError Response :=
  upstreamOK [("Content-Type", "application/json"),
              ("Access-Control-Allow-Origin", "https://upstream.example"),
              ("Access-Control-Allow-Private-Network", "true"),
              ("Access-Control-Request-Headers", "X-Upstream")] "ok"

/-- The model-map plugin with the mappings of `main.go`. -/
def mainModelMap : ModelMapPlugin := { config := { Mappings := mainMappings } }

/-- A chat request that names a model without a mapping. -/
def unmappedBody : String :=
  "\x7b\"model\":\"deepseek-r1\",\"messages\":[\x7b\"role\":\"user\",\"content\":\"hello\"\x7d]\x7d"

/-- The interceptor `q` with its after-response hook replaced. -/
def replaceAfter (after : Plugin → Response → Option (Response × Option GoError))
    (q : Plugin) : Plugin :=
  { BeforeRequest := q.BeforeRequest, AfterResponse := after q }

/-- An interceptor whose before-hook passes the request on and whose
after-response hook replaces the body of the response. -/
def rewriteAfter : Plugin :=
  { BeforeRequest := fun r => (r, none),
    AfterResponse := fun r => some ({ r with Body := "rewritten by the after-hook" }, none) }

/-- An upstream call that fails because the context of the request was
cancelled. -/
def canceledUpstream : Request → Except GoError Response :=
  fun _ => .error GoError.Canceled

/-- The proxy of `main.go`: the configuration with a default credential, no
interceptor. -/
def keyedProxy : Proxy :=
  NewProxy { plainConfig with Headers := [("Authorization", "Bearer sk-default")] }

/-- The error-level entries of a log. -/
def errorEntries (logs : List LogEntry) : List LogEntry :=
  logs.filter (fun e => e.level = Level.error)

/-- A write operation on the wrapper: `Write` with bytes, or `WriteString`. -/
inductive WriteOp where
  | Write (data : String)
  | WriteString (s : String)
  deriving DecidableEq, Repr

/-- The bytes of a write operation. -/
def WriteOp.bytes : WriteOp → String
  | .Write data => data
  | .WriteString s => s

/-- One write operation on the wrapper. -/
def streamResponseWriter.perform (w : streamResponseWriter) :
    WriteOp → streamResponseWriter × Nat × Option GoError
  | .Write data => w.Write data
  | .WriteString s => w.WriteString s

/-- A sequence of write operations on the wrapper: the wrapper afterwards,
and for every operation the byte count and the error that came back from the
sink. -/
def performAll : List WriteOp → streamResponseWriter →
    streamResponseWriter × List (Nat × Option GoError)
  | [], w => (w, [])
  | op :: rest, w =>
    ((performAll rest (w.perform op).1).1,
     ((w.perform op).2.1, (w.perform op).2.2) :: (performAll rest (w.perform op).1).2)

/-- The number of operations of a sequence that the sink accepted without
error. -/
def acceptedWrites (results : List (Nat × Option GoError)) : Nat :=
  (results.filter (fun r => r.2 = none)).length

/-- A sink whose connection to the caller is broken: it accepts no write. -/
def brokenSink : ginResponseWriter := { ginResponseWriter.fresh with writesLeft := some 0 }

/-- A sink whose connection to the caller breaks after two writes. -/
def breakingSink : ginResponseWriter := { ginResponseWriter.fresh with writesLeft := some 2 }

/-- A chat-completions request that arrives from the client with the given
value in the header X-Mock-Direct-Response. -/
def markedRequest (value : String) : Request :=
  postRequest "/v1/chat/completions" [("X-Mock-Direct-Response", value)] plainBody

/-- A proxy without a plugin whose target URL ends in a line feed. -/
def brokenTargetProxy : Proxy :=
  NewProxy { plainConfig with TargetURL := "https://ark.cn-beijing.volces.com/api/v3\n" }

/-- A request with the given header value whose body cannot be read. -/
def truncatedRequest (value : String) : Request :=
  { markedRequest value with Body := Body.failing (GoError.New "unexpected EOF") }

/-! ## The course of `handleRequest` -/

theorem handleRequest_reaches {env : Env} {p : Proxy} {req : Request} {targetURL : URL}
    {reqBody : String} (w : ginResponseWriter)
    (h : reachesPlugins env p.config req targetURL reqBody) :
    handleRequest env p req w =
      pluginsAndForward env p targetURL (isStreamRequest env reqBody)
        (newStreamResponseWriter w) (stripPathPrefix p.config req)
        (entryLogs (stripPathPrefix p.config req) reqBody) := by
  obtain ⟨hm, hp, hmodels, hurl, hbody⟩ := h
  have hb : (stripPathPrefix p.config req).Body = Body.buffer reqBody := by
    unfold stripPathPrefix
    split <;> simpa using hbody
  have hnot : ¬ (p.config.PathPrefix ≠ "" ∧ HasPrefix req.URL.Path p.config.PathPrefix = false) := by
    rintro ⟨h1, h2⟩
    rcases hp with hp | hp
    · exact h1 hp
    · simp [hp] at h2
  have heta : ({ stripPathPrefix p.config req with Body := Body.buffer reqBody } : Request) =
      stripPathPrefix p.config req := by
    rw [← hb]
  unfold handleRequest
  simp only [if_neg hm, if_neg hnot, if_neg hmodels, hurl, hb, Body.ReadAll, heta]

/-! ## C1: a request without the configured prefix -/

/-- C1: under a configuration with a non-empty PathPrefix, a non-OPTIONS
request whose path does not start with the prefix gets status 404 from
`handleRequest` (the status of the writer, and the status the caller receives
when nothing was committed before the handler ran), no before-hook is invoked,
the Director is not run and nothing is handed to the transport. -/
theorem C1_prefix_mismatch_not_found (env : Env) (p : Proxy) (req : Request)
    (w : ginResponseWriter) (hm : req.Method ≠ "OPTIONS") (hp : p.config.PathPrefix ≠ "")
    (hn : HasPrefix req.URL.Path p.config.PathPrefix = false) (hw : w.sent = none) :
    (handleRequest env p req w).Writer.Status = 404 ∧
    (handleRequest env p req w).relayed.StatusCode = 404 ∧
    (handleRequest env p req w).hooks = [] ∧
    (handleRequest env p req w).outbound = none ∧
    (handleRequest env p req w).upstream = [] := by
  have h : handleRequest env p req w =
      earlyOutcome req (.stream (ginStatus (newStreamResponseWriter w) 404)) [] := by
    unfold handleRequest
    simp only [if_neg hm, if_pos (And.intro hp hn)]
  rw [h]
  simp [earlyOutcome, ginStatus, newStreamResponseWriter, streamResponseWriter.WriteHeader,
    ResponseWriter.Status, streamResponseWriter.Status, Outcome.relayed, ResponseWriter.base,
    ginResponseWriter.WriteHeader, ginResponseWriter.WriteHeaderNow, ginResponseWriter.Written, hw]
  split <;> simp_all

/-- C1 at the request `POST /other/v1/chat/completions` under the prefix
`/openai`. -/
theorem C1_prefix_mismatch_not_found_witness :
    (postRequest "/other/v1/chat/completions" [] "").Method ≠ "OPTIONS" ∧
    prefixProxy.config.PathPrefix ≠ "" ∧
    HasPrefix (postRequest "/other/v1/chat/completions" [] "").URL.Path
      prefixProxy.config.PathPrefix = false ∧
    (handleRequest (refEnv 0 (upstreamOK [] "")) prefixProxy
      (postRequest "/other/v1/chat/completions" [] "") ginResponseWriter.fresh).relayed.StatusCode
      = 404 :=
  ⟨by decide, by decide, by decide,
   (C1_prefix_mismatch_not_found (refEnv 0 (upstreamOK [] "")) prefixProxy
      (postRequest "/other/v1/chat/completions" [] "") ginResponseWriter.fresh
      (by decide) (by decide) (by decide) rfl).2.1⟩

/-! ## The plugin loop -/

theorem runBeforeRequest_append (pre post : List Plugin) (req : Request)
    (h : (runBeforeRequest pre req).2.2 = none) :
    runBeforeRequest (pre ++ post) req =
      ((runBeforeRequest post (runBeforeRequest pre req).1).1,
       pre ++ (runBeforeRequest post (runBeforeRequest pre req).1).2.1,
       (runBeforeRequest post (runBeforeRequest pre req).1).2.2) := by
  induction pre generalizing req with
  | nil => simp [runBeforeRequest]
  | cons q rest ih =>
    simp only [List.cons_append, runBeforeRequest]
    rcases hq : q.BeforeRequest req with ⟨r1, e1⟩
    cases e1 with
    | some err => simp [runBeforeRequest, hq] at h
    | none =>
      simp only [runBeforeRequest, hq] at h
      simp [ih r1 h]

theorem runBeforeRequest_hooks_of_ok (ps : List Plugin) (req : Request)
    (h : (runBeforeRequest ps req).2.2 = none) : (runBeforeRequest ps req).2.1 = ps := by
  induction ps generalizing req with
  | nil => simp [runBeforeRequest]
  | cons q rest ih =>
    rcases hq : q.BeforeRequest req with ⟨r1, e1⟩
    cases e1 with
    | some err => simp [runBeforeRequest, hq] at h
    | none =>
      simp only [runBeforeRequest, hq] at h
      simp [runBeforeRequest, hq, ih r1 h]

theorem runBeforeRequest_ok_of_never_errors (ps : List Plugin) (req : Request)
    (h : ∀ q ∈ ps, ∀ r, (q.BeforeRequest r).2 = none) : (runBeforeRequest ps req).2.2 = none := by
  induction ps generalizing req with
  | nil => simp [runBeforeRequest]
  | cons q rest ih =>
    rcases hq : q.BeforeRequest req with ⟨r1, e1⟩
    have h1 := h q (by simp) req
    rw [hq] at h1
    simp only at h1
    subst h1
    simp only [runBeforeRequest, hq]
    exact ih r1 (fun q2 hq2 r => h q2 (by simp [hq2]) r)

theorem runBeforeRequest_stops (pre post : List Plugin) (q : Plugin) (req : Request)
    (err : GoError) (hpre : (runBeforeRequest pre req).2.2 = none)
    (hq : (q.BeforeRequest (runBeforeRequest pre req).1).2 = some err) :
    (runBeforeRequest (pre ++ q :: post) req).2.1 = pre ++ [q] ∧
    (runBeforeRequest (pre ++ q :: post) req).2.2 = some err := by
  rw [runBeforeRequest_append pre (q :: post) req hpre]
  rcases hb : q.BeforeRequest (runBeforeRequest pre req).1 with ⟨r1, e1⟩
  rw [hb] at hq
  simp only at hq
  subst hq
  simp [runBeforeRequest, hb]

theorem stripPathPrefix_Header (cfg : Config) (req : Request) :
    (stripPathPrefix cfg req).Header = req.Header := by
  unfold stripPathPrefix
  split <;> rfl

theorem runBeforeRequest_keeps (k : String) (ps : List Plugin) (req : Request)
    (hkeep : ∀ q ∈ ps, ∀ r : Request, (q.BeforeRequest r).1.Header.Get k = r.Header.Get k) :
    (runBeforeRequest ps req).1.Header.Get k = req.Header.Get k := by
  induction ps generalizing req with
  | nil => rfl
  | cons q rest ih =>
    have hq := hkeep q (List.mem_cons_self q rest) req
    unfold runBeforeRequest
    cases hb : q.BeforeRequest req with
    | mk req1 e =>
      rw [hb] at hq
      cases e with
      | some err => exact hq
      | none =>
        simp only
        rw [ih req1 (fun q2 h2 r => hkeep q2 (List.mem_cons_of_mem q h2) r)]
        exact hq

theorem runBeforeRequest_prefix_ok (pre post : List Plugin) (req : Request)
    (h : (runBeforeRequest (pre ++ post) req).2.2 = none) :
    (runBeforeRequest pre req).2.2 = none := by
  induction pre generalizing req with
  | nil => rfl
  | cons q rest ih =>
    simp only [List.cons_append, runBeforeRequest] at h ⊢
    rcases hq : q.BeforeRequest req with ⟨r1, e1⟩
    rw [hq] at h
    cases e1 with
    | some err => simp at h
    | none =>
      simp only at h ⊢
      exact ih r1 h

/-- The header an interceptor leaves on the request is the header after the
loop when the interceptors registered after it leave that header alone. -/
theorem runBeforeRequest_attached (k : String) (pre post : List Plugin) (q : Plugin)
    (req : Request) (hok : (runBeforeRequest (pre ++ q :: post) req).2.2 = none)
    (hkeep : ∀ q2 ∈ post, ∀ r : Request,
      (q2.BeforeRequest r).1.Header.Get k = r.Header.Get k) :
    (runBeforeRequest (pre ++ q :: post) req).1.Header.Get k =
      (q.BeforeRequest (runBeforeRequest pre req).1).1.Header.Get k := by
  have hpre := runBeforeRequest_prefix_ok pre (q :: post) req hok
  rw [runBeforeRequest_append pre (q :: post) req hpre] at hok ⊢
  simp only [runBeforeRequest] at hok ⊢
  rcases hq : q.BeforeRequest (runBeforeRequest pre req).1 with ⟨r1, e1⟩
  rw [hq] at hok
  cases e1 with
  | some err => simp at hok
  | none =>
    simp only
    exact runBeforeRequest_keeps k post r1 hkeep

theorem registered_plugins (cfg : Config) (ps : List Plugin) :
    (ps.foldl Proxy.RegisterPlugin (NewProxy cfg)).plugins = ps ∧
    (ps.foldl Proxy.RegisterPlugin (NewProxy cfg)).config = cfg := by
  have gen : ∀ (qs : List Plugin) (p : Proxy),
      (qs.foldl Proxy.RegisterPlugin p).plugins = p.plugins ++ qs ∧
      (qs.foldl Proxy.RegisterPlugin p).config = p.config := by
    intro qs
    induction qs with
    | nil => intro p; simp
    | cons q rest ih =>
      intro p
      have h1 := ih (p.RegisterPlugin q)
      rw [List.foldl_cons]
      refine ⟨?_, ?_⟩
      · rw [h1.1]; simp [Proxy.RegisterPlugin]
      · rw [h1.2]; simp [Proxy.RegisterPlugin]
  simpa [NewProxy] using gen ps (NewProxy cfg)

/-! ## The three ways out of steps 9 to 11 -/

theorem pluginsAndForward_error (env : Env) (p : Proxy) (targetURL : URL) (isStream : Bool)
    (w : streamResponseWriter) (req : Request) (logs : List LogEntry) (err : GoError)
    (h : (runBeforeRequest p.plugins req).2.2 = some err) :
    (pluginsAndForward env p targetURL isStream w req logs).hooks =
      (runBeforeRequest p.plugins req).2.1 ∧
    (pluginsAndForward env p targetURL isStream w req logs).outbound = none ∧
    (pluginsAndForward env p targetURL isStream w req logs).upstream = [] ∧
    (pluginsAndForward env p targetURL isStream w req logs).Writer =
      .stream (ginJSON w 500 (env.jsonMarshalError err.Error)) := by
  simp [pluginsAndForward, h]

theorem pluginsAndForward_direct (env : Env) (p : Proxy) (targetURL : URL) (isStream : Bool)
    (w : streamResponseWriter) (req : Request) (logs : List LogEntry)
    (h : (runBeforeRequest p.plugins req).2.2 = none)
    (hm : (runBeforeRequest p.plugins req).1.Header.Get "X-Mock-Direct-Response" ≠ "") :
    (pluginsAndForward env p targetURL isStream w req logs).hooks =
      (runBeforeRequest p.plugins req).2.1 ∧
    (pluginsAndForward env p targetURL isStream w req logs).outbound = none ∧
    (pluginsAndForward env p targetURL isStream w req logs).upstream = [] ∧
    (pluginsAndForward env p targetURL isStream w req logs).Writer =
      .stream (ginString (ginHeader w "Content-Type" "application/json") 200
        ((runBeforeRequest p.plugins req).1.Header.Get "X-Mock-Direct-Response")) := by
  simp [pluginsAndForward, h, hm]

theorem pluginsAndForward_forward (env : Env) (p : Proxy) (targetURL : URL) (isStream : Bool)
    (w : streamResponseWriter) (req : Request) (logs : List LogEntry)
    (h : (runBeforeRequest p.plugins req).2.2 = none)
    (hm : (runBeforeRequest p.plugins req).1.Header.Get "X-Mock-Direct-Response" = "") :
    pluginsAndForward env p targetURL isStream w req logs =
      ServeHTTP env p targetURL isStream w (runBeforeRequest p.plugins req).1
        (runBeforeRequest p.plugins req).2.1 logs := by
  simp [pluginsAndForward, h, hm]

theorem pluginsAndForward_hooks (env : Env) (p : Proxy) (targetURL : URL) (isStream : Bool)
    (w : streamResponseWriter) (req : Request) (logs : List LogEntry) :
    (pluginsAndForward env p targetURL isStream w req logs).hooks =
      (runBeforeRequest p.plugins req).2.1 := by
  unfold pluginsAndForward
  simp only
  split
  · rfl
  · split
    · rfl
    · unfold ServeHTTP
      simp only
      split <;> rfl

/-- What `c.String(200, text)` after `c.Header("Content-Type", ...)` leaves on
an untouched writer: status 200 and the text as the body. -/
theorem direct_response_relayed (w : ginResponseWriter) (text : String) (hw : w.untouched) :
    let sw := ginString (ginHeader (newStreamResponseWriter w) "Content-Type" "application/json")
      200 text
    sw.Status = 200 ∧
    (sw.ResponseWriter.WriteHeaderNow.sent.map Prod.fst) = some 200 ∧
    sw.ResponseWriter.WriteHeaderNow.body = text := by
  obtain ⟨hs, hb, hl⟩ := hw
  have hs : w.sent = none := by simpa [ginResponseWriter.Written] using hs
  by_cases h200 : w.status = 200 <;>
  simp [ginString, ginRender, ginStatus, ginHeader, newStreamResponseWriter,
    streamResponseWriter.WriteHeader, streamResponseWriter.Status, streamResponseWriter.mapHeader,
    streamResponseWriter.Write, ginResponseWriter.WriteHeader, ginResponseWriter.WriteHeaderNow,
    ginResponseWriter.Written, ginResponseWriter.Write, ginResponseWriter.Flush,
    bodyAllowedForStatus, writeContentType, Header.Set, hs, hb, hl, h200]

/-! ## C2: the direct response -/

/-- The direct answer of step 10 for a request that reaches the plugins, on
an untouched writer. -/
theorem handleRequest_direct (env : Env) (p : Proxy) (req : Request)
    (w : ginResponseWriter) (targetURL : URL) (reqBody : String)
    (h : reachesPlugins env p.config req targetURL reqBody)
    (hok : (runBeforeRequest p.plugins (stripPathPrefix p.config req)).2.2 = none)
    (hmark : (runBeforeRequest p.plugins (stripPathPrefix p.config req)).1.Header.Get
      "X-Mock-Direct-Response" ≠ "")
    (hw : w.untouched) :
    (handleRequest env p req w).upstream = [] ∧
    (handleRequest env p req w).outbound = none ∧
    (handleRequest env p req w).Writer.Status = 200 ∧
    (handleRequest env p req w).relayed.StatusCode = 200 ∧
    (handleRequest env p req w).relayed.Body =
      (runBeforeRequest p.plugins (stripPathPrefix p.config req)).1.Header.Get
        "X-Mock-Direct-Response" := by
  rw [handleRequest_reaches w h]
  obtain ⟨_, h2, h3, h4⟩ := pluginsAndForward_direct env p targetURL (isStreamRequest env reqBody)
    (newStreamResponseWriter w) (stripPathPrefix p.config req)
    (entryLogs (stripPathPrefix p.config req) reqBody) hok hmark
  obtain ⟨d1, d2, d3⟩ := direct_response_relayed w
    ((runBeforeRequest p.plugins (stripPathPrefix p.config req)).1.Header.Get
      "X-Mock-Direct-Response") hw
  refine ⟨h3, h2, ?_, ?_, ?_⟩
  · rw [h4]; exact d1
  · simp only [Outcome.relayed, h4, ResponseWriter.base]
    cases hs : (ginResponseWriter.WriteHeaderNow (ginString (ginHeader (newStreamResponseWriter w)
      "Content-Type" "application/json") 200 ((runBeforeRequest p.plugins
      (stripPathPrefix p.config req)).1.Header.Get
      "X-Mock-Direct-Response")).ResponseWriter).sent with
    | none => rw [hs] at d2; simp at d2
    | some v => rw [hs] at d2; simpa using d2
  · simp only [Outcome.relayed, h4, ResponseWriter.base]
    exact d3

/-- C2 (as amended): for a request that reaches the plugins and for which
no before-hook returns an error: if the request carries a non-empty
X-Mock-Direct-Response value once all before-hooks have run, then nothing is
handed to the transport, the Director is not run, the response status is 200
and the response body is exactly that value; and this is the case, with the
value the interceptor attached, whenever an interceptor leaves a non-empty
value in that header during its before-hook and every interceptor registered
after it leaves the header as it finds it. -/
theorem C2_direct_response_after_hooks (env : Env) (p : Proxy) (req : Request)
    (w : ginResponseWriter) (targetURL : URL) (reqBody : String)
    (h : reachesPlugins env p.config req targetURL reqBody)
    (hok : (runBeforeRequest p.plugins (stripPathPrefix p.config req)).2.2 = none)
    (hw : w.untouched) :
    ((runBeforeRequest p.plugins (stripPathPrefix p.config req)).1.Header.Get
        "X-Mock-Direct-Response" ≠ "" →
      (handleRequest env p req w).upstream = [] ∧
      (handleRequest env p req w).outbound = none ∧
      (handleRequest env p req w).Writer.Status = 200 ∧
      (handleRequest env p req w).relayed.StatusCode = 200 ∧
      (handleRequest env p req w).relayed.Body =
        (runBeforeRequest p.plugins (stripPathPrefix p.config req)).1.Header.Get
          "X-Mock-Direct-Response") ∧
    (∀ (pre post : List Plugin) (q : Plugin),
      p.plugins = pre ++ q :: post →
      (q.BeforeRequest (runBeforeRequest pre (stripPathPrefix p.config req)).1).1.Header.Get
        "X-Mock-Direct-Response" ≠ "" →
      (∀ q2 ∈ post, ∀ r : Request,
        (q2.BeforeRequest r).1.Header.Get "X-Mock-Direct-Response" =
          r.Header.Get "X-Mock-Direct-Response") →
      (handleRequest env p req w).hooks = pre ++ q :: post ∧
      (handleRequest env p req w).upstream = [] ∧
      (handleRequest env p req w).outbound = none ∧
      (handleRequest env p req w).Writer.Status = 200 ∧
      (handleRequest env p req w).relayed.StatusCode = 200 ∧
      (handleRequest env p req w).relayed.Body =
        (q.BeforeRequest (runBeforeRequest pre (stripPathPrefix p.config req)).1).1.Header.Get
          "X-Mock-Direct-Response") := by
  refine ⟨fun hmark => handleRequest_direct env p req w targetURL reqBody h hok hmark hw, ?_⟩
  intro pre post q hsplit hattach hkeep
  have hok2 := hok
  rw [hsplit] at hok2
  have hsame := runBeforeRequest_attached "X-Mock-Direct-Response" pre post q
    (stripPathPrefix p.config req) hok2 hkeep
  rw [← hsplit] at hsame
  have hmark : (runBeforeRequest p.plugins (stripPathPrefix p.config req)).1.Header.Get
      "X-Mock-Direct-Response" ≠ "" := by
    rw [hsame]; exact hattach
  have hd := handleRequest_direct env p req w targetURL reqBody h hok hmark hw
  rw [hsame] at hd
  refine ⟨?_, hd⟩
  rw [handleRequest_reaches w h, pluginsAndForward_hooks,
    runBeforeRequest_hooks_of_ok _ _ hok, hsplit]

/-- C2 at a registry of three interceptors: the second attaches the payload
`hi`, the first and the third only add to the header X-Hook-Trace; all three
hooks run, nothing is handed to the transport and the caller receives `hi`
with status 200. -/
theorem C2_direct_response_after_hooks_witness :
    reachesPlugins (refEnv 0 (upstreamOK [] "from upstream"))
      (proxyWith [tracePlugin "a", attachMarker "hi", tracePlugin "b"]).config
      (postRequest "/v1/chat/completions" [] "") plainTarget "" ∧
    ginResponseWriter.fresh.untouched ∧
    (postRequest "/v1/chat/completions" [] "").Header.Get "X-Mock-Direct-Response" = "" ∧
    ((handleRequest (refEnv 0 (upstreamOK [] "from upstream"))
        (proxyWith [tracePlugin "a", attachMarker "hi", tracePlugin "b"])
        (postRequest "/v1/chat/completions" [] "") ginResponseWriter.fresh).hooks
        = [tracePlugin "a"] ++ attachMarker "hi" :: [tracePlugin "b"] ∧
      (handleRequest (refEnv 0 (upstreamOK [] "from upstream"))
        (proxyWith [tracePlugin "a", attachMarker "hi", tracePlugin "b"])
        (postRequest "/v1/chat/completions" [] "") ginResponseWriter.fresh).upstream = [] ∧
      (handleRequest (refEnv 0 (upstreamOK [] "from upstream"))
        (proxyWith [tracePlugin "a", attachMarker "hi", tracePlugin "b"])
        (postRequest "/v1/chat/completions" [] "") ginResponseWriter.fresh).outbound = none ∧
      (handleRequest (refEnv 0 (upstreamOK [] "from upstream"))
        (proxyWith [tracePlugin "a", attachMarker "hi", tracePlugin "b"])
        (postRequest "/v1/chat/completions" [] "") ginResponseWriter.fresh).Writer.Status = 200 ∧
      (handleRequest (refEnv 0 (upstreamOK [] "from upstream"))
        (proxyWith [tracePlugin "a", attachMarker "hi", tracePlugin "b"])
        (postRequest "/v1/chat/completions" [] "") ginResponseWriter.fresh).relayed.StatusCode
        = 200 ∧
      (handleRequest (refEnv 0 (upstreamOK [] "from upstream"))
        (proxyWith [tracePlugin "a", attachMarker "hi", tracePlugin "b"])
        (postRequest "/v1/chat/completions" [] "") ginResponseWriter.fresh).relayed.Body
        = ((attachMarker "hi").BeforeRequest (runBeforeRequest [tracePlugin "a"]
            (stripPathPrefix (proxyWith [tracePlugin "a", attachMarker "hi",
              tracePlugin "b"]).config (postRequest "/v1/chat/completions" [] ""))).1).1.Header.Get
            "X-Mock-Direct-Response") ∧
    ((attachMarker "hi").BeforeRequest (runBeforeRequest [tracePlugin "a"]
      (stripPathPrefix (proxyWith [tracePlugin "a", attachMarker "hi", tracePlugin "b"]).config
        (postRequest "/v1/chat/completions" [] ""))).1).1.Header.Get "X-Mock-Direct-Response"
      = "hi" :=
  ⟨by decide, by decide, by decide,
   (C2_direct_response_after_hooks (refEnv 0 (upstreamOK [] "from upstream"))
      (proxyWith [tracePlugin "a", attachMarker "hi", tracePlugin "b"])
      (postRequest "/v1/chat/completions" [] "") ginResponseWriter.fresh plainTarget ""
      (by decide) (by decide) (by decide)).2 [tracePlugin "a"] [tracePlugin "b"]
      (attachMarker "hi") rfl (by decide)
      (fun q2 hq2 r => by
        rw [List.mem_singleton.mp hq2]
        simp [tracePlugin, Header.Get, Header.Add]),
   by decide⟩

/-- C2 as stated fails: the first interceptor attaches the marker `A` during
its before-hook and no before-hook returns an error, but the second
interceptor removes the header again, so the request is handed to the
transport and the caller receives the body of the upstream. -/
theorem C2_counterexample :
    ((attachMarker "A").BeforeRequest (postRequest "/v1/chat/completions" [] "")).1.Header.Get
      "X-Mock-Direct-Response" = "A" ∧
    (runBeforeRequest (proxyWith [attachMarker "A", dropMarker]).plugins
      (postRequest "/v1/chat/completions" [] "")).2.2 = none ∧
    (handleRequest (refEnv 0 (upstreamOK [] "from upstream"))
      (proxyWith [attachMarker "A", dropMarker])
      (postRequest "/v1/chat/completions" [] "") ginResponseWriter.fresh).upstream.length = 1 ∧
    (handleRequest (refEnv 0 (upstreamOK [] "from upstream"))
      (proxyWith [attachMarker "A", dropMarker])
      (postRequest "/v1/chat/completions" [] "") ginResponseWriter.fresh).relayed.Body
      = "from upstream" := by
  refine ⟨by decide, by decide, by decide, by decide⟩

/-! ## The forward -/

theorem foldl_Del_apply (keys : List String) (h : Header) (k : String) :
    (keys.foldl Header.Del h) k = if k ∈ keys then [] else h k := by
  induction keys generalizing h with
  | nil => simp
  | cons key rest ih =>
    rw [List.foldl_cons, ih]
    by_cases hk : k ∈ rest
    · simp [hk]
    · by_cases hkey : k = key
      · simp [hkey, Header.Del]
      · simp [hk, hkey, Header.Del]

theorem RoundTrip_result (env : Env) (req : Request) :
    (LoggingTransport.RoundTrip env req).1 = env.transport (transportRequest req) := by
  unfold LoggingTransport.RoundTrip
  simp only
  split
  · rename_i heq; rw [heq]
  · rename_i heq; split <;> rw [heq]

theorem ServeHTTP_response (env : Env) (p : Proxy) (targetURL : URL) (isStream : Bool)
    (rw : streamResponseWriter) (c : Request) (hooks : List Plugin) (logs : List LogEntry)
    (res : Response) (h : upstreamCall env p targetURL c = .ok res) :
    (ServeHTTP env p targetURL isStream rw c hooks logs).Writer =
      .stream (relayResponse env isStream rw res).1 ∧
    (ServeHTTP env p targetURL isStream rw c hooks logs).outbound =
      some (Director env p targetURL c c) ∧
    (ServeHTTP env p targetURL isStream rw c hooks logs).upstream =
      [env.libOutbound (Director env p targetURL c c)] := by
  have hrt := RoundTrip_result env (env.libOutbound (Director env p targetURL c c))
  unfold upstreamCall at h
  rw [h] at hrt
  unfold ServeHTTP
  simp [hrt]

theorem ServeHTTP_failure (env : Env) (p : Proxy) (targetURL : URL) (isStream : Bool)
    (rw : streamResponseWriter) (c : Request) (hooks : List Plugin) (logs : List LogEntry)
    (err : GoError) (h : upstreamCall env p targetURL c = .error err) :
    (ServeHTTP env p targetURL isStream rw c hooks logs).Writer =
      .stream (ErrorHandler rw err).1 ∧
    (ServeHTTP env p targetURL isStream rw c hooks logs).outbound =
      some (Director env p targetURL c c) ∧
    (ServeHTTP env p targetURL isStream rw c hooks logs).upstream =
      [env.libOutbound (Director env p targetURL c c)] := by
  have hrt := RoundTrip_result env (env.libOutbound (Director env p targetURL c c))
  unfold upstreamCall at h
  rw [h] at hrt
  unfold ServeHTTP
  simp [hrt]

theorem gin_Write_sent (g : ginResponseWriter) (data : String) (hs : g.sent = none) :
    (g.Write data).1.sent = some (g.status, g.header) ∧ (g.Write data).1.header = g.header := by
  unfold ginResponseWriter.Write
  simp only [ginResponseWriter.WriteHeaderNow, ginResponseWriter.Written, hs, Option.isSome_none,
    Bool.false_eq_true, if_false]
  cases g.writesLeft with
  | none => simp
  | some k => cases k <;> simp

theorem stream_Write_sent (sw : streamResponseWriter) (data : String)
    (hs : sw.ResponseWriter.sent = none) :
    (sw.Write data).1.ResponseWriter.sent =
      some (sw.ResponseWriter.status, sw.ResponseWriter.header) ∧
    (sw.Write data).1.ResponseWriter.header = sw.ResponseWriter.header := by
  obtain ⟨h1, h2⟩ := gin_Write_sent sw.ResponseWriter data hs
  unfold streamResponseWriter.Write
  simp only
  split
  · simp [ginResponseWriter.Flush, ginResponseWriter.WriteHeaderNow, ginResponseWriter.Written,
      h1, h2]
  · exact ⟨h1, h2⟩

theorem committedHeader_of_sent_none (g : ginResponseWriter) (hs : g.sent = none) :
    committedHeader g = g.header := by
  simp [committedHeader, ginResponseWriter.WriteHeaderNow, ginResponseWriter.Written, hs]

theorem committedHeader_of_sent (g : ginResponseWriter) (v : Nat × Header)
    (hs : g.sent = some v) : committedHeader g = v.2 := by
  simp [committedHeader, ginResponseWriter.WriteHeaderNow, ginResponseWriter.Written, hs]

/-- The headers the caller receives after the relay of an upstream response,
when nothing was committed before: those of the writer, followed by those
`ModifyResponse` left on the response. -/
theorem relayResponse_header (env : Env) (isStream : Bool) (w : ginResponseWriter)
    (res : Response) (hw : w.Written = false) :
    committedHeader (relayResponse env isStream (newStreamResponseWriter w) res).1.ResponseWriter =
      copyHeader w.header (ModifyResponse isStream (env.libInbound res)).Header := by
  have hs : w.sent = none := by simpa [ginResponseWriter.Written] using hw
  have hs2 : ∀ code : Nat, (streamResponseWriter.WriteHeader
      (streamResponseWriter.mapHeader (newStreamResponseWriter w)
        (fun h => copyHeader h (ModifyResponse isStream (env.libInbound res)).Header))
      code).ResponseWriter.sent = none := by
    intro code
    simp only [streamResponseWriter.WriteHeader, streamResponseWriter.mapHeader,
      newStreamResponseWriter, ginResponseWriter.WriteHeader, ginResponseWriter.Written, hs]
    split <;> simp
  have hh : ∀ code : Nat, (streamResponseWriter.WriteHeader
      (streamResponseWriter.mapHeader (newStreamResponseWriter w)
        (fun h => copyHeader h (ModifyResponse isStream (env.libInbound res)).Header))
      code).ResponseWriter.header =
        copyHeader w.header (ModifyResponse isStream (env.libInbound res)).Header := by
    intro code
    simp only [streamResponseWriter.WriteHeader, streamResponseWriter.mapHeader,
      newStreamResponseWriter, ginResponseWriter.WriteHeader, ginResponseWriter.Written, hs]
    split <;> simp
  unfold relayResponse
  simp only
  split
  · rw [committedHeader_of_sent_none _ (hs2 _), hh]
  · simp only
    obtain ⟨h1, _⟩ := stream_Write_sent _ (ModifyResponse isStream (env.libInbound res)).Body
      (hs2 (ModifyResponse isStream (env.libInbound res)).StatusCode)
    rw [committedHeader_of_sent _ _ h1, hh]

theorem ServeHTTP_outbound (env : Env) (p : Proxy) (targetURL : URL) (isStream : Bool)
    (rw : streamResponseWriter) (c : Request) (hooks : List Plugin) (logs : List LogEntry) :
    (ServeHTTP env p targetURL isStream rw c hooks logs).outbound =
      some (Director env p targetURL c c) := by
  unfold ServeHTTP
  simp only
  split <;> rfl

theorem pluginsAndForward_outbound (env : Env) (p : Proxy) (targetURL : URL) (isStream : Bool)
    (w : streamResponseWriter) (req : Request) (logs : List LogEntry) (r : Request)
    (h : (pluginsAndForward env p targetURL isStream w req logs).outbound = some r) :
    r = Director env p targetURL (runBeforeRequest p.plugins req).1
      (runBeforeRequest p.plugins req).1 := by
  unfold pluginsAndForward at h
  simp only at h
  split at h
  · simp at h
  · split at h
    · simp at h
    · rw [ServeHTTP_outbound] at h
      exact (Option.some.inj h).symm

theorem handleRequest_forwarded {env : Env} {p : Proxy} {req : Request} {targetURL : URL}
    {reqBody : String} (w : ginResponseWriter)
    (h : reachesPlugins env p.config req targetURL reqBody)
    (hok : (runBeforeRequest p.plugins (stripPathPrefix p.config req)).2.2 = none)
    (hmark : (runBeforeRequest p.plugins (stripPathPrefix p.config req)).1.Header.Get
      "X-Mock-Direct-Response" = "") :
    handleRequest env p req w =
      ServeHTTP env p targetURL (isStreamRequest env reqBody) (newStreamResponseWriter w)
        (runBeforeRequest p.plugins (stripPathPrefix p.config req)).1
        (runBeforeRequest p.plugins (stripPathPrefix p.config req)).2.1
        (entryLogs (stripPathPrefix p.config req) reqBody) := by
  rw [handleRequest_reaches w h, pluginsAndForward_forward _ _ _ _ _ _ _ hok hmark]

theorem isStreamRequest_iff (env : Env) (reqBody : String) :
    isStreamRequest env reqBody = true ↔
      ∃ m, env.jsonDecode reqBody = .ok m ∧ (JsonMap.index m "stream").asBool = some true := by
  unfold isStreamRequest
  cases env.jsonDecode reqBody with
  | error e => simp
  | ok m => simp

/-! ## C3: the Content-Type of a relayed response -/

/-- C3 (as amended): for a forwarded request and an upstream response, the
request counts as a stream request exactly when its body decodes to a JSON
object whose member `stream` is the boolean true.  For a stream request the
Content-Type the caller receives is `text/event-stream`; for any other request
the gateway leaves Content-Type alone and the caller receives the values the
upstream response carries (after whatever the writer held before). -/
theorem C3_content_type_of_relayed_response (env : Env) (p : Proxy) (req : Request)
    (w : ginResponseWriter) (targetURL : URL) (reqBody : String) (res : Response)
    (h : reachesPlugins env p.config req targetURL reqBody)
    (hok : (runBeforeRequest p.plugins (stripPathPrefix p.config req)).2.2 = none)
    (hmark : (runBeforeRequest p.plugins (stripPathPrefix p.config req)).1.Header.Get
      "X-Mock-Direct-Response" = "")
    (hup : upstreamCall env p targetURL
      (runBeforeRequest p.plugins (stripPathPrefix p.config req)).1 = .ok res)
    (hw : w.Written = false) :
    (isStreamRequest env reqBody = true ↔
      ∃ m, env.jsonDecode reqBody = .ok m ∧ (JsonMap.index m "stream").asBool = some true) ∧
    (isStreamRequest env reqBody = true →
      (handleRequest env p req w).relayed.Header "Content-Type" =
        w.header "Content-Type" ++ ["text/event-stream"]) ∧
    (isStreamRequest env reqBody = false →
      (handleRequest env p req w).relayed.Header "Content-Type" =
        w.header "Content-Type" ++ (env.libInbound res).Header "Content-Type") := by
  have hrel : (handleRequest env p req w).relayed.Header =
      copyHeader w.header
        (ModifyResponse (isStreamRequest env reqBody) (env.libInbound res)).Header := by
    rw [handleRequest_forwarded w h hok hmark]
    obtain ⟨hwr, _, _⟩ := ServeHTTP_response env p targetURL (isStreamRequest env reqBody)
      (newStreamResponseWriter w) _ (runBeforeRequest p.plugins (stripPathPrefix p.config req)).2.1
      (entryLogs (stripPathPrefix p.config req) reqBody) res hup
    simp only [Outcome.relayed, hwr, ResponseWriter.base]
    exact relayResponse_header env _ w res hw
  refine ⟨isStreamRequest_iff env reqBody, ?_, ?_⟩
  · intro hs
    rw [hrel, hs]
    simp only [copyHeader, ModifyResponse, if_true, foldl_Del_apply]
    simp [strippedCORSHeaders, sseHeaders, Header.Set]
  · intro hs
    rw [hrel, hs]
    simp only [copyHeader, ModifyResponse, foldl_Del_apply]
    simp [strippedCORSHeaders]

/-- C3 at a chat request with `"stream": true` whose upstream answers with
Content-Type `application/json`: the caller receives `text/event-stream`. -/
theorem C3_content_type_of_relayed_response_witness :
    reachesPlugins (refEnv 0 (upstreamOK [("Content-Type", "application/json")] "ok"))
      (proxyWith []).config (postRequest "/v1/chat/completions" [] streamBody) plainTarget
      streamBody ∧
    isStreamRequest (refEnv 0 (upstreamOK [("Content-Type", "application/json")] "ok"))
      streamBody = true ∧
    (handleRequest (refEnv 0 (upstreamOK [("Content-Type", "application/json")] "ok"))
      (proxyWith []) (postRequest "/v1/chat/completions" [] streamBody)
      ginResponseWriter.fresh).relayed.Header "Content-Type" = ["text/event-stream"] :=
  ⟨by decide, by decide,
   (C3_content_type_of_relayed_response
      (refEnv 0 (upstreamOK [("Content-Type", "application/json")] "ok")) (proxyWith [])
      (postRequest "/v1/chat/completions" [] streamBody) ginResponseWriter.fresh plainTarget
      streamBody
      { Status := "200 OK", StatusCode := 200,
        Header := headerOf [("Content-Type", "application/json")], Body := "ok",
        Request := transportRequest (Ref.libOutbound
          (Director (refEnv 0 (upstreamOK [("Content-Type", "application/json")] "ok"))
            (proxyWith []) plainTarget (postRequest "/v1/chat/completions" [] streamBody)
            (postRequest "/v1/chat/completions" [] streamBody))) }
      (by decide) (by decide) (by decide) rfl (by decide)).2.1 (by decide)⟩

/-- C3 as stated fails in its second half: the request body does not declare
the streaming flag, the upstream answers with Content-Type
`text/event-stream`, and the caller receives that Content-Type. -/
theorem C3_counterexample :
    isStreamRequest (refEnv 0 (upstreamOK [("Content-Type", "text/event-stream")] "data: x\n\n"))
      plainBody = false ∧
    (handleRequest (refEnv 0 (upstreamOK [("Content-Type", "text/event-stream")] "data: x\n\n"))
      (proxyWith []) (postRequest "/v1/chat/completions" [] plainBody)
      ginResponseWriter.fresh).upstream.length = 1 ∧
    (handleRequest (refEnv 0 (upstreamOK [("Content-Type", "text/event-stream")] "data: x\n\n"))
      (proxyWith []) (postRequest "/v1/chat/completions" [] plainBody)
      ginResponseWriter.fresh).relayed.Header "Content-Type" = ["text/event-stream"] := by
  refine ⟨by decide, by decide, by decide⟩

/-! ## C4 and C5: the Director -/

theorem directorCopy_fold_other (inbound h : Header) (names : List String) (k : String)
    (hk : k ∉ names) : (names.foldl (directorCopy inbound) h) k = h k := by
  induction names generalizing h with
  | nil => rfl
  | cons name rest ih =>
    rw [List.foldl_cons, ih _ (fun hmem => hk (List.mem_cons_of_mem _ hmem))]
    have hne : k ≠ name := fun heq => hk (heq ▸ List.mem_cons_self _ _)
    unfold directorCopy
    split
    · simp [Header.Set, hne]
    · rfl

theorem Director_authorization (env : Env) (p : Proxy) (targetURL : URL) (c req : Request) :
    (Director env p targetURL c req).Header "Authorization" =
      directorAuth p.config (c.Header.Get "Authorization")
        ((req.Header.Del "Origin").Del "Referer") "Authorization" := by
  have hx : ∀ h : Header, directorForwardedFor env c.RemoteAddr h "Authorization" =
      h "Authorization" := by
    intro h
    unfold directorForwardedFor
    cases env.splitHostPort c.RemoteAddr with
    | none => rfl
    | some clientIP => simp only []; split <;> simp [Header.Set]
  simp only [Director]
  rw [hx, directorCopy_fold_other _ _ _ _ (by decide)]

/-- C4 (as amended): the Director sets the outbound Authorization header to
the client-supplied value when that is non-empty and not exactly `Bearer`;
otherwise to the configured default `Headers["Authorization"]` when that is
non-empty; otherwise it leaves the header as it is, so the outbound request
carries the Authorization values of the inbound request (none, an empty value,
or the bare `Bearer`). -/
theorem C4_authorization_precedence (env : Env) (p : Proxy) (targetURL : URL) (c req : Request) :
    (c.Header.Get "Authorization" ≠ "" ∧ c.Header.Get "Authorization" ≠ "Bearer" →
      (Director env p targetURL c req).Header "Authorization" =
        [c.Header.Get "Authorization"]) ∧
    ((c.Header.Get "Authorization" = "" ∨ c.Header.Get "Authorization" = "Bearer") ∧
        p.config.header "Authorization" ≠ "" →
      (Director env p targetURL c req).Header "Authorization" =
        [p.config.header "Authorization"]) ∧
    ((c.Header.Get "Authorization" = "" ∨ c.Header.Get "Authorization" = "Bearer") ∧
        p.config.header "Authorization" = "" →
      (Director env p targetURL c req).Header "Authorization" = req.Header "Authorization") := by
  rw [Director_authorization]
  refine ⟨?_, ?_, ?_⟩
  · intro h
    simp [directorAuth, h.1, h.2, Header.Set]
  · rintro ⟨h1, h2⟩
    have hn : ¬ (c.Header.Get "Authorization" ≠ "" ∧ c.Header.Get "Authorization" ≠ "Bearer") := by
      rintro ⟨a, b⟩
      rcases h1 with h1 | h1
      · exact a h1
      · exact b h1
    simp [directorAuth, hn, h2, Header.Set]
  · rintro ⟨h1, h2⟩
    have hn : ¬ (c.Header.Get "Authorization" ≠ "" ∧ c.Header.Get "Authorization" ≠ "Bearer") := by
      rintro ⟨a, b⟩
      rcases h1 with h1 | h1
      · exact a h1
      · exact b h1
    simp [directorAuth, hn, h2, Header.Del]

/-- C4 as stated fails in its last case: the client sends the bare
placeholder `Bearer`, no default credential is configured, and the request
that the Director leaves and the one handed to the transport both still carry
`Authorization: Bearer`. -/
theorem C4_counterexample :
    (postRequest "/v1/chat/completions" [("Authorization", "Bearer")] plainBody).Header.Get
      "Authorization" = "Bearer" ∧
    plainConfig.header "Authorization" = "" ∧
    (handleRequest (refEnv 0 (upstreamOK [] "ok")) (proxyWith [])
      (postRequest "/v1/chat/completions" [("Authorization", "Bearer")] plainBody)
      ginResponseWriter.fresh).outbound.map (fun r => r.Header "Authorization")
      = some ["Bearer"] ∧
    (handleRequest (refEnv 0 (upstreamOK [] "ok")) (proxyWith [])
      (postRequest "/v1/chat/completions" [("Authorization", "Bearer")] plainBody)
      ginResponseWriter.fresh).upstream.map (fun r => r.Header "Authorization")
      = [["Bearer"]] := by
  refine ⟨by decide, by decide, by decide, by decide⟩

theorem hasPrefix_v1 (r : String) : HasPrefix ("/v1/" ++ r) "/v1/" = true := by
  simp [HasPrefix, String.data_append]

theorem trimPrefix_v1 (r : String) : TrimPrefix ("/v1/" ++ r) "/v1" = "/" ++ r := by
  have h : HasPrefix ("/v1/" ++ r) "/v1" = true := by
    simp [HasPrefix, String.data_append]
  unfold TrimPrefix
  rw [if_pos h]
  apply String.ext
  simp [String.data_append]

theorem splitSlash_ne_nil (s : List Char) : splitSlash s ≠ [] := by
  cases s with
  | nil => simp [splitSlash]
  | cons c cs =>
    unfold splitSlash
    split
    · simp
    · split <;> simp

theorem splitSlash_plain (seg : List Char) (h : '/' ∉ seg) : splitSlash seg = [seg] := by
  induction seg with
  | nil => rfl
  | cons c cs ih =>
    have hc : c ≠ '/' := fun e => h (by simp [e])
    have hcs : '/' ∉ cs := fun e => h (by simp [e])
    unfold splitSlash
    rw [ih hcs]
    simp [hc]

theorem splitSlash_cons_slash (rest : List Char) :
    splitSlash ('/' :: rest) = [] :: splitSlash rest := by
  rw [splitSlash]
  cases h : splitSlash rest with
  | nil => exact absurd h (splitSlash_ne_nil rest)
  | cons seg more => simp

theorem splitSlash_append (seg rest : List Char) (h : '/' ∉ seg) :
    splitSlash (seg ++ '/' :: rest) = seg :: splitSlash rest := by
  induction seg with
  | nil => exact splitSlash_cons_slash rest
  | cons c cs ih =>
    have hc : c ≠ '/' := fun e => h (by simp [e])
    have hcs : '/' ∉ cs := fun e => h (by simp [e])
    rw [List.cons_append, splitSlash, ih hcs]
    simp [hc]

theorem intercalate_cons_cons (sep x y : List Char) (ys : List (List Char)) :
    List.intercalate sep (x :: y :: ys) = x ++ sep ++ List.intercalate sep (y :: ys) := by
  simp [List.intercalate, List.intersperse]

theorem intercalate_single (sep x : List Char) : List.intercalate sep [x] = x := by
  simp [List.intercalate, List.intersperse]

theorem splitSlash_intercalate (segs : List (List Char)) (hne : segs ≠ [])
    (h : ∀ s ∈ segs, '/' ∉ s) : splitSlash (List.intercalate ['/'] segs) = segs := by
  induction segs with
  | nil => exact absurd rfl hne
  | cons x rest ih =>
    cases rest with
    | nil => rw [intercalate_single]; exact splitSlash_plain x (h x (by simp))
    | cons y ys =>
      rw [intercalate_cons_cons, List.append_assoc, List.singleton_append,
        splitSlash_append _ _ (h x (by simp)), ih (by simp) (fun s hs => h s (by simp [hs]))]

theorem intercalate_append (sep : List Char) (xs ys : List (List Char)) (hx : xs ≠ [])
    (hy : ys ≠ []) :
    List.intercalate sep (xs ++ ys) =
      List.intercalate sep xs ++ sep ++ List.intercalate sep ys := by
  induction xs with
  | nil => exact absurd rfl hx
  | cons x rest ih =>
    cases rest with
    | nil =>
      cases ys with
      | nil => exact absurd rfl hy
      | cons y more => rw [intercalate_single, List.singleton_append, intercalate_cons_cons]
    | cons z zs =>
      rw [List.cons_append, List.cons_append, intercalate_cons_cons, ← List.cons_append,
        ih (by simp), intercalate_cons_cons]
      simp [List.append_assoc]

theorem foldl_cleanStep_plain (rooted : Bool) (segs : List (List Char))
    (h : ∀ s ∈ segs, s ≠ ['.'] ∧ s ≠ ['.', '.']) (stack : List (List Char)) :
    segs.foldl (cleanStep rooted) stack = (segs.filter (fun s => s ≠ [])).reverse ++ stack := by
  induction segs generalizing stack with
  | nil => rfl
  | cons s rest ih =>
    obtain ⟨h1, h2⟩ := h s (by simp)
    rw [List.foldl_cons, ih (fun t ht => h t (by simp [ht]))]
    by_cases hs : s = []
    · simp [cleanStep, hs]
    · simp [cleanStep, hs, h1, h2, List.filter_cons]

theorem utf8ByteSize_cons_pos (c : Char) (cs : List Char) :
    0 < (String.mk (c :: cs)).utf8ByteSize := by
  have := Char.utf8Size_pos c
  simp only [String.utf8ByteSize, String.utf8ByteSize.go]
  omega

/-- On a base path and a remainder made of plain elements `path.Join` is the
concatenation with one slash in between. -/
theorem Join_clean_segments (bs rs : List (List Char)) (hbs : bs ≠ []) (hrs : rs ≠ [])
    (hseg : ∀ s ∈ bs ++ rs, s ≠ [] ∧ '/' ∉ s ∧ s ≠ ['.'] ∧ s ≠ ['.', '.']) :
    Join [⟨'/' :: List.intercalate ['/'] bs⟩, ⟨'/' :: List.intercalate ['/'] rs⟩] =
      ⟨'/' :: List.intercalate ['/'] (bs ++ rs)⟩ := by
  have hsum : ¬ (([⟨'/' :: List.intercalate ['/'] bs⟩, ⟨'/' :: List.intercalate ['/'] rs⟩] :
      List String).map String.utf8ByteSize).sum = 0 := by
    have := utf8ByteSize_cons_pos '/' (List.intercalate ['/'] bs)
    simp only [List.map_cons, List.sum_cons]
    omega
  have hB : (⟨'/' :: List.intercalate ['/'] bs⟩ : String) ≠ "" := by
    intro h
    have := congrArg String.data h
    simp at this
  have hfold : ([⟨'/' :: List.intercalate ['/'] bs⟩, ⟨'/' :: List.intercalate ['/'] rs⟩] :
      List String).foldl joinStep "" =
      ⟨List.intercalate ['/'] ([] :: (bs ++ [] :: rs))⟩ := by
    simp only [List.foldl_cons, List.foldl_nil, joinStep]
    simp only [ne_eq, not_true_eq_false, false_or, hB, not_false_eq_true, if_true, if_false,
      true_or]
    apply String.ext
    cases hb : bs ++ [] :: rs with
    | nil => simp at hb
    | cons y ys =>
      rw [intercalate_cons_cons, ← hb, intercalate_append _ _ _ hbs (by simp)]
      cases rs with
      | nil => exact absurd rfl hrs
      | cons r1 rr =>
        rw [intercalate_cons_cons]
        simp [String.data_append]
  unfold Join
  rw [if_neg hsum, hfold]
  have hne : (⟨List.intercalate ['/'] ([] :: (bs ++ [] :: rs))⟩ : String) ≠ "" := by
    intro h
    have := congrArg String.data h
    cases hb : bs ++ [] :: rs with
    | nil => simp at hb
    | cons y ys =>
      rw [hb, intercalate_cons_cons] at this
      simp at this
  have hroot : HasPrefix (⟨List.intercalate ['/'] ([] :: (bs ++ [] :: rs))⟩ : String) "/" = true := by
    cases hb : bs ++ [] :: rs with
    | nil => simp at hb
    | cons y ys =>
      rw [intercalate_cons_cons]
      simp [HasPrefix]
  have hsplit : splitSlash (List.intercalate ['/'] ([] :: (bs ++ [] :: rs))) =
      [] :: (bs ++ [] :: rs) := by
    apply splitSlash_intercalate _ (by simp)
    intro s hs
    simp only [List.mem_cons, List.mem_append] at hs
    rcases hs with rfl | hs | rfl | hs
    · simp
    · exact (hseg s (by simp [hs])).2.1
    · simp
    · exact (hseg s (by simp [hs])).2.1
  have hplain : ∀ s ∈ ([] :: (bs ++ [] :: rs) : List (List Char)), s ≠ ['.'] ∧ s ≠ ['.', '.'] := by
    intro s hs
    simp only [List.mem_cons, List.mem_append] at hs
    rcases hs with rfl | hs | rfl | hs
    · simp
    · exact (hseg s (by simp [hs])).2.2
    · simp
    · exact (hseg s (by simp [hs])).2.2
  have hfilter : ([] :: (bs ++ [] :: rs) : List (List Char)).filter (fun s => s ≠ []) = bs ++ rs := by
    have h1 : bs.filter (fun s => !decide (s = [])) = bs :=
      List.filter_eq_self.mpr (fun s hs => by simpa using (hseg s (by simp [hs])).1)
    have h2 : rs.filter (fun s => !decide (s = [])) = rs :=
      List.filter_eq_self.mpr (fun s hs => by simpa using (hseg s (by simp [hs])).1)
    simp [List.filter_cons, List.filter_append, h1, h2]
  unfold Clean
  rw [if_neg hne]
  simp only [hroot, if_true, hsplit]
  rw [foldl_cleanStep_plain true _ hplain, hfilter]
  simp
/-- C5: the Director gives the outbound request the scheme and host of the
upstream URL, and when the path it receives is `/v1/` followed by `r`, the
outbound path is `path.Join` of the upstream base path and `/` followed by
`r`.  When the base path is a slash followed by elements `bs` separated by
slashes and `r` is made of elements `rs` separated by slashes, all elements
non-empty, without a slash and other than `.` and `..`, that is the base path,
a slash and `r`: the elements of the base path followed by those of `r`. -/
theorem C5_destination_rewrite (env : Env) (p : Proxy) (targetURL : URL) (c req : Request)
    (r : String) (hpath : req.URL.Path = "/v1/" ++ r) :
    (Director env p targetURL c req).URL.Scheme = targetURL.Scheme ∧
    (Director env p targetURL c req).URL.Host = targetURL.Host ∧
    (Director env p targetURL c req).Host = targetURL.Host ∧
    (Director env p targetURL c req).URL.Path = Join [targetURL.Path, "/" ++ r] ∧
    (∀ bs rs : List (List Char), bs ≠ [] → rs ≠ [] →
      (∀ s ∈ bs ++ rs, s ≠ [] ∧ '/' ∉ s ∧ s ≠ ['.'] ∧ s ≠ ['.', '.']) →
      targetURL.Path = ⟨'/' :: List.intercalate ['/'] bs⟩ →
      r = ⟨List.intercalate ['/'] rs⟩ →
      (Director env p targetURL c req).URL.Path = targetURL.Path ++ "/" ++ r ∧
      (Director env p targetURL c req).URL.Path =
        ⟨'/' :: List.intercalate ['/'] (bs ++ rs)⟩) := by
  have hjoin : (Director env p targetURL c req).URL.Path = Join [targetURL.Path, "/" ++ r] := by
    simp only [Director, directorPath, hpath, hasPrefix_v1, trimPrefix_v1, if_true]
  refine ⟨rfl, rfl, rfl, hjoin, ?_⟩
  intro bs rs hbs hrs hseg hB hr
  have hR : "/" ++ r = (⟨'/' :: List.intercalate ['/'] rs⟩ : String) := by
    apply String.ext
    rw [hr]
    simp [String.data_append]
  have hcat : targetURL.Path ++ "/" ++ r =
      (⟨'/' :: List.intercalate ['/'] (bs ++ rs)⟩ : String) := by
    apply String.ext
    rw [hB, hr, intercalate_append _ _ _ hbs hrs]
    simp [String.data_append]
  rw [hjoin, hcat, hB, hR]
  exact ⟨Join_clean_segments bs rs hbs hrs hseg, Join_clean_segments bs rs hbs hrs hseg⟩

/-- The destination rewrite seen from `handleRequest`: whenever a request is
forwarded, the outbound request is the Director's rewrite of the request the
before-hooks left. -/
theorem handleRequest_outbound_destination (env : Env) (p : Proxy) (req : Request)
    (w : ginResponseWriter) (targetURL : URL) (reqBody : String) (out : Request) (r : String)
    (h : reachesPlugins env p.config req targetURL reqBody)
    (hout : (handleRequest env p req w).outbound = some out)
    (hpath : (runBeforeRequest p.plugins (stripPathPrefix p.config req)).1.URL.Path =
      "/v1/" ++ r) :
    out.URL.Scheme = targetURL.Scheme ∧ out.URL.Host = targetURL.Host ∧
    out.Host = targetURL.Host ∧ out.URL.Path = Join [targetURL.Path, "/" ++ r] := by
  rw [handleRequest_reaches w h] at hout
  rw [pluginsAndForward_outbound _ _ _ _ _ _ _ out hout]
  refine ⟨rfl, rfl, rfl, ?_⟩
  simp only [Director, directorPath, hpath, hasPrefix_v1, trimPrefix_v1, if_true]

/-- C5 at the example of the claim: base path `/api/v3` and inbound path
`/v1/chat/completions` give `/api/v3/chat/completions`. -/
theorem C5_destination_rewrite_witness :
    (postRequest "/v1/chat/completions" [] plainBody).URL.Path = "/v1/" ++ "chat/completions" ∧
    plainTarget.Path ++ "/" ++ "chat/completions" = "/api/v3/chat/completions" ∧
    Join [plainTarget.Path, "/" ++ "chat/completions"] = "/api/v3/chat/completions" ∧
    ((Director (refEnv 0 (upstreamOK [] "ok")) (proxyWith []) plainTarget
        (postRequest "/v1/chat/completions" [] plainBody)
        (postRequest "/v1/chat/completions" [] plainBody)).URL.Path =
        plainTarget.Path ++ "/" ++ "chat/completions" ∧
      (Director (refEnv 0 (upstreamOK [] "ok")) (proxyWith []) plainTarget
        (postRequest "/v1/chat/completions" [] plainBody)
        (postRequest "/v1/chat/completions" [] plainBody)).URL.Path =
        ⟨'/' :: List.intercalate ['/'] ([['a', 'p', 'i'], ['v', '3']] ++
          [['c', 'h', 'a', 't'], ['c', 'o', 'm', 'p', 'l', 'e', 't', 'i', 'o', 'n', 's']])⟩) :=
  ⟨by decide, by decide, by decide,
   (C5_destination_rewrite (refEnv 0 (upstreamOK [] "ok")) (proxyWith []) plainTarget
      (postRequest "/v1/chat/completions" [] plainBody)
      (postRequest "/v1/chat/completions" [] plainBody) "chat/completions" (by decide)).2.2.2.2
      [['a', 'p', 'i'], ['v', '3']]
      [['c', 'h', 'a', 't'], ['c', 'o', 'm', 'p', 'l', 'e', 't', 'i', 'o', 'n', 's']]
      (by decide) (by decide) (by decide) (by decide) (by decide)⟩

/-- C4 at a client that sends its own credential. -/
theorem C4_authorization_precedence_witness :
    (Director (refEnv 0 (upstreamOK [] "ok")) (proxyWith []) plainTarget
      (postRequest "/v1/chat/completions" [("Authorization", "Bearer sk-client")] plainBody)
      (postRequest "/v1/chat/completions" [("Authorization", "Bearer sk-client")] plainBody)).Header
      "Authorization" = ["Bearer sk-client"] :=
  (C4_authorization_precedence (refEnv 0 (upstreamOK [] "ok")) (proxyWith []) plainTarget
    (postRequest "/v1/chat/completions" [("Authorization", "Bearer sk-client")] plainBody)
    (postRequest "/v1/chat/completions" [("Authorization", "Bearer sk-client")] plainBody)).1
    (by decide)

/-! ## C6: the gateway of `StartCursorProxy` -/

theorem mockRules_body (env : Env) (rules : List MockRule) (chatReq : ChatRequest)
    (req : Request) : (mockRules env rules chatReq req).1.Body = req.Body := by
  induction rules with
  | nil => rfl
  | cons rule rest ih =>
    unfold mockRules
    split
    · split
      · rfl
      · simp only []
        split <;> rfl
    · exact ih

theorem MockPlugin_body (env : Env) (mp : MockPlugin) (req : Request) (b : String)
    (hb : req.Body = Body.buffer b) :
    (MockPlugin.BeforeRequest env mp req).1.Body = Body.buffer b := by
  unfold MockPlugin.BeforeRequest
  split
  · exact hb
  · simp only [hb, Body.ReadAll]
    split
    · rfl
    · rw [mockRules_body]

/-- C6 (the code, at every request): the gateway that `StartCursorProxy`
builds has registered the mock plugin only, so whatever the mappings are, the
request that leaves the Director carries the body the caller sent; the model
named in it is never replaced. -/
theorem C6_forwarded_body_is_inbound_body (env : Env) (conf : Config)
    (mappings : List (String × String)) (req : Request) (w : ginResponseWriter)
    (targetURL : URL) (reqBody : String)
    (h : reachesPlugins env conf req targetURL reqBody) :
    ∀ r, (handleRequest env (StartCursorProxy env conf mappings) req w).outbound = some r →
      r.Body = Body.buffer reqBody := by
  intro r hr
  have hcfg : (StartCursorProxy env conf mappings).config = conf := rfl
  have h1 : reachesPlugins env (StartCursorProxy env conf mappings).config req targetURL
      reqBody := by rw [hcfg]; exact h
  rw [handleRequest_reaches w h1] at hr
  have hd := pluginsAndForward_outbound _ _ _ _ _ _ _ r hr
  have hbody : (stripPathPrefix (StartCursorProxy env conf mappings).config req).Body =
      Body.buffer reqBody := by
    rw [hcfg]
    unfold stripPathPrefix
    split <;> simpa using h.2.2.2.2
  have hrun : (runBeforeRequest (StartCursorProxy env conf mappings).plugins
      (stripPathPrefix (StartCursorProxy env conf mappings).config req)).1.Body =
      Body.buffer reqBody := by
    have hp : (StartCursorProxy env conf mappings).plugins =
        [MockPlugin.toPlugin env (NewMockPlugin.AddRule cursorCondition
          (fun q => .ok (hiResponse ("mock-" ++ toString env.now) env.now q)))] := rfl
    rw [hp]
    have hm := MockPlugin_body env (NewMockPlugin.AddRule cursorCondition
      (fun q => .ok (hiResponse ("mock-" ++ toString env.now) env.now q))) _ reqBody hbody
    simp only [runBeforeRequest, MockPlugin.toPlugin]
    split
    · rename_i heq; rw [heq] at hm; exact hm
    · rename_i heq; rw [heq] at hm; exact hm
  rw [hd]
  simpa [Director] using hrun

/-- C6 at the failing input: the mappings of `main.go` map `gpt-4`, the body
names the model `gpt-4` and matches no mock rule, and the request that leaves
the Director and the one handed to the transport carry the body unchanged. -/
theorem C6_forwarded_body_is_inbound_body_witness :
    reachesPlugins (refEnv 0 (upstreamOK [] "ok")) plainConfig
      (postRequest "/v1/chat/completions" [] plainBody) plainTarget plainBody ∧
    mainMappings.lookup "gpt-4" = some "ep-20250208163847-fv7w8" ∧
    (Ref.jsonUnmarshal plainBody).toOption.map (fun m => (JsonMap.index m "model").asString)
      = some (some "gpt-4") ∧
    (handleRequest (refEnv 0 (upstreamOK [] "ok"))
        (StartCursorProxy (refEnv 0 (upstreamOK [] "ok")) plainConfig mainMappings)
        (postRequest "/v1/chat/completions" [] plainBody) ginResponseWriter.fresh).outbound
        = some (Director (refEnv 0 (upstreamOK [] "ok"))
            (StartCursorProxy (refEnv 0 (upstreamOK [] "ok")) plainConfig mainMappings)
            plainTarget (postRequest "/v1/chat/completions" [] plainBody)
            (postRequest "/v1/chat/completions" [] plainBody)) ∧
    (Director (refEnv 0 (upstreamOK [] "ok"))
        (StartCursorProxy (refEnv 0 (upstreamOK [] "ok")) plainConfig mainMappings)
        plainTarget (postRequest "/v1/chat/completions" [] plainBody)
        (postRequest "/v1/chat/completions" [] plainBody)).Body = Body.buffer plainBody ∧
    (handleRequest (refEnv 0 (upstreamOK [] "ok"))
        (StartCursorProxy (refEnv 0 (upstreamOK [] "ok")) plainConfig mainMappings)
        (postRequest "/v1/chat/completions" [] plainBody) ginResponseWriter.fresh).upstream.map
        (fun r => r.Body) = [Body.buffer plainBody] :=
  ⟨by decide, by decide, by decide, rfl,
   C6_forwarded_body_is_inbound_body (refEnv 0 (upstreamOK [] "ok")) plainConfig mainMappings
     (postRequest "/v1/chat/completions" [] plainBody) ginResponseWriter.fresh plainTarget
     plainBody (by decide) _ rfl,
   by decide⟩

/-! ## C7 and C8: the order of the before-hooks -/

theorem ginJSON_status (w : streamResponseWriter) (code : Nat) (text : String) :
    (ginJSON w code text).Status = code := by
  unfold ginJSON ginRender
  simp only [ginStatus]
  split
  · simp [streamResponseWriter.Write, streamResponseWriter.Status, writeContentType,
      streamResponseWriter.WriteHeader, streamResponseWriter.mapHeader]
    split <;> rfl
  · simp [streamResponseWriter.Status, writeContentType, streamResponseWriter.WriteHeader,
      streamResponseWriter.mapHeader]
    split <;> rfl

/-- C7 (as amended): for a request that reaches the plugins, the first
interceptor whose before-hook returns an error ends the loop: the hooks that
ran are those registered before it and its own, no hook registered after it is
invoked, nothing is forwarded and the status is 500.  A direct-response marker
does not end the loop: whenever no hook returns an error, the before-hooks of
all registered interceptors are invoked. -/
theorem C7_error_ends_the_loop (env : Env) (p : Proxy) (req : Request) (w : ginResponseWriter)
    (targetURL : URL) (reqBody : String)
    (h : reachesPlugins env p.config req targetURL reqBody) :
    (∀ (pre post : List Plugin) (q : Plugin) (err : GoError),
      p.plugins = pre ++ q :: post →
      (runBeforeRequest pre (stripPathPrefix p.config req)).2.2 = none →
      (q.BeforeRequest (runBeforeRequest pre (stripPathPrefix p.config req)).1).2 = some err →
      (handleRequest env p req w).hooks = pre ++ [q] ∧
      (handleRequest env p req w).outbound = none ∧
      (handleRequest env p req w).upstream = [] ∧
      (handleRequest env p req w).Writer.Status = 500) ∧
    ((runBeforeRequest p.plugins (stripPathPrefix p.config req)).2.2 = none →
      (handleRequest env p req w).hooks = p.plugins) := by
  rw [handleRequest_reaches w h]
  refine ⟨?_, ?_⟩
  · intro pre post q err hp hpre hq
    obtain ⟨hh, herr⟩ := runBeforeRequest_stops pre post q (stripPathPrefix p.config req) err hpre hq
    rw [← hp] at hh herr
    obtain ⟨a, b, c, d⟩ := pluginsAndForward_error env p targetURL (isStreamRequest env reqBody)
      (newStreamResponseWriter w) (stripPathPrefix p.config req)
      (entryLogs (stripPathPrefix p.config req) reqBody) err herr
    refine ⟨by rw [a, hh], b, c, ?_⟩
    rw [d]
    exact ginJSON_status _ _ _
  · intro hok
    rw [pluginsAndForward_hooks]
    exact runBeforeRequest_hooks_of_ok _ _ hok

/-- C7 at a registry whose second interceptor fails: the third hook does not
run. -/
theorem C7_error_ends_the_loop_witness :
    reachesPlugins (refEnv 0 (upstreamOK [] "ok"))
      (proxyWith [tracePlugin "a", failingPlugin "boom", tracePlugin "c"]).config
      (postRequest "/v1/chat/completions" [] plainBody) plainTarget plainBody ∧
    (handleRequest (refEnv 0 (upstreamOK [] "ok"))
      (proxyWith [tracePlugin "a", failingPlugin "boom", tracePlugin "c"])
      (postRequest "/v1/chat/completions" [] plainBody) ginResponseWriter.fresh).hooks
      = [tracePlugin "a"] ++ [failingPlugin "boom"] :=
  ⟨by decide,
   ((C7_error_ends_the_loop (refEnv 0 (upstreamOK [] "ok"))
      (proxyWith [tracePlugin "a", failingPlugin "boom", tracePlugin "c"])
      (postRequest "/v1/chat/completions" [] plainBody) ginResponseWriter.fresh plainTarget
      plainBody (by decide)).1 [tracePlugin "a"] [tracePlugin "c"] (failingPlugin "boom")
      (GoError.New "boom") rfl rfl rfl).1⟩

/-- C7 as stated fails for the marker: the first interceptor attaches a
direct-response marker during its before-hook, and the before-hook of the
interceptor registered after it is invoked all the same (it leaves its tag on
the request); the direct response is produced only after both hooks. -/
theorem C7_counterexample :
    ((attachMarker "A").BeforeRequest (postRequest "/v1/chat/completions" [] plainBody)).1.Header.Get
      "X-Mock-Direct-Response" = "A" ∧
    (handleRequest (refEnv 0 (upstreamOK [] "ok"))
      (proxyWith [attachMarker "A", tracePlugin "second"])
      (postRequest "/v1/chat/completions" [] plainBody) ginResponseWriter.fresh).hooks.length = 2 ∧
    (handleRequest (refEnv 0 (upstreamOK [] "ok"))
      (proxyWith [attachMarker "A", tracePlugin "second"])
      (postRequest "/v1/chat/completions" [] plainBody) ginResponseWriter.fresh).Request.Header
      "X-Hook-Trace" = ["second"] ∧
    (handleRequest (refEnv 0 (upstreamOK [] "ok"))
      (proxyWith [attachMarker "A", tracePlugin "second"])
      (postRequest "/v1/chat/completions" [] plainBody) ginResponseWriter.fresh).relayed.Body
      = "A" := by
  refine ⟨by decide, by decide, by decide, by decide⟩

/-- C8: when the interceptors `ps` are registered with `RegisterPlugin` in the
order of the list and none of their before-hooks returns an error, handling a
request that reaches the plugins invokes the before-hooks of exactly `ps`, each
once, in that order; registering them in the reverse order invokes them in the
reverse order. -/
theorem C8_hooks_run_in_registration_order (env : Env) (cfg : Config) (ps : List Plugin)
    (req : Request) (w : ginResponseWriter) (targetURL : URL) (reqBody : String)
    (h : reachesPlugins env cfg req targetURL reqBody)
    (hok : ∀ q ∈ ps, ∀ r, (q.BeforeRequest r).2 = none) :
    (handleRequest env (ps.foldl Proxy.RegisterPlugin (NewProxy cfg)) req w).hooks = ps ∧
    (handleRequest env (ps.reverse.foldl Proxy.RegisterPlugin (NewProxy cfg)) req w).hooks
      = ps.reverse := by
  have key : ∀ qs : List Plugin, (∀ q ∈ qs, ∀ r, (q.BeforeRequest r).2 = none) →
      (handleRequest env (qs.foldl Proxy.RegisterPlugin (NewProxy cfg)) req w).hooks = qs := by
    intro qs hqs
    obtain ⟨hpl, hcfg⟩ := registered_plugins cfg qs
    have h1 : reachesPlugins env (qs.foldl Proxy.RegisterPlugin (NewProxy cfg)).config req
        targetURL reqBody := by rw [hcfg]; exact h
    rw [handleRequest_reaches w h1, pluginsAndForward_hooks, hpl]
    exact runBeforeRequest_hooks_of_ok _ _ (runBeforeRequest_ok_of_never_errors _ _ hqs)
  exact ⟨key ps hok, key ps.reverse (fun q hq r => hok q (List.mem_reverse.mp hq) r)⟩

/-- C8 at two interceptors that leave their tags on the request: registered
as `a`, `b` the tags arrive in that order. -/
theorem C8_hooks_run_in_registration_order_witness :
    reachesPlugins (refEnv 0 (upstreamOK [] "ok")) plainConfig
      (postRequest "/v1/chat/completions" [] plainBody) plainTarget plainBody ∧
    (handleRequest (refEnv 0 (upstreamOK [] "ok"))
      ([tracePlugin "a", tracePlugin "b"].foldl Proxy.RegisterPlugin (NewProxy plainConfig))
      (postRequest "/v1/chat/completions" [] plainBody) ginResponseWriter.fresh).hooks
      = [tracePlugin "a", tracePlugin "b"] ∧
    (handleRequest (refEnv 0 (upstreamOK [] "ok"))
      ([tracePlugin "a", tracePlugin "b"].foldl Proxy.RegisterPlugin (NewProxy plainConfig))
      (postRequest "/v1/chat/completions" [] plainBody) ginResponseWriter.fresh).Request.Header
      "X-Hook-Trace" = ["a", "b"] ∧
    (handleRequest (refEnv 0 (upstreamOK [] "ok"))
      ([tracePlugin "b", tracePlugin "a"].foldl Proxy.RegisterPlugin (NewProxy plainConfig))
      (postRequest "/v1/chat/completions" [] plainBody) ginResponseWriter.fresh).Request.Header
      "X-Hook-Trace" = ["b", "a"] :=
  ⟨by decide,
   (C8_hooks_run_in_registration_order (refEnv 0 (upstreamOK [] "ok")) plainConfig
      [tracePlugin "a", tracePlugin "b"] (postRequest "/v1/chat/completions" [] plainBody)
      ginResponseWriter.fresh plainTarget plainBody (by decide)
      (by intro q hq r; simp at hq; rcases hq with hq | hq <;> subst hq <;> rfl)).1,
   by decide, by decide⟩

/-! ## C9: the error handler -/

theorem ErrorHandler_other (w : streamResponseWriter) (err : GoError)
    (h : benignError err = false) :
    (ErrorHandler w err).1 =
      (streamResponseWriter.Write (w.WriteHeader 502) ("Proxy Error: " ++ err.Error)).1 := by
  unfold benignError at h
  simp only [Bool.or_eq_false_iff, decide_eq_false_iff_not] at h
  obtain ⟨⟨h1, h2a, h2b⟩, h3, h4⟩ := h
  unfold ErrorHandler
  simp [h1, h2a, h2b, h3, h4]

theorem ErrorHandler_writes_on_fresh (w : ginResponseWriter) (err : GoError) (hw : w.untouched) :
    benignError err = false →
      (ErrorHandler (newStreamResponseWriter w) err).1 =
        (streamResponseWriter.Write ((newStreamResponseWriter w).WriteHeader 502)
          ("Proxy Error: " ++ err.Error)).1 ∧
      (ErrorHandler (newStreamResponseWriter w) err).1.Status = 502 ∧
      (ErrorHandler (newStreamResponseWriter w) err).1.ResponseWriter.sent.map Prod.fst
        = some 502 ∧
      (ErrorHandler (newStreamResponseWriter w) err).1.ResponseWriter.body =
        "Proxy Error: " ++ err.Error := by
  obtain ⟨hs, hb, hl⟩ := hw
  have hs : w.sent = none := by simpa [ginResponseWriter.Written] using hs
  intro h
  rw [ErrorHandler_other _ err h]
  refine ⟨rfl, ?_, ?_, ?_⟩
  · simp [streamResponseWriter.Write, streamResponseWriter.WriteHeader,
      streamResponseWriter.Status]
  · by_cases h502 : w.status = 502 <;>
    simp [streamResponseWriter.Write, streamResponseWriter.WriteHeader, newStreamResponseWriter,
      ginResponseWriter.Write, ginResponseWriter.WriteHeader, ginResponseWriter.WriteHeaderNow,
      ginResponseWriter.Written, ginResponseWriter.Flush, hs, hl, h502]
  · by_cases h502 : w.status = 502 <;>
    simp [streamResponseWriter.Write, streamResponseWriter.WriteHeader, newStreamResponseWriter,
      ginResponseWriter.Write, ginResponseWriter.WriteHeader, ginResponseWriter.WriteHeaderNow,
      ginResponseWriter.Written, ginResponseWriter.Flush, hs, hl, hb, h502]

/-- The error handler seen from `handleRequest`: when the network call of a
forwarded request fails, the writer the handler leaves is the one the error
handler leaves. -/
theorem handleRequest_upstream_failure (env : Env) (p : Proxy) (req : Request)
    (w : ginResponseWriter) (targetURL : URL) (reqBody : String) (err : GoError)
    (h : reachesPlugins env p.config req targetURL reqBody)
    (hok : (runBeforeRequest p.plugins (stripPathPrefix p.config req)).2.2 = none)
    (hmark : (runBeforeRequest p.plugins (stripPathPrefix p.config req)).1.Header.Get
      "X-Mock-Direct-Response" = "")
    (hup : upstreamCall env p targetURL
      (runBeforeRequest p.plugins (stripPathPrefix p.config req)).1 = .error err)
    (hw : w.untouched) :
    (handleRequest env p req w).Writer =
      .stream (ErrorHandler (newStreamResponseWriter w) err).1 ∧
    (benignError err = false →
      (handleRequest env p req w).relayed.StatusCode = 502 ∧
      (handleRequest env p req w).relayed.Body = "Proxy Error: " ++ err.Error) := by
  have hwr : (handleRequest env p req w).Writer =
      .stream (ErrorHandler (newStreamResponseWriter w) err).1 := by
    rw [handleRequest_forwarded w h hok hmark]
    exact (ServeHTTP_failure env p targetURL _ _ _ _ _ err hup).1
  refine ⟨hwr, ?_⟩
  intro hb
  obtain ⟨_, _, hsent, hbody⟩ := (ErrorHandler_writes_on_fresh w err hw) hb
  simp only [Outcome.relayed, hwr, ResponseWriter.base]
  refine ⟨?_, ?_⟩
  · cases hs : (ErrorHandler (newStreamResponseWriter w) err).1.ResponseWriter.sent with
    | none => rw [hs] at hsent; simp at hsent
    | some v =>
      rw [hs] at hsent
      simp [ginResponseWriter.WriteHeaderNow, ginResponseWriter.Written, hs]
      simpa using hsent
  · cases hs : (ErrorHandler (newStreamResponseWriter w) err).1.ResponseWriter.sent with
    | none => rw [hs] at hsent; simp at hsent
    | some v =>
      simp [ginResponseWriter.WriteHeaderNow, ginResponseWriter.Written, hs]
      exact hbody

/-! ## C10: CORS headers of the upstream -/

theorem gin_WriteHeaderNow_writesLeft (g : ginResponseWriter) :
    g.WriteHeaderNow.writesLeft = g.writesLeft := by
  unfold ginResponseWriter.WriteHeaderNow
  split <;> rfl

theorem gin_WriteHeader_writesLeft (g : ginResponseWriter) (code : Nat) :
    (g.WriteHeader code).writesLeft = g.writesLeft := by
  unfold ginResponseWriter.WriteHeader
  split
  · split <;> rfl
  · rfl

theorem gin_Write_ok (g : ginResponseWriter) (data : String) (hl : g.writesLeft = none) :
    (g.Write data).2.2 = none := by
  have h1 := gin_WriteHeaderNow_writesLeft g
  rw [hl] at h1
  unfold ginResponseWriter.Write
  simp only [h1]

theorem relayResponse_not_panicked (env : Env) (isStream : Bool) (w : ginResponseWriter)
    (res : Response) (hl : w.writesLeft = none) :
    (relayResponse env isStream (newStreamResponseWriter w) res).2.2 = none := by
  unfold relayResponse
  simp only
  split
  · rfl
  · simp only [Option.map_eq_none', streamResponseWriter.Write]
    apply gin_Write_ok
    simp only [streamResponseWriter.WriteHeader, gin_WriteHeader_writesLeft,
      streamResponseWriter.mapHeader, newStreamResponseWriter, hl]

theorem committedHeader_mapHeader (g : ginResponseWriter) (f : Header → Header) (k : String)
    (hf : f g.header k = g.header k) :
    committedHeader { g with header := f g.header } k = committedHeader g k := by
  unfold committedHeader ginResponseWriter.WriteHeaderNow ginResponseWriter.Written
  cases hs : g.sent with
  | none => simp [hs, hf]
  | some v => simp [hs]

theorem customRecovery_of_not_panicked (next : Request → ginResponseWriter → Outcome)
    (req : Request) (w : ginResponseWriter) (hp : (next req w).panicked = none) :
    customRecovery next req w = next req w := by
  unfold customRecovery
  simp only
  split
  · rfl
  · rename_i err heq
    rw [hp] at heq
    cases heq

theorem corsMiddleware_of_not_panicked (next : Request → ginResponseWriter → Outcome)
    (req : Request) (w : ginResponseWriter) (hm : req.Method ≠ "OPTIONS")
    (hp : (next req { w with header := corsHeaders w.header }).panicked = none) :
    corsMiddleware next req w =
      { next req { w with header := corsHeaders w.header } with
        Writer := ResponseWriter.mapHeader corsAgain
          (next req { w with header := corsHeaders w.header }).Writer } := by
  unfold corsMiddleware
  simp only [if_neg hm]
  split
  · rename_i e heq
    rw [hp] at heq
    cases heq
  · rfl

/-- The part of C10 that holds for every request and every upstream response:
under the engine of `Start`, a forwarded request whose upstream answers gets
each of the four CORS headers of the gateway exactly once, with the fixed
value, and none of the seven header names that `ModifyResponse` deletes
carries a value of the upstream. -/
theorem serve_cors_headers_fixed (env : Env) (p : Proxy) (req : Request) (targetURL : URL)
    (reqBody : String) (res : Response)
    (h : reachesPlugins env p.config req targetURL reqBody)
    (hok : (runBeforeRequest p.plugins (stripPathPrefix p.config req)).2.2 = none)
    (hmark : (runBeforeRequest p.plugins (stripPathPrefix p.config req)).1.Header.Get
      "X-Mock-Direct-Response" = "")
    (hup : upstreamCall env p targetURL
      (runBeforeRequest p.plugins (stripPathPrefix p.config req)).1 = .ok res) :
    (Proxy.serve env p req).relayed.Header "Access-Control-Allow-Origin" = ["*"] ∧
    (Proxy.serve env p req).relayed.Header "Access-Control-Allow-Methods" =
      ["POST, GET, OPTIONS, PUT, DELETE"] ∧
    (Proxy.serve env p req).relayed.Header "Access-Control-Allow-Headers" = [corsAllowHeaders] ∧
    (Proxy.serve env p req).relayed.Header "Access-Control-Allow-Credentials" = ["true"] ∧
    (Proxy.serve env p req).relayed.Header "Access-Control-Max-Age" = [] ∧
    (Proxy.serve env p req).relayed.Header "Access-Control-Expose-Headers" = [] ∧
    (Proxy.serve env p req).relayed.Header "Access-Control-Request-Method" = [] := by
  have hm : req.Method ≠ "OPTIONS" := h.1
  obtain ⟨w1, hw1def⟩ : ∃ w1 : ginResponseWriter, w1 =
      { ginResponseWriter.fresh with header := corsHeaders ginResponseWriter.fresh.header } :=
    ⟨_, rfl⟩
  have hw1 : w1.Written = false := by rw [hw1def]; rfl
  have hl1 : w1.writesLeft = none := by rw [hw1def]; rfl
  have hhead : ∀ k, w1.header k = corsHeaders Header.empty k := by
    intro k; rw [hw1def]; rfl
  have hfw := handleRequest_forwarded w1 h hok hmark
  obtain ⟨hwr, _, _⟩ := ServeHTTP_response env p targetURL (isStreamRequest env reqBody)
    (newStreamResponseWriter w1) _ (runBeforeRequest p.plugins (stripPathPrefix p.config req)).2.1
    (entryLogs (stripPathPrefix p.config req) reqBody) res hup
  have hpan : (handleRequest env p req w1).panicked = none := by
    rw [hfw]
    have hrt := RoundTrip_result env (env.libOutbound (Director env p targetURL
      (runBeforeRequest p.plugins (stripPathPrefix p.config req)).1
      (runBeforeRequest p.plugins (stripPathPrefix p.config req)).1))
    unfold upstreamCall at hup
    rw [hup] at hrt
    unfold ServeHTTP
    simp only [hrt]
    exact relayResponse_not_panicked env _ w1 res hl1
  have hwriter : (handleRequest env p req w1).Writer =
      .stream (relayResponse env (isStreamRequest env reqBody) (newStreamResponseWriter w1) res).1 := by
    rw [hfw]; exact hwr
  have hbase := relayResponse_header env (isStreamRequest env reqBody) w1 res hw1
  have hcors : corsMiddleware (handleRequest env p) req ginResponseWriter.fresh =
      { handleRequest env p req w1 with
        Writer := ResponseWriter.mapHeader corsAgain (handleRequest env p req w1).Writer } := by
    rw [hw1def] at hpan ⊢
    exact corsMiddleware_of_not_panicked _ req _ hm hpan
  have hserve : Proxy.serve env p req =
      { handleRequest env p req w1 with
        Writer := ResponseWriter.mapHeader corsAgain (handleRequest env p req w1).Writer } := by
    unfold Proxy.serve
    rw [customRecovery_of_not_panicked _ _ _ (by rw [hcors]; exact hpan), hcors]
  have hrelayed : ∀ k : String, (Proxy.serve env p req).relayed.Header k =
      committedHeader
        { (relayResponse env (isStreamRequest env reqBody) (newStreamResponseWriter w1)
            res).1.ResponseWriter with
          header := corsAgain (relayResponse env (isStreamRequest env reqBody)
            (newStreamResponseWriter w1) res).1.ResponseWriter.header } k := by
    intro k
    rw [hserve]
    simp only [Outcome.relayed, hwriter, ResponseWriter.mapHeader, ResponseWriter.base,
      streamResponseWriter.mapHeader]
  have hother : ∀ k : String, k ≠ "Access-Control-Allow-Origin" →
      (Proxy.serve env p req).relayed.Header k =
        copyHeader w1.header
          (ModifyResponse (isStreamRequest env reqBody) (env.libInbound res)).Header k := by
    intro k hk
    rw [hrelayed, ← hbase]
    exact committedHeader_mapHeader _ _ k (by simp [corsAgain, Header.Set, Header.Del, hk])
  have horigin : (Proxy.serve env p req).relayed.Header "Access-Control-Allow-Origin" = ["*"] := by
    rw [hrelayed]
    cases hs : (relayResponse env (isStreamRequest env reqBody) (newStreamResponseWriter w1)
      res).1.ResponseWriter.sent with
    | none =>
      rw [committedHeader_of_sent_none _ (by simpa using hs)]
      simp [corsAgain, Header.Set]
    | some v =>
      rw [committedHeader_of_sent _ v (by simpa using hs)]
      have hb := congrFun hbase "Access-Control-Allow-Origin"
      rw [committedHeader_of_sent _ v hs] at hb
      rw [hb]
      simp only [copyHeader, ModifyResponse, foldl_Del_apply, hhead]
      simp [strippedCORSHeaders, corsHeaders, Header.Set, Header.Del, Header.empty]
  refine ⟨horigin, ?_, ?_, ?_, ?_, ?_, ?_⟩ <;>
  · rw [hother _ (by decide)]
    simp only [copyHeader, ModifyResponse, foldl_Del_apply, hhead]
    simp [strippedCORSHeaders, corsHeaders, Header.Set, Header.Del, Header.empty]

/-- C10 (the code, at the failing input): under the engine of `Start`, the
upstream response carries Access-Control-Allow-Origin,
Access-Control-Allow-Private-Network and Access-Control-Request-Headers.  The
first is among the seven names `ModifyResponse` deletes and the caller
receives the gateway's four headers once each; the other two are not among
them and the caller receives the values of the upstream. -/
theorem C10_upstream_cors_headers_relayed :
    (Proxy.serve (refEnv 0 corsUpstream) (proxyWith [])
      (postRequest "/v1/chat/completions" [] plainBody)).upstream.length = 1 ∧
    (Proxy.serve (refEnv 0 corsUpstream) (proxyWith [])
      (postRequest "/v1/chat/completions" [] plainBody)).relayed.Header
      "Access-Control-Allow-Origin" = ["*"] ∧
    (Proxy.serve (refEnv 0 corsUpstream) (proxyWith [])
      (postRequest "/v1/chat/completions" [] plainBody)).relayed.Header
      "Access-Control-Allow-Methods" = ["POST, GET, OPTIONS, PUT, DELETE"] ∧
    (Proxy.serve (refEnv 0 corsUpstream) (proxyWith [])
      (postRequest "/v1/chat/completions" [] plainBody)).relayed.Header
      "Access-Control-Allow-Headers" = [corsAllowHeaders] ∧
    (Proxy.serve (refEnv 0 corsUpstream) (proxyWith [])
      (postRequest "/v1/chat/completions" [] plainBody)).relayed.Header
      "Access-Control-Allow-Credentials" = ["true"] ∧
    (Proxy.serve (refEnv 0 corsUpstream) (proxyWith [])
      (postRequest "/v1/chat/completions" [] plainBody)).relayed.Header
      "Access-Control-Allow-Private-Network" = ["true"] ∧
    (Proxy.serve (refEnv 0 corsUpstream) (proxyWith [])
      (postRequest "/v1/chat/completions" [] plainBody)).relayed.Header
      "Access-Control-Request-Headers" = ["X-Upstream"] := by
  refine ⟨by decide, by decide, by decide, by decide, by decide, by decide, by decide⟩

/-! ## C11: the request body after the model-map plugin -/

theorem lookup_map_assign (key other : String) (v : Json) (hne : other ≠ key) (l : JsonMap) :
    List.lookup other (l.map (fun kv => if kv.1 == key then (key, v) else kv)) =
      List.lookup other l := by
  induction l with
  | nil => rfl
  | cons kv rest ih =>
    obtain ⟨k, x⟩ := kv
    rw [List.map_cons]
    by_cases hk : k = key
    · subst hk
      have h1 : (other == k) = false := by simpa using hne
      simp only [beq_self_eq_true, if_true, List.lookup_cons, h1, ih]
    · have h2 : (k == key) = false := by simpa using hk
      simp only [h2, Bool.false_eq_true, if_false, List.lookup_cons, ih]

theorem lookup_append_assign (key other : String) (v : Json) (hne : other ≠ key) (l : JsonMap) :
    List.lookup other (l ++ [(key, v)]) = List.lookup other l := by
  induction l with
  | nil =>
    have h1 : (other == key) = false := by simpa using hne
    simp [List.lookup_cons, h1]
  | cons kv rest ih =>
    obtain ⟨k, x⟩ := kv
    rw [List.cons_append, List.lookup_cons, List.lookup_cons, ih]

theorem JsonMap.index_assign_other (m : JsonMap) (key other : String) (v : Json)
    (hne : other ≠ key) : JsonMap.index (JsonMap.assign m key v) other = JsonMap.index m other := by
  unfold JsonMap.index JsonMap.assign
  split
  · rw [lookup_map_assign key other v hne]
  · rw [lookup_append_assign key other v hne]

theorem lookup_map_assign_same (key : String) (v : Json) (l : JsonMap)
    (h : l.any (fun kv => kv.1 == key) = true) :
    List.lookup key (l.map (fun kv => if kv.1 == key then (key, v) else kv)) = some v := by
  induction l with
  | nil => simp at h
  | cons kv rest ih =>
    obtain ⟨k, x⟩ := kv
    rw [List.map_cons]
    by_cases hk : k = key
    · subst hk
      simp only [beq_self_eq_true, if_true, List.lookup_cons]
    · have h2 : (k == key) = false := by simpa using hk
      have h3 : (key == k) = false := by simpa using (fun h : key = k => hk h.symm)
      have h4 : rest.any (fun kv => kv.1 == key) = true := by
        simpa [List.any_cons, h2] using h
      simp only [h2, Bool.false_eq_true, if_false, List.lookup_cons, h3, ih h4]

theorem lookup_append_assign_same (key : String) (v : Json) (l : JsonMap)
    (h : l.any (fun kv => kv.1 == key) = false) :
    List.lookup key (l ++ [(key, v)]) = some v := by
  induction l with
  | nil => simp [List.lookup_cons]
  | cons kv rest ih =>
    obtain ⟨k, x⟩ := kv
    have h2 : (k == key) = false := by
      simp only [List.any_cons, Bool.or_eq_false_iff] at h
      exact h.1
    have h3 : (key == k) = false := by
      have : k ≠ key := by simpa using h2
      simpa using (fun h : key = k => this h.symm)
    have h4 : rest.any (fun kv => kv.1 == key) = false := by
      simp only [List.any_cons, Bool.or_eq_false_iff] at h
      exact h.2
    rw [List.cons_append, List.lookup_cons, h3, ih h4]

theorem JsonMap.index_assign_same (m : JsonMap) (key : String) (v : Json) :
    JsonMap.index (JsonMap.assign m key v) key = v := by
  unfold JsonMap.index JsonMap.assign
  cases h : m.any (fun kv => kv.1 == key) with
  | true => simp only [if_true]; rw [lookup_map_assign_same key v m h]; rfl
  | false => simp only [Bool.false_eq_true, if_false]; rw [lookup_append_assign_same key v m h]; rfl

/-- What `ModelMapPlugin.BeforeRequest` leaves as the body of a
chat-completions request whose body `b` decodes to the map `m`.  When a
mapping applies, the body is the encoding of `m` with the member `model`
replaced, and the content length is its length.  When no mapping applies (the
member `model` is not a string, or has no mapping), the hook returns no error
and the body stays as `io.ReadAll` left it: drained, so that reading it
yields nothing. -/
theorem ModelMapPlugin_body (env : Env) (p : ModelMapPlugin) (req : Request) (b : String)
    (m : JsonMap) (hpath : Contains req.URL.Path "/chat/completions" = true)
    (hb : req.Body = Body.buffer b) (hj : env.jsonUnmarshal b = .ok m) :
    (((JsonMap.index m "model").asString = none ∨
        ∃ model, (JsonMap.index m "model").asString = some model ∧
          p.config.Mappings.lookup model = none) →
      (ModelMapPlugin.BeforeRequest env p req).2 = none ∧
      (ModelMapPlugin.BeforeRequest env p req).1.Body = Body.buffer "" ∧
      (ModelMapPlugin.BeforeRequest env p req).1.Body.ReadAll.1 = "") ∧
    (∀ model mappedModel newBody, (JsonMap.index m "model").asString = some model →
      p.config.Mappings.lookup model = some mappedModel →
      env.jsonMarshalMap (JsonMap.assign m "model" (Json.str mappedModel)) = .ok newBody →
      (ModelMapPlugin.BeforeRequest env p req).2 = none ∧
      (ModelMapPlugin.BeforeRequest env p req).1.Body = Body.buffer newBody ∧
      (ModelMapPlugin.BeforeRequest env p req).1.ContentLength = (newBody.utf8ByteSize : Int)) := by
  refine ⟨?_, ?_⟩
  · intro hno
    rcases hno with hnone | ⟨model, hs, hl⟩
    · simp [ModelMapPlugin.BeforeRequest, hpath, hb, Body.ReadAll, hj, hnone]
    · simp [ModelMapPlugin.BeforeRequest, hpath, hb, Body.ReadAll, hj, hs, hl]
  · intro model mappedModel newBody hs hl hmar
    simp [ModelMapPlugin.BeforeRequest, hpath, hb, Body.ReadAll, hj, hs, hl, hmar]

/-- C11 (the code, at every chat-completions request): after
`ModelMapPlugin.BeforeRequest` has read a body `b` that decodes to `m` and
returned without error, the body is replayable only when a mapping applies:
it then is the encoding of `m` with the member `model` set to the mapped
model and every other member as in `m`.  When no mapping applies (the member
`model` is absent or not a string, or has no mapping), the body is left
drained: reading it yields the empty string, not `b`. -/
theorem C11_body_after_model_map (env : Env) (p : ModelMapPlugin) (req : Request) (b : String)
    (m : JsonMap) (hpath : Contains req.URL.Path "/chat/completions" = true)
    (hb : req.Body = Body.buffer b) (hj : env.jsonUnmarshal b = .ok m) :
    (((JsonMap.index m "model").asString = none ∨
        ∃ model, (JsonMap.index m "model").asString = some model ∧
          p.config.Mappings.lookup model = none) →
      (ModelMapPlugin.BeforeRequest env p req).2 = none ∧
      (ModelMapPlugin.BeforeRequest env p req).1.Body.ReadAll.1 = "") ∧
    (∀ model mappedModel newBody, (JsonMap.index m "model").asString = some model →
      p.config.Mappings.lookup model = some mappedModel →
      env.jsonMarshalMap (JsonMap.assign m "model" (Json.str mappedModel)) = .ok newBody →
      (ModelMapPlugin.BeforeRequest env p req).2 = none ∧
      (ModelMapPlugin.BeforeRequest env p req).1.Body.ReadAll.1 = newBody ∧
      (JsonMap.index (JsonMap.assign m "model" (Json.str mappedModel)) "model").asString
        = some mappedModel ∧
      ∀ other, other ≠ "model" →
        JsonMap.index (JsonMap.assign m "model" (Json.str mappedModel)) other
          = JsonMap.index m other) := by
  obtain ⟨h1, h2⟩ := ModelMapPlugin_body env p req b m hpath hb hj
  refine ⟨fun hno => ⟨(h1 hno).1, (h1 hno).2.2⟩, ?_⟩
  intro model mappedModel newBody hs hl hmar
  obtain ⟨e1, e2, _⟩ := h2 model mappedModel newBody hs hl hmar
  refine ⟨e1, ?_, ?_, ?_⟩
  · rw [e2]; rfl
  · rw [JsonMap.index_assign_same]; rfl
  · intro other hne
    exact JsonMap.index_assign_other m "model" other _ hne

/-- C11 at the failing input: the mappings of `main.go` have no entry for
`deepseek-r1`; the hook returns no error and reading the body afterwards
yields the empty string, while the body the caller sent is not empty.  A
gateway with this plugin registered hands the drained body to the Director. -/
theorem C11_body_after_model_map_witness :
    Contains (postRequest "/v1/chat/completions" [] unmappedBody).URL.Path "/chat/completions"
      = true ∧
    ((Ref.jsonUnmarshal unmappedBody).toOption.map
      (fun m => (JsonMap.index m "model").asString)) = some (some "deepseek-r1") ∧
    mainModelMap.config.Mappings.lookup "deepseek-r1" = none ∧
    (ModelMapPlugin.BeforeRequest (refEnv 0 (upstreamOK [] "ok")) mainModelMap
      (postRequest "/v1/chat/completions" [] unmappedBody)).2 = none ∧
    (ModelMapPlugin.BeforeRequest (refEnv 0 (upstreamOK [] "ok")) mainModelMap
      (postRequest "/v1/chat/completions" [] unmappedBody)).1.Body.ReadAll.1 = "" ∧
    unmappedBody ≠ "" ∧
    (handleRequest (refEnv 0 (upstreamOK [] "ok"))
      (proxyWith [ModelMapPlugin.toPlugin (refEnv 0 (upstreamOK [] "ok")) mainModelMap])
      (postRequest "/v1/chat/completions" [] unmappedBody) ginResponseWriter.fresh).outbound.map
      (fun r => r.Body) = some (Body.buffer "") :=
  ⟨by decide, by decide, by decide,
   ((C11_body_after_model_map (refEnv 0 (upstreamOK [] "ok")) mainModelMap
      (postRequest "/v1/chat/completions" [] unmappedBody) unmappedBody
      ((Ref.jsonUnmarshal unmappedBody).toOption.getD []) (by decide) rfl rfl).1
      (Or.inr ⟨"deepseek-r1", rfl, by decide⟩)).1,
   ((C11_body_after_model_map (refEnv 0 (upstreamOK [] "ok")) mainModelMap
      (postRequest "/v1/chat/completions" [] unmappedBody) unmappedBody
      ((Ref.jsonUnmarshal unmappedBody).toOption.getD []) (by decide) rfl rfl).1
      (Or.inr ⟨"deepseek-r1", rfl, by decide⟩)).2,
   by decide, by decide⟩

/-! ## C12: the after-response hooks -/

theorem runBeforeRequest_map (f : Plugin → Plugin)
    (hf : ∀ q, (f q).BeforeRequest = q.BeforeRequest) (ps : List Plugin) (req : Request) :
    runBeforeRequest (ps.map f) req =
      ((runBeforeRequest ps req).1, (runBeforeRequest ps req).2.1.map f,
       (runBeforeRequest ps req).2.2) := by
  induction ps generalizing req with
  | nil => rfl
  | cons q rest ih =>
    simp only [List.map_cons, runBeforeRequest, hf]
    rcases hq : q.BeforeRequest req with ⟨r1, e1⟩
    cases e1 with
    | some err => rfl
    | none => simp only [ih r1, List.map_cons]

theorem ServeHTTP_same_config (env : Env) (p q : Proxy) (targetURL : URL) (isStream : Bool)
    (rw : streamResponseWriter) (c : Request) (hooks hooks2 : List Plugin)
    (logs : List LogEntry) (hcfg : q.config = p.config) :
    ServeHTTP env q targetURL isStream rw c hooks2 logs =
      { ServeHTTP env p targetURL isStream rw c hooks logs with hooks := hooks2 } := by
  have hd : Director env q targetURL c c = Director env p targetURL c c := by
    simp only [Director, hcfg]
  have hl : DirectorLogs q targetURL c c = DirectorLogs p targetURL c c := by
    simp only [DirectorLogs, hcfg]
  unfold ServeHTTP
  simp only [hd, hl]
  split <;> rfl

theorem ServeHTTP_hooks (env : Env) (p : Proxy) (targetURL : URL) (isStream : Bool)
    (rw : streamResponseWriter) (c : Request) (hooks : List Plugin) (logs : List LogEntry) :
    (ServeHTTP env p targetURL isStream rw c hooks logs).hooks = hooks := by
  unfold ServeHTTP
  simp only
  split <;> rfl

theorem pluginsAndForward_same_before (env : Env) (p : Proxy) (f : Plugin → Plugin)
    (hf : ∀ q, (f q).BeforeRequest = q.BeforeRequest) (targetURL : URL) (isStream : Bool)
    (w : streamResponseWriter) (req : Request) (logs : List LogEntry) :
    pluginsAndForward env { p with plugins := p.plugins.map f } targetURL isStream w req logs =
      { pluginsAndForward env p targetURL isStream w req logs with
        hooks := (pluginsAndForward env p targetURL isStream w req logs).hooks.map f } := by
  unfold pluginsAndForward
  simp only [runBeforeRequest_map f hf]
  split
  · rfl
  · split
    · rfl
    · rw [ServeHTTP_same_config env p { p with plugins := p.plugins.map f } targetURL isStream w
        _ (runBeforeRequest p.plugins req).2.1 _ logs rfl]
      rw [ServeHTTP_hooks]

theorem handleRequest_same_before (env : Env) (p : Proxy) (f : Plugin → Plugin)
    (hf : ∀ q, (f q).BeforeRequest = q.BeforeRequest) (req : Request) (w : ginResponseWriter) :
    handleRequest env { p with plugins := p.plugins.map f } req w =
      { handleRequest env p req w with hooks := (handleRequest env p req w).hooks.map f } := by
  unfold handleRequest
  simp only
  split
  · rfl
  · split
    · rfl
    · split
      · rfl
      · split
        · rfl
        · split
          · rfl
          · exact pluginsAndForward_same_before env p f hf _ _ _ _ _

theorem ServeHTTP_afterHooks (env : Env) (p : Proxy) (targetURL : URL) (isStream : Bool)
    (rw : streamResponseWriter) (c : Request) (hooks : List Plugin) (logs : List LogEntry) :
    (ServeHTTP env p targetURL isStream rw c hooks logs).afterHooks = [] := by
  unfold ServeHTTP
  simp only
  split <;> rfl

theorem pluginsAndForward_afterHooks (env : Env) (p : Proxy) (targetURL : URL) (isStream : Bool)
    (w : streamResponseWriter) (req : Request) (logs : List LogEntry) :
    (pluginsAndForward env p targetURL isStream w req logs).afterHooks = [] := by
  unfold pluginsAndForward
  simp only
  split
  · rfl
  · split
    · rfl
    · exact ServeHTTP_afterHooks _ _ _ _ _ _ _ _

theorem handleRequest_afterHooks (env : Env) (p : Proxy) (req : Request) (w : ginResponseWriter) :
    (handleRequest env p req w).afterHooks = [] := by
  unfold handleRequest
  simp only
  split
  · rfl
  · split
    · rfl
    · split
      · rfl
      · split
        · rfl
        · split
          · rfl
          · exact pluginsAndForward_afterHooks _ _ _ _ _ _ _

/-- C12 (the code, at every request): `handleRequest` invokes no
after-response hook, and what it does is independent of the after-response
hooks of the registered interceptors: with every after-response hook replaced
by an arbitrary other one, the writer, the request, the outbound request, the
requests handed to the transport and the log entries are the same. -/
theorem C12_after_hooks_never_invoked (env : Env) (p : Proxy) (req : Request)
    (w : ginResponseWriter)
    (after : Plugin → Response → Option (Response × Option GoError)) :
    (handleRequest env p req w).afterHooks = [] ∧
    (handleRequest env { p with plugins := p.plugins.map (replaceAfter after) } req w).Writer
      = (handleRequest env p req w).Writer ∧
    (handleRequest env { p with plugins := p.plugins.map (replaceAfter after) } req w).Request
      = (handleRequest env p req w).Request ∧
    (handleRequest env { p with plugins := p.plugins.map (replaceAfter after) } req w).outbound
      = (handleRequest env p req w).outbound ∧
    (handleRequest env { p with plugins := p.plugins.map (replaceAfter after) } req w).upstream
      = (handleRequest env p req w).upstream ∧
    (handleRequest env { p with plugins := p.plugins.map (replaceAfter after) } req w).logs
      = (handleRequest env p req w).logs := by
  have h := handleRequest_same_before env p (replaceAfter after) (fun _ => rfl) req w
  refine ⟨handleRequest_afterHooks env p req w, ?_, ?_, ?_, ?_, ?_⟩ <;> rw [h]

/-- C12 at the failing input: one interceptor is registered whose
after-response hook would replace the body of a response; the request is
forwarded, the upstream answers `ok`, no after-response hook is invoked and
the caller receives `ok`. -/
theorem C12_after_hooks_never_invoked_witness :
    (rewriteAfter.AfterResponse
      { Status := "200 OK", StatusCode := 200, Header := Header.empty, Body := "ok",
        Request := postRequest "/v1/chat/completions" [] plainBody }).map (fun r => r.1.Body)
      = some "rewritten by the after-hook" ∧
    (handleRequest (refEnv 0 (upstreamOK [] "ok")) (proxyWith [rewriteAfter])
      (postRequest "/v1/chat/completions" [] plainBody) ginResponseWriter.fresh).hooks.length
      = 1 ∧
    (handleRequest (refEnv 0 (upstreamOK [] "ok")) (proxyWith [rewriteAfter])
      (postRequest "/v1/chat/completions" [] plainBody) ginResponseWriter.fresh).upstream.length
      = 1 ∧
    (handleRequest (refEnv 0 (upstreamOK [] "ok")) (proxyWith [rewriteAfter])
      (postRequest "/v1/chat/completions" [] plainBody) ginResponseWriter.fresh).afterHooks
      = [] ∧
    (handleRequest (refEnv 0 (upstreamOK [] "ok")) (proxyWith [rewriteAfter])
      (postRequest "/v1/chat/completions" [] plainBody) ginResponseWriter.fresh).relayed.StatusCode
      = 200 ∧
    (handleRequest (refEnv 0 (upstreamOK [] "ok")) (proxyWith [rewriteAfter])
      (postRequest "/v1/chat/completions" [] plainBody) ginResponseWriter.fresh).relayed.Body
      = "ok" :=
  ⟨by decide, by decide, by decide,
   (C12_after_hooks_never_invoked (refEnv 0 (upstreamOK [] "ok")) (proxyWith [rewriteAfter])
      (postRequest "/v1/chat/completions" [] plainBody) ginResponseWriter.fresh
      (fun q => q.AfterResponse)).1,
   by decide, by decide⟩

/-! ## C13: the log of a failed upstream call -/

theorem RoundTrip_logs_failure (env : Env) (req : Request) (err : GoError)
    (h : env.transport (transportRequest req) = .error err) :
    logError ["Request failed:", err.Error] ∈ (LoggingTransport.RoundTrip env req).2 := by
  unfold LoggingTransport.RoundTrip
  simp only [h]
  simp

theorem ServeHTTP_logs_failure (env : Env) (p : Proxy) (targetURL : URL) (isStream : Bool)
    (rw : streamResponseWriter) (c : Request) (hooks : List Plugin) (logs : List LogEntry)
    (err : GoError) (h : upstreamCall env p targetURL c = .error err) :
    (ServeHTTP env p targetURL isStream rw c hooks logs).logs =
      logs ++ DirectorLogs p targetURL c c ++
        (LoggingTransport.RoundTrip env (env.libOutbound (Director env p targetURL c c))).2 ++
        (ErrorHandler rw err).2 := by
  have hrt := RoundTrip_result env (env.libOutbound (Director env p targetURL c c))
  unfold upstreamCall at h
  rw [h] at hrt
  unfold ServeHTTP
  simp [hrt]

theorem ErrorHandler_logs_benign (w : streamResponseWriter) (err : GoError)
    (h : benignError err = true) : ∀ e ∈ (ErrorHandler w err).2, e.level = Level.info := by
  unfold benignError at h
  unfold ErrorHandler
  by_cases h1 : err = GoError.ErrAbortHandler
  · simp [h1, logInfo]
  · by_cases h2 : (err.Is EPIPE || err.Is ECONNRESET) = true
    · simp [h1, h2, logInfo]
    · by_cases h3 : err = GoError.Canceled ∨ err = GoError.DeadlineExceeded
      · simp [h1, h2, h3, logInfo]
      · exfalso
        simp only [not_or] at h3
        simp [h1, h3.1, h3.2] at h
        exact h2 (by simpa using h)

/-- C13 (the code, at every failed upstream call): when the network call of a
forwarded request fails with `err`, whatever the error is, the log of
`handleRequest` holds the error-level entry `Request failed:` that
`LoggingTransport.RoundTrip` writes before the error handler sees the error.
The error handler itself logs a benign error at informational level only. -/
theorem C13_failed_call_logged_as_error (env : Env) (p : Proxy) (req : Request)
    (w : ginResponseWriter) (targetURL : URL) (reqBody : String) (err : GoError)
    (h : reachesPlugins env p.config req targetURL reqBody)
    (hok : (runBeforeRequest p.plugins (stripPathPrefix p.config req)).2.2 = none)
    (hmark : (runBeforeRequest p.plugins (stripPathPrefix p.config req)).1.Header.Get
      "X-Mock-Direct-Response" = "")
    (hup : upstreamCall env p targetURL
      (runBeforeRequest p.plugins (stripPathPrefix p.config req)).1 = .error err) :
    logError ["Request failed:", err.Error] ∈ (handleRequest env p req w).logs ∧
    logError ["Request failed:", err.Error] ∈ errorEntries (handleRequest env p req w).logs ∧
    (benignError err = true →
      ∀ e ∈ (ErrorHandler (newStreamResponseWriter w) err).2, e.level = Level.info) := by
  have hmem : logError ["Request failed:", err.Error] ∈ (handleRequest env p req w).logs := by
    rw [handleRequest_forwarded w h hok hmark, ServeHTTP_logs_failure _ _ _ _ _ _ _ _ err hup]
    have := RoundTrip_logs_failure env (env.libOutbound (Director env p targetURL
      (runBeforeRequest p.plugins (stripPathPrefix p.config req)).1
      (runBeforeRequest p.plugins (stripPathPrefix p.config req)).1)) err hup
    simp only [List.mem_append]
    exact Or.inl (Or.inr this)
  refine ⟨hmem, ?_, ErrorHandler_logs_benign _ err⟩
  unfold errorEntries
  rw [List.mem_filter]
  exact ⟨hmem, by simp [logError]⟩

/-- C13 at the failing input: the gateway has a default credential, the
upstream call fails with `context.Canceled`, which is benign, and the log
holds one error-level entry, `Request failed: context canceled`. -/
theorem C13_failed_call_logged_as_error_witness :
    reachesPlugins (refEnv 0 canceledUpstream) keyedProxy.config
      (postRequest "/v1/chat/completions" [] plainBody) plainTarget plainBody ∧
    benignError GoError.Canceled = true ∧
    logError ["Request failed:", GoError.Canceled.Error] ∈
      (handleRequest (refEnv 0 canceledUpstream) keyedProxy
        (postRequest "/v1/chat/completions" [] plainBody) ginResponseWriter.fresh).logs ∧
    errorEntries (handleRequest (refEnv 0 canceledUpstream) keyedProxy
        (postRequest "/v1/chat/completions" [] plainBody) ginResponseWriter.fresh).logs
      = [{ level := Level.error, msg := "Request failed: context canceled" }] :=
  ⟨by decide, by decide,
   (C13_failed_call_logged_as_error (refEnv 0 canceledUpstream) keyedProxy
      (postRequest "/v1/chat/completions" [] plainBody) ginResponseWriter.fresh plainTarget
      plainBody GoError.Canceled (by decide) (by decide) (by decide) rfl).1,
   by decide⟩

/-! ## C14: writes through the wrapper -/

theorem gin_WriteHeaderNow_flushes (g : ginResponseWriter) :
    g.WriteHeaderNow.flushes = g.flushes := by
  unfold ginResponseWriter.WriteHeaderNow
  split <;> rfl

theorem gin_Write_flushes (g : ginResponseWriter) (data : String) :
    (g.Write data).1.flushes = g.flushes := by
  have h := gin_WriteHeaderNow_flushes g
  unfold ginResponseWriter.Write
  simp only
  split <;> simp [h]

theorem gin_Flush_flushes (g : ginResponseWriter) : g.Flush.flushes = g.flushes + 1 := rfl

/-- One write operation: the sink receives the bytes, and the flush follows
exactly when the sink reported no error and the wrapper holds a flusher. -/
theorem perform_step (w : streamResponseWriter) (op : WriteOp) :
    (w.perform op).2 = (w.ResponseWriter.Write op.bytes).2 ∧
    (w.perform op).1.ResponseWriter =
      (if (w.ResponseWriter.Write op.bytes).2.2 = none ∧ w.Flusher = true then
        (w.ResponseWriter.Write op.bytes).1.Flush
      else (w.ResponseWriter.Write op.bytes).1) ∧
    (w.perform op).1.size = w.size + (w.ResponseWriter.Write op.bytes).2.1 ∧
    (w.perform op).1.written = true ∧
    (w.perform op).1.Flusher = w.Flusher := by
  cases op <;>
  simp [streamResponseWriter.perform, streamResponseWriter.Write,
    streamResponseWriter.WriteString, ginResponseWriter.WriteString, WriteOp.bytes]

theorem perform_flushes (w : streamResponseWriter) (op : WriteOp) :
    (w.perform op).1.ResponseWriter.flushes =
      w.ResponseWriter.flushes +
        (if (w.perform op).2.2 = none ∧ w.Flusher = true then 1 else 0) := by
  obtain ⟨h1, h2, _⟩ := perform_step w op
  rw [h2, h1]
  split
  · rw [gin_Flush_flushes, gin_Write_flushes]
  · rw [gin_Write_flushes]; rfl

theorem performAll_spec (ops : List WriteOp) (w : streamResponseWriter) :
    (performAll ops w).1.size = w.size + ((performAll ops w).2.map Prod.fst).sum ∧
    (performAll ops w).1.written = (w.written || !ops.isEmpty) ∧
    (performAll ops w).1.Flusher = w.Flusher ∧
    (performAll ops w).1.ResponseWriter.flushes =
      w.ResponseWriter.flushes +
        (if w.Flusher = true then acceptedWrites (performAll ops w).2 else 0) ∧
    (performAll ops w).2.length = ops.length := by
  induction ops generalizing w with
  | nil => simp [performAll, acceptedWrites]
  | cons op rest ih =>
    obtain ⟨i1, i2, i3, i4, i5⟩ := ih (w.perform op).1
    obtain ⟨s1, _, s3, s4, s5⟩ := perform_step w op
    have hf := perform_flushes w op
    simp only [performAll]
    refine ⟨?_, ?_, ?_, ?_, ?_⟩
    · rw [i1, s3, s1]
      simp [Nat.add_assoc]
    · rw [i2, s4]
      simp
    · rw [i3, s5]
    · rw [i4, hf, s5]
      by_cases hfl : w.Flusher = true
      · by_cases he : (w.perform op).2.2 = none
        · simp [hfl, he, acceptedWrites, List.filter_cons]
          omega
        · simp [hfl, he, acceptedWrites, List.filter_cons]
      · simp [hfl]
    · simp [i5]

/-- C14 (as amended): for every sequence of `Write` and `WriteString` calls
on a wrapper created over a sink, with or without a flusher: a write operation
is followed immediately by a flush of the sink exactly when the sink reported
no error for it and the wrapper holds a flusher (a write the sink rejects is
not followed by a flush), so the sink is flushed once for every accepted
write; `Size()` is the sum of the byte counts that came back from the sink;
and `Written()` is true exactly when the sequence has at least one
operation. -/
theorem C14_writes_through_wrapper (original : ginResponseWriter) (flusher : Bool)
    (ops : List WriteOp) :
    (∀ (w : streamResponseWriter) (op : WriteOp),
      (w.perform op).2 = (w.ResponseWriter.Write op.bytes).2 ∧
      (w.perform op).1.ResponseWriter =
        (if (w.ResponseWriter.Write op.bytes).2.2 = none ∧ w.Flusher = true then
          (w.ResponseWriter.Write op.bytes).1.Flush
        else (w.ResponseWriter.Write op.bytes).1)) ∧
    (performAll ops { newStreamResponseWriter original with Flusher := flusher }).1.ResponseWriter.flushes
      = original.flushes +
        (if flusher = true then
          acceptedWrites
            (performAll ops { newStreamResponseWriter original with Flusher := flusher }).2
        else 0) ∧
    (performAll ops { newStreamResponseWriter original with Flusher := flusher }).1.Size
      = ((performAll ops { newStreamResponseWriter original with Flusher := flusher }).2.map
          Prod.fst).sum ∧
    ((performAll ops { newStreamResponseWriter original with Flusher := flusher }).1.Written = true
      ↔ ops ≠ []) := by
  obtain ⟨h1, h2, _, h4, _⟩ :=
    performAll_spec ops ⟨original, flusher, false, 0, 200⟩
  refine ⟨fun w op => ⟨(perform_step w op).1, (perform_step w op).2.1⟩, ?_, ?_, ?_⟩
  · exact h4
  · show (performAll ops ⟨original, flusher, false, 0, 200⟩).1.size = _
    rw [h1]
    exact Nat.zero_add _
  · show (performAll ops ⟨original, flusher, false, 0, 200⟩).1.written = true ↔ _
    rw [h2]
    show (false || !ops.isEmpty) = true ↔ _
    cases ops <;> simp

/-- C14 at a caller that disconnects after two writes: of three operations
the sink accepts two, with 2 and 3 bytes, and rejects the third; the sink is
flushed twice, `Size()` is 5 and `Written()` is true. -/
theorem C14_writes_through_wrapper_witness :
    (performAll [WriteOp.Write "ab", WriteOp.WriteString "cde", WriteOp.Write "f"]
      (newStreamResponseWriter breakingSink)).2
      = [(2, none), (3, none), (0, some (GoError.Wrap "write: broken pipe" EPIPE))] ∧
    (performAll [WriteOp.Write "ab", WriteOp.WriteString "cde", WriteOp.Write "f"]
      (newStreamResponseWriter breakingSink)).1.ResponseWriter.flushes = 2 ∧
    (performAll [WriteOp.Write "ab", WriteOp.WriteString "cde", WriteOp.Write "f"]
      (newStreamResponseWriter breakingSink)).1.Size = 5 ∧
    (performAll [WriteOp.Write "ab", WriteOp.WriteString "cde", WriteOp.Write "f"]
      { newStreamResponseWriter breakingSink with Flusher := true }).1.Size
      = ((performAll [WriteOp.Write "ab", WriteOp.WriteString "cde", WriteOp.Write "f"]
          { newStreamResponseWriter breakingSink with Flusher := true }).2.map Prod.fst).sum :=
  ⟨by decide, by decide, by decide,
   (C14_writes_through_wrapper breakingSink true
      [WriteOp.Write "ab", WriteOp.WriteString "cde", WriteOp.Write "f"]).2.2.1⟩

/-- C14 as stated fails for a write the sink rejects: the wrapper holds a
flusher, the caller has disconnected, the write comes back with an error, and
no flush follows it. -/
theorem C14_counterexample :
    (newStreamResponseWriter brokenSink).Flusher = true ∧
    ((newStreamResponseWriter brokenSink).perform (WriteOp.Write "data: x\n\n")).2.2 ≠ none ∧
    ((newStreamResponseWriter brokenSink).perform
      (WriteOp.Write "data: x\n\n")).1.ResponseWriter.flushes
      = (newStreamResponseWriter brokenSink).ResponseWriter.flushes ∧
    ((newStreamResponseWriter brokenSink).perform
      (WriteOp.Write "data: x\n\n")).1.ResponseWriter
      ≠ (brokenSink.Write "data: x\n\n").1.Flush := by
  refine ⟨by decide, by decide, by decide, ?_⟩
  intro h
  have := congrArg ginResponseWriter.flushes h
  revert this
  decide

/-! ## C15: a direct-response header that arrives with the request -/

theorem ServeHTTP_upstream (env : Env) (p : Proxy) (targetURL : URL) (isStream : Bool)
    (rw : streamResponseWriter) (c : Request) (hooks : List Plugin) (logs : List LogEntry) :
    (ServeHTTP env p targetURL isStream rw c hooks logs).upstream =
      [env.libOutbound (Director env p targetURL c c)] := by
  unfold ServeHTTP
  simp only
  split <;> rfl

/-- C15 (as amended): for a request that reaches the plugins (not OPTIONS,
with the configured path prefix, not the model listing, with a target URL that
parses and a body that can be read) and for which no before-hook returns an
error, the request is answered directly, without the Director and without a
call of the transport, exactly when the header X-Mock-Direct-Response is
non-empty once the before-hooks have run, and is handed to the transport once
otherwise; so when the request arrives with a non-empty value of that header
and every registered before-hook leaves that header as it is (in particular
when no interceptor is registered), nothing is handed to the transport, the
status is 200 and the body is the value the client sent. -/
theorem C15_client_marker_answers_directly (env : Env) (p : Proxy) (req : Request)
    (w : ginResponseWriter) (targetURL : URL) (reqBody : String)
    (h : reachesPlugins env p.config req targetURL reqBody)
    (hok : (runBeforeRequest p.plugins (stripPathPrefix p.config req)).2.2 = none)
    (hw : w.untouched) :
    ((handleRequest env p req w).upstream = [] ↔
      (runBeforeRequest p.plugins (stripPathPrefix p.config req)).1.Header.Get
        "X-Mock-Direct-Response" ≠ "") ∧
    ((handleRequest env p req w).outbound = none ↔
      (runBeforeRequest p.plugins (stripPathPrefix p.config req)).1.Header.Get
        "X-Mock-Direct-Response" ≠ "") ∧
    ((runBeforeRequest p.plugins (stripPathPrefix p.config req)).1.Header.Get
        "X-Mock-Direct-Response" = "" → (handleRequest env p req w).upstream.length = 1) ∧
    ((∀ q ∈ p.plugins, ∀ r : Request,
        (q.BeforeRequest r).1.Header.Get "X-Mock-Direct-Response" =
          r.Header.Get "X-Mock-Direct-Response") →
      req.Header.Get "X-Mock-Direct-Response" ≠ "" →
      (handleRequest env p req w).upstream = [] ∧
      (handleRequest env p req w).outbound = none ∧
      (handleRequest env p req w).Writer.Status = 200 ∧
      (handleRequest env p req w).relayed.StatusCode = 200 ∧
      (handleRequest env p req w).relayed.Body = req.Header.Get "X-Mock-Direct-Response") := by
  have hfwd : (runBeforeRequest p.plugins (stripPathPrefix p.config req)).1.Header.Get
      "X-Mock-Direct-Response" = "" →
      (handleRequest env p req w).upstream.length = 1 ∧
      (handleRequest env p req w).outbound ≠ none := by
    intro hm
    rw [handleRequest_reaches w h, pluginsAndForward_forward _ _ _ _ _ _ _ hok hm,
      ServeHTTP_upstream, ServeHTTP_outbound]
    exact ⟨rfl, by simp⟩
  refine ⟨⟨?_, ?_⟩, ⟨?_, ?_⟩, fun hm => (hfwd hm).1, ?_⟩
  · intro hup hm
    have := (hfwd hm).1
    rw [hup] at this
    simp at this
  · intro hm
    exact (handleRequest_direct env p req w targetURL reqBody h hok hm hw).1
  · intro hout hm
    exact (hfwd hm).2 hout
  · intro hm
    exact (handleRequest_direct env p req w targetURL reqBody h hok hm hw).2.1
  · intro hkeep hreq
    have hsame := runBeforeRequest_keeps "X-Mock-Direct-Response" p.plugins
      (stripPathPrefix p.config req) hkeep
    rw [stripPathPrefix_Header] at hsame
    have hm : (runBeforeRequest p.plugins (stripPathPrefix p.config req)).1.Header.Get
        "X-Mock-Direct-Response" ≠ "" := by
      rw [hsame]; exact hreq
    have hd := handleRequest_direct env p req w targetURL reqBody h hok hm hw
    rw [hsame] at hd
    exact hd

/-- C15 at a proxy without any interceptor: a request that arrives with the
header value `made up by the client` is answered with status 200 and that
value as the body, and nothing is handed to the transport. -/
theorem C15_client_marker_answers_directly_witness :
    reachesPlugins (refEnv 0 (upstreamOK [] "from upstream")) (proxyWith []).config
      (markedRequest "made up by the client") plainTarget plainBody ∧
    (runBeforeRequest (proxyWith []).plugins
      (stripPathPrefix (proxyWith []).config (markedRequest "made up by the client"))).2.2 = none ∧
    ginResponseWriter.fresh.untouched ∧
    (markedRequest "made up by the client").Header.Get "X-Mock-Direct-Response"
      = "made up by the client" ∧
    (handleRequest (refEnv 0 (upstreamOK [] "from upstream")) (proxyWith [])
      (markedRequest "made up by the client") ginResponseWriter.fresh).upstream = [] ∧
    (handleRequest (refEnv 0 (upstreamOK [] "from upstream")) (proxyWith [])
      (markedRequest "made up by the client") ginResponseWriter.fresh).relayed.StatusCode = 200 ∧
    (handleRequest (refEnv 0 (upstreamOK [] "from upstream")) (proxyWith [])
      (markedRequest "made up by the client") ginResponseWriter.fresh).relayed.Body
      = "made up by the client" :=
  ⟨by decide, by decide, by decide, by decide,
   ((C15_client_marker_answers_directly (refEnv 0 (upstreamOK [] "from upstream")) (proxyWith [])
      (markedRequest "made up by the client") ginResponseWriter.fresh plainTarget plainBody
      (by decide) (by decide) (by decide)).2.2.2
      (fun _ hq => absurd hq (List.not_mem_nil _)) (by decide)).1,
   by decide, by decide⟩

/-- C15 as stated fails: each request below is a POST request, not to the
model listing, that arrives with the header value `A`, and no before-hook
returns an error.  With an interceptor registered whose before-hook removes
the header, the request is handed to the transport and the caller receives the
body of the upstream; with an interceptor that replaces the value, the caller
receives the replacement.  With no interceptor registered: behind the path
prefix `/openai` the answer is 404 with an empty body, with a target URL that
does not parse it is 500, and with a body that cannot be read it is 400. -/
theorem C15_counterexample :
    ((markedRequest "A").Method ≠ "OPTIONS" ∧ (markedRequest "A").URL.Path ≠ "/v1/models" ∧
      (markedRequest "A").Header.Get "X-Mock-Direct-Response" = "A") ∧
    ((runBeforeRequest (proxyWith [dropMarker]).plugins (markedRequest "A")).2.2 = none ∧
      (handleRequest (refEnv 0 (upstreamOK [] "from upstream")) (proxyWith [dropMarker])
        (markedRequest "A") ginResponseWriter.fresh).upstream.length = 1 ∧
      (handleRequest (refEnv 0 (upstreamOK [] "from upstream")) (proxyWith [dropMarker])
        (markedRequest "A") ginResponseWriter.fresh).relayed.Body = "from upstream") ∧
    ((runBeforeRequest (proxyWith [attachMarker "B"]).plugins (markedRequest "A")).2.2 = none ∧
      (handleRequest (refEnv 0 (upstreamOK [] "from upstream")) (proxyWith [attachMarker "B"])
        (markedRequest "A") ginResponseWriter.fresh).relayed.Body = "B") ∧
    (prefixProxy.plugins = [] ∧
      (handleRequest (refEnv 0 (upstreamOK [] "from upstream")) prefixProxy
        (markedRequest "A") ginResponseWriter.fresh).relayed.StatusCode = 404 ∧
      (handleRequest (refEnv 0 (upstreamOK [] "from upstream")) prefixProxy
        (markedRequest "A") ginResponseWriter.fresh).relayed.Body = "") ∧
    (brokenTargetProxy.plugins = [] ∧
      (handleRequest (refEnv 0 (upstreamOK [] "from upstream")) brokenTargetProxy
        (markedRequest "A") ginResponseWriter.fresh).relayed.StatusCode = 500) ∧
    ((truncatedRequest "A").Method ≠ "OPTIONS" ∧
      (truncatedRequest "A").URL.Path ≠ "/v1/models" ∧
      (truncatedRequest "A").Header.Get "X-Mock-Direct-Response" = "A" ∧
      (handleRequest (refEnv 0 (upstreamOK [] "from upstream")) (proxyWith [])
        (truncatedRequest "A") ginResponseWriter.fresh).relayed.StatusCode = 400) := by
  refine ⟨by decide, by decide, by decide, ⟨rfl, by decide, by decide⟩, ⟨rfl, by decide⟩,
    by decide⟩

end OpenapiProxy
